import Mathlib

/-!
StarletParser: the ASCII PLY mesh decoder (`src/plyParser.cpp`).

A shallow embedding of `Parser::parsePlyMesh` and the four stages it drives
(`parsePlyHeader`, `parsePlyElementLine`, `parsePlyPropertyLine`,
`parseVertices`, `parseIndices`), followed by theorems about them.

Conventions of the embedding.

* A byte is a `Nat`.  A cursor `const unsigned char* p` into the NUL-terminated
  input is the list of bytes from `p` to the end of the buffer; `*p` is the head
  of that list, and `0` once the list is exhausted.  Two cursors into the same
  buffer are equal as pointers exactly when they have the same length.  The
  empty input is the buffer `[0]` that holds only the terminator; the list `[]`
  is a vector of size 0, the one `file.empty()` (line 14) is true of.
* `unsigned int` is a `Nat` below `2 ^ 32`; arithmetic that can overflow is
  written with an explicit `% 2 ^ 32`.
* A `float` is the rational number a binary32 value denotes.  `parseFloat`
  rounds the decimal value of a token to binary32 (to nearest, ties to even), so
  that the comparisons of the source (lines 199-202, 239-240) are made on the
  values the program holds.  An overflowing token gives infinity, which is
  written `2 ^ 128`, the first power of two above `FLT_MAX`; the source only
  compares and stores such a value.  The quotients `static_cast<float>(n) / 255.0f`
  (lines 221-224) are kept exact.
* Reference parameters become extra results; `bool` results become a `Bool`
  component or an `Option`.
* Diagnostics (`error`, `debugLog`) only log and return `false`; they are not
  represented.
* `while` loops recurse on a fuel argument that bounds the number of iterations;
  every iteration moves the cursor to a strictly later line, so the length of
  the cursor plus one is always enough.
-/

namespace PlyParser

/-! ## Data model (`StarletGraphics/mesh/mesh.hpp`, `StarletMath`) -/

/-- Two-component float vector (`Vec2<float>`). -/
structure Vec2 where
  x : ℚ
  y : ℚ
  deriving DecidableEq

/-- Three-component float vector (`Vec3<float>`); `r`, `g`, `b` alias `x`, `y`, `z`. -/
structure Vec3 where
  x : ℚ
  y : ℚ
  z : ℚ
  deriving DecidableEq

/-- Four-component float vector (`Vec4<float>`). -/
structure Vec4 where
  x : ℚ
  y : ℚ
  z : ℚ
  w : ℚ
  deriving DecidableEq

/-- Modelled from the spec: the `Vertex` record of the mesh header, which is
not part of this source file: position, normal, colour (RGBA) and texture
coordinate. -/
structure Vertex where
  pos : Vec3
  norm : Vec3
  col : Vec4
  texCoord : Vec2
  deriving DecidableEq

/-- Modelled from the spec: the default-constructed `Vertex{}`.  Position,
normal and texture coordinate are zeroed; the colour default is opaque white. -/
def Vertex.default : Vertex :=
  { pos := ⟨0, 0, 0⟩, norm := ⟨0, 0, 0⟩, col := ⟨1, 1, 1, 1⟩, texCoord := ⟨0, 0⟩ }

/-- Modelled from the spec: the `MeshCPU` record of the mesh header, which is
not part of this source file: the two buffers, the three counts, the three
presence flags and the Y extent. -/
structure MeshCPU where
  vertices : List Vertex
  indices : List Nat
  numVertices : Nat
  numIndices : Nat
  numTriangles : Nat
  hasNormals : Bool
  hasColours : Bool
  hasTexCoords : Bool
  minY : ℚ
  maxY : ℚ
  deriving DecidableEq

/-- The largest finite binary32 value, `FLT_MAX = (2^24 - 1) * 2^104`. -/
def FLT_MAX : ℚ := 340282346638528859811704183484516925440

/-! ## Lexical scanner (declared in `StarletParsers/parser.hpp`) -/

/-- The byte under the cursor, `*p`; `0` at the end of the buffer. -/
def peek (p : List Nat) : Nat := p.headD 0

/-- The bytes of a text, used to write inputs down. -/
def bytes (s : String) : List Nat := s.toList.map Char.toNat

/-- Space or tab. -/
def isBlank (c : Nat) : Bool := c == 32 || c == 9

/-- Line feed or carriage return. -/
def isEOL (c : Nat) : Bool := c == 10 || c == 13

/-- ASCII digit. -/
def isDigit (c : Nat) : Bool := 48 ≤ c && c ≤ 57

/-- Modelled from the spec: `skipWhitespace(cursor)`, which is not part of this
source file: advances past space and tab bytes (not newline); never fails. -/
def skipWhitespace : List Nat → List Nat
  | [] => []
  | c :: cs => if isBlank c then skipWhitespace cs else c :: cs

/-- Modelled from the spec: `skipToNextLine(p)`, the `nextLineStart` half of
`lineBounds`, which is not part of this source file: finds the next
newline/carriage-return sequence (`\n`, `\r\n` or `\r`) and points past it; if
no terminator is found it points at the buffer end (the terminating NUL). -/
def skipToNextLine : List Nat → List Nat
  | [] => []
  | c :: cs =>
    if c = 0 then c :: cs
    else if c = 10 then cs
    else if c = 13 then (if peek cs = 10 then cs.tail else cs)
    else skipToNextLine cs

/-- Modelled from the spec: `trimEOL(p, nextLine)`, the `lineEnd` half of
`lineBounds`, which is not part of this source file: the cursor obtained by
moving `nextLine` back over the trailing EOL bytes of the line that starts at
`p`, never before `p`. -/
def trimEOL (p nextLine : List Nat) : List Nat :=
  let line := p.take (p.length - nextLine.length)
  let content := (line.reverse.dropWhile isEOL).reverse
  p.drop content.length

/-- Pointer equality of two cursors into the same buffer. -/
def samePos (p q : List Nat) : Bool := p.length == q.length

/-- The maximal run of ASCII digits at the cursor. -/
def digitRun : List Nat → List Nat
  | [] => []
  | c :: cs => if isDigit c then c :: digitRun cs else []

/-- The value of a run of ASCII digits, most significant first, as a natural number. -/
def digitsValue (ds : List Nat) : Nat := ds.foldl (fun acc c => acc * 10 + (c - 48)) 0

/-- Modelled from the spec: `parseUInt(p, out)`, which is not part of this
source file: reads a maximal run of ASCII digits into an unsigned integer (32
bits wide, so the value is kept modulo `2 ^ 32`); fails if zero digits are
consumed; on success the cursor is past the digits and any trailing
whitespace.  On failure nothing is consumed and `out` is not written. -/
def parseUInt (p : List Nat) : Option (Nat × List Nat) :=
  let ds := digitRun p
  if ds = [] then none
  else some (digitsValue ds % 2 ^ 32, skipWhitespace (p.drop ds.length))

/-- An optional sign byte: whether it is a minus, and the cursor after it. -/
def takeSign (p : List Nat) : Bool × List Nat :=
  if peek p = 45 then (true, p.tail)
  else if peek p = 43 then (false, p.tail)
  else (false, p)

/-- The optional exponent part of a float token: `e` or `E`, an optional sign
and at least one digit.  Returns the exponent and the cursor after it; when no
well-formed exponent follows, the exponent is `0` and nothing is consumed. -/
def takeExponent (p : List Nat) : Int × List Nat :=
  if peek p = 101 ∨ peek p = 69 then
    let s := takeSign p.tail
    let ds := digitRun s.2
    if ds = [] then (0, p)
    else ((if s.1 then -(digitsValue ds : Int) else (digitsValue ds : Int)), s.2.drop ds.length)
  else (0, p)

/-- The number of binary digits of `n`; the first argument bounds the recursion. -/
def bitLength : Nat → Nat → Nat
  | 0, _ => 0
  | fuel + 1, n => if n = 0 then 0 else bitLength fuel (n / 2) + 1

/-- The exponent `e` with `2 ^ e ≤ a < 2 ^ (e + 1)`, for a positive rational `a`. -/
def floorLog2 (a : ℚ) : Int :=
  let e : Int := (bitLength a.num.natAbs a.num.natAbs : Int) - (bitLength a.den a.den : Int)
  if a < (2 : ℚ) ^ e then e - 1 else e

/-- The integer nearest to a non-negative rational, the even one of the two on a tie. -/
def roundHalfEven (s : ℚ) : Nat :=
  let f := s.num.natAbs / s.den
  if s - (f : ℚ) < 1 / 2 then f
  else if s - (f : ℚ) > 1 / 2 then f + 1
  else if f % 2 = 0 then f else f + 1

/-- The binary32 value nearest to `x` (IEEE 754 round to nearest, ties to even):
24 significant bits, exponents down to `-126` with gradual underflow below, and
infinity, written `2 ^ 128`, for what rounds above `FLT_MAX`.  Negative zero is `0`. -/
def toBinary32 (x : ℚ) : ℚ :=
  if x = 0 then 0
  else
    let a : ℚ := if x < 0 then -x else x
    let e : Int := max (floorLog2 a) (-126)
    let v : ℚ := (roundHalfEven (a / (2 : ℚ) ^ (e - 23)) : ℚ) * (2 : ℚ) ^ (e - 23)
    let w : ℚ := if v > FLT_MAX then (2 : ℚ) ^ (128 : Int) else v
    if x < 0 then -w else w

/-- Modelled from the spec: `parseFloat(p, out)`, which is not part of this
source file: reads a standard decimal float token (optional sign, digits,
optional fractional part, optional exponent); fails if no valid float token is
present; on success the cursor is past the token and any trailing whitespace.
On failure nothing is consumed and `out` is not written.  `out` is a `float`:
the value written is the decimal value of the token rounded to binary32. -/
def parseFloat (p : List Nat) : Option (ℚ × List Nat) :=
  let s := takeSign p
  let ip := digitRun s.2
  if ip = [] then none
  else
    let p1 := s.2.drop ip.length
    let fp := if peek p1 = 46 then digitRun p1.tail else []
    let p2 := if peek p1 = 46 then p1.tail.drop fp.length else p1
    let e := takeExponent p2
    let mant : ℚ := (digitsValue ip : ℚ) + (digitsValue fp : ℚ) / (10 : ℚ) ^ fp.length
    let val : ℚ := mant * (10 : ℚ) ^ e.1
    some (toBinary32 (if s.1 then -val else val), skipWhitespace e.2)

/-- A byte that ends a token: space, tab, line feed, carriage return or NUL. -/
def isTokenEnd (c : Nat) : Bool := isBlank c || isEOL c || c == 0

/-- The maximal run of non-whitespace bytes at the cursor. -/
def tokenRun : List Nat → List Nat
  | [] => []
  | c :: cs => if isTokenEnd c then [] else c :: tokenRun cs

/-- Modelled from the spec: `parseToken(p, out, maxLen)`, which is not part of
this source file: reads a maximal run of non-whitespace bytes up to
`maxLen - 1`; fails if the run would exceed the bound; on success the cursor is
past the token and any trailing whitespace. -/
def parseToken (p : List Nat) (maxLen : Nat) : Option (List Nat × List Nat) :=
  let t := tokenRun p
  if t.length > maxLen - 1 then none
  else some (t, skipWhitespace (p.drop t.length))

/-- Modelled from the spec: the macro `PARSE_OR(valid = false, parser, target, msg)`,
which is not part of this source file: run `parser(p, target)`; on success the
target is written and the cursor advanced, on failure the diagnostic is logged
and `valid = false` is executed.  The state is the record holding the target,
the cursor and `valid`. -/
def parseOr {α σ : Type} (parser : List Nat → Option (α × List Nat)) (set : σ → α → σ)
    (s : σ × List Nat × Bool) : σ × List Nat × Bool :=
  match parser s.2.1 with
  | some (a, p') => (set s.1 a, p', s.2.2)
  | none => (s.1, s.2.1, false)

/-- `strncmp(p, lit, lit.length) == 0` for a literal without NUL bytes. -/
def startsWith (lit : String) (p : List Nat) : Bool := (bytes lit).isPrefixOf p


/-! ## Header decoder (`plyParser.cpp`, lines 51-142) -/

/-- The five reference parameters of `parsePlyHeader`: the declared counts and
the three presence flags.  At the only call site they are bound to the fields
of the same name of the output mesh. -/
structure HeaderInfo where
  numVertices : Nat
  numTriangles : Nat
  hasNormals : Bool
  hasColours : Bool
  hasTexCoords : Bool
  deriving DecidableEq

/-- The eight local flags of `parsePlyHeader` that record which scalar
properties were declared. -/
structure PropertyFlags where
  hasNx : Bool
  hasNy : Bool
  hasNz : Bool
  hasRed : Bool
  hasGreen : Bool
  hasBlue : Bool
  hasU : Bool
  hasV : Bool
  deriving DecidableEq

/-- `Parser::parsePlyElementLine` (lines 93-106).  The result is the returned
`bool` and the two reference parameters `verticesOut`, `trianglesOut`.  The
cursor it leaves behind is not returned: the caller overwrites it with
`nextLine` on success and never reads it on failure. -/
def parsePlyElementLine (p : List Nat) (verticesOut trianglesOut : Nat) : Bool × Nat × Nat :=
  let p := skipWhitespace (p.drop 7)
  if startsWith ("vertex") p && (p.getD 6 0 == 32 || p.getD 6 0 == 9) then
    let p := skipWhitespace (p.drop 6)
    match parseUInt p with
    | some (n, _) => (true, n, trianglesOut)
    | none => (false, verticesOut, trianglesOut)
  else if startsWith ("face") p && (p.getD 4 0 == 32 || p.getD 4 0 == 9) then
    let p := skipWhitespace (p.drop 4)
    match parseUInt p with
    | some (n, _) => (true, verticesOut, n)
    | none => (false, verticesOut, trianglesOut)
  else (false, verticesOut, trianglesOut)

/-- The chain of `strcmp(propertyName, ...)` tests of lines 133-140. -/
def recordProperty (propertyName : List Nat) (f : PropertyFlags) : PropertyFlags :=
  if propertyName = bytes ("nx") ∨ propertyName = bytes ("normal_x") then { f with hasNx := true }
  else if propertyName = bytes ("ny") ∨ propertyName = bytes ("normal_y") then { f with hasNy := true }
  else if propertyName = bytes ("nz") ∨ propertyName = bytes ("normal_z") then { f with hasNz := true }
  else if propertyName = bytes ("red") then { f with hasRed := true }
  else if propertyName = bytes ("green") then { f with hasGreen := true }
  else if propertyName = bytes ("blue") then { f with hasBlue := true }
  else if propertyName = bytes ("u") ∨ propertyName = bytes ("texture_u") then { f with hasU := true }
  else if propertyName = bytes ("v") ∨ propertyName = bytes ("texture_v") then { f with hasV := true }
  else f

/-- `Parser::parsePlyPropertyLine` (lines 107-142).  `none` is the result
`false`; `some f` is the result `true` with the eight flags after the call.
The flags are only written on the path that returns `true`. -/
def parsePlyPropertyLine (p : List Nat) (f : PropertyFlags) : Option PropertyFlags :=
  let p := skipWhitespace (p.drop 8)
  match parseToken p 32 with
  | none => none
  | some (type, p) =>
    if type = bytes ("list") then
      match parseToken p 32 with
      | none => none
      | some (_, p) =>
        match parseToken p 32 with
        | none => none
        | some (_, p) =>
          match parseToken p 32 with
          | none => none
          | some (_, _) => some f
    else
      match parseToken p 32 with
      | none => none
      | some (propertyName, _) => some (recordProperty propertyName f)

/-- The `while (*p)` loop of `parsePlyHeader` (lines 58-90), with the final
`return error(...)`.  The result is the returned `bool`, the cursor and the
five reference parameters. -/
def parsePlyHeaderLoop : Nat → List Nat → HeaderInfo → PropertyFlags → Bool × List Nat × HeaderInfo
  | 0, p, h, _ => (false, p, h)
  | fuel + 1, p, h, f =>
    if peek p = 0 then (false, p, h)
    else
      let nextLine := skipToNextLine p
      let lineEnd := trimEOL p nextLine
      if samePos lineEnd p then parsePlyHeaderLoop fuel nextLine h f
      else if startsWith ("element") p && (p.getD 7 0 == 32 || p.getD 7 0 == 9) then
        let r := parsePlyElementLine p h.numVertices h.numTriangles
        if r.1 then
          parsePlyHeaderLoop fuel nextLine { h with numVertices := r.2.1, numTriangles := r.2.2 } f
        else (false, p, { h with numVertices := r.2.1, numTriangles := r.2.2 })
      else if startsWith ("property") p then
        match parsePlyPropertyLine p f with
        | some f' => parsePlyHeaderLoop fuel nextLine h f'
        | none => (false, p, h)
      else if startsWith ("end_header") p then
        (true, nextLine,
          { h with hasNormals := f.hasNx && f.hasNy && f.hasNz,
                   hasColours := f.hasRed && f.hasGreen && f.hasBlue,
                   hasTexCoords := f.hasU && f.hasV })
      else parsePlyHeaderLoop fuel nextLine h f

/-- `Parser::parsePlyHeader` (lines 51-91). -/
def parsePlyHeader (p : List Nat) (h : HeaderInfo) : Bool × List Nat × HeaderInfo :=
  let p := skipWhitespace p
  parsePlyHeaderLoop (p.length + 1) p h ⟨false, false, false, false, false, false, false, false⟩

/-! ## Vertex-block decoder (`plyParser.cpp`, lines 144-249) -/

/-- Lines 163-168: the three `PARSE_OR` of the position, in order. -/
def parsePosition (s : Vertex × List Nat × Bool) : Vertex × List Nat × Bool :=
  parseOr parseFloat (fun v a => { v with pos := { v.pos with z := a } })
    (parseOr parseFloat (fun v a => { v with pos := { v.pos with y := a } })
      (parseOr parseFloat (fun v a => { v with pos := { v.pos with x := a } }) s))

/-- Lines 175-180: the three `PARSE_OR` of the normal, in order. -/
def parseNormal (s : Vertex × List Nat × Bool) : Vertex × List Nat × Bool :=
  parseOr parseFloat (fun v a => { v with norm := { v.norm with z := a } })
    (parseOr parseFloat (fun v a => { v with norm := { v.norm with y := a } })
      (parseOr parseFloat (fun v a => { v with norm := { v.norm with x := a } }) s))

/-- Lines 192-197: the three `PARSE_OR` of the float colour into the local `colour`. -/
def parseFloatColour (s : Vec3 × List Nat × Bool) : Vec3 × List Nat × Bool :=
  parseOr parseFloat (fun c a => { c with z := a })
    (parseOr parseFloat (fun c a => { c with y := a })
      (parseOr parseFloat (fun c a => { c with x := a }) s))

/-- Lines 211-216: the three `PARSE_OR` of the integer colour into `ri`, `gi`, `bi`. -/
def parseIntColour (s : (Nat × Nat × Nat) × List Nat × Bool) : (Nat × Nat × Nat) × List Nat × Bool :=
  parseOr parseUInt (fun c a => (c.1, c.2.1, a))
    (parseOr parseUInt (fun c a => (c.1, a, c.2.2))
      (parseOr parseUInt (fun c a => (a, c.2.1, c.2.2)) s))

/-- Lines 190-227: the colour step on a line whose cursor is not at the NUL.
Takes the vertex, the cursor and `valid` (true here); returns them after the step. -/
def parseColour (v : Vertex) (p : List Nat) (valid : Bool) : Vertex × List Nat × Bool :=
  let original := p
  let s := parseFloatColour (⟨1, 1, 1⟩, p, valid)
  let colour := s.1
  if s.2.2 && decide (0 ≤ colour.x) && decide (colour.x ≤ 1)
      && decide (0 ≤ colour.y) && decide (colour.y ≤ 1)
      && decide (0 ≤ colour.z) && decide (colour.z ≤ 1) then
    ({ v with col := ⟨colour.x, colour.y, colour.z, 1⟩ }, s.2.1, s.2.2)
  else
    let t := parseIntColour ((0, 0, 0), original, true)
    let ri := t.1.1
    let gi := t.1.2.1
    let bi := t.1.2.2
    let a := match parseUInt t.2.1 with
      | some (ai, p') => (ai, p')
      | none => (255, t.2.1)
    if t.2.2 && decide (ri ≤ 255) && decide (gi ≤ 255) && decide (bi ≤ 255) then
      ({ v with col := ⟨(ri : ℚ) / 255, (gi : ℚ) / 255, (bi : ℚ) / 255, (a.1 : ℚ) / 255⟩ }, a.2, t.2.2)
    else (v, a.2, t.2.2)

/-- Lines 232-236: the two `PARSE_OR` of the texture coordinate, entered only when `valid`. -/
def parseTexCoord (s : Vertex × List Nat × Bool) : Vertex × List Nat × Bool :=
  if s.2.2 then
    parseOr parseFloat (fun v a => { v with texCoord := { v.texCoord with y := a } })
      (parseOr parseFloat (fun v a => { v with texCoord := { v.texCoord with x := a } }) s)
  else s

/-- Lines 162-237: what one iteration of the vertex loop does on a non-blank
line with the slot `v = drawInfo.vertices[i]`, written through the reference.
The result is the slot after the iteration and whether the line was accepted
(the iteration reached `++i`); an abandoned line returns the slot as the
position and normal parsers left it. -/
def parseVertexLine (hasNormals hasColours hasTexCoords : Bool) (v : Vertex) (p : List Nat) :
    Vertex × Bool :=
  let s := parsePosition (v, p, true)
  if !s.2.2 then (s.1, false)
  else
    let s := if hasNormals then parseNormal s else s
    if !s.2.2 then (s.1, false)
    else
      let s := if hasColours && peek s.2.1 != 0 then parseColour s.1 s.2.1 s.2.2 else s
      let s := if hasTexCoords then parseTexCoord s else s
      (s.1, true)

/-- The `while (i < drawInfo.numVertices && *p)` loop of `parseVertices` (lines
150-244) with the two assignments and the `return true` that follow it.  The
arguments after the cursor are the mesh, `minY`, `maxY` and `i`.  The line
`drawInfo.hasColours = true` (204) runs only when `hasColours` is already true
and changes nothing.  `vertices[i]` is read with a default and written with
`List.set`; the orchestrator calls this with `vertices.size() == numVertices`,
so `i` is always in range. -/
def parseVerticesLoop : Nat → List Nat → MeshCPU → ℚ → ℚ → Nat → Bool × List Nat × MeshCPU
  | 0, p, d, _, _, _ => (false, p, d)
  | fuel + 1, p, d, minY, maxY, i =>
    if i < d.numVertices ∧ peek p ≠ 0 then
      let nextLine := skipToNextLine p
      let lineEnd := trimEOL p nextLine
      if samePos lineEnd p then parseVerticesLoop fuel nextLine d minY maxY i
      else if peek p = 0 then (false, p, d)
      else
        let r := parseVertexLine d.hasNormals d.hasColours d.hasTexCoords
          (d.vertices.getD i Vertex.default) p
        let d := { d with vertices := d.vertices.set i r.1 }
        if r.2 then
          let minY := if r.1.pos.y < minY then r.1.pos.y else minY
          let maxY := if r.1.pos.y > maxY then r.1.pos.y else maxY
          parseVerticesLoop fuel nextLine d minY maxY (i + 1)
        else parseVerticesLoop fuel nextLine d minY maxY i
    else (true, p, { d with minY := minY, maxY := maxY })

/-- `Parser::parseVertices` (lines 144-249). -/
def parseVertices (p : List Nat) (drawInfo : MeshCPU) : Bool × List Nat × MeshCPU :=
  if drawInfo.numVertices = 0 then (false, p, drawInfo)
  else parseVerticesLoop (p.length + 1) p drawInfo FLT_MAX (-FLT_MAX) 0

/-! ## Face-block decoder (`plyParser.cpp`, lines 250-296) -/

/-- Lines 277-282: the three `PARSE_OR` of the indices `i0`, `i1`, `i2`. -/
def parseTriangle (s : (Nat × Nat × Nat) × List Nat × Bool) : (Nat × Nat × Nat) × List Nat × Bool :=
  parseOr parseUInt (fun c a => (c.1, c.2.1, a))
    (parseOr parseUInt (fun c a => (c.1, a, c.2.2))
      (parseOr parseUInt (fun c a => (a, c.2.1, c.2.2)) s))

/-- The `while (triangleIndex < drawInfo.numTriangles && *p)` loop of
`parseIndices` (lines 255-295) with the `return true` that follows it.  The last
argument is `triangleIndex`.  `indices[base + k] = v` is `List.set`, which
describes the write when the position is inside the buffer; the source has no
bounds check, and `parseIndicesInBounds` below tells whether every write of a
run is inside the buffer. -/
def parseIndicesLoop : Nat → List Nat → MeshCPU → Nat → Bool × List Nat × MeshCPU
  | 0, p, d, _ => (false, p, d)
  | fuel + 1, p, d, triangleIndex =>
    if triangleIndex < d.numTriangles ∧ peek p ≠ 0 then
      let nextLine := skipToNextLine p
      let lineEnd := trimEOL p nextLine
      if samePos lineEnd p then parseIndicesLoop fuel nextLine d triangleIndex
      else
        match parseUInt p with
        | none => parseIndicesLoop fuel nextLine d triangleIndex
        | some (count, p') =>
          if count ≠ 3 then parseIndicesLoop fuel nextLine d triangleIndex
          else
            let t := parseTriangle ((0, 0, 0), p', true)
            if t.2.2 then
              let base := triangleIndex * 3 % 2 ^ 32
              let d := { d with indices :=
                ((d.indices.set (base + 0) t.1.1).set (base + 1) t.1.2.1).set (base + 2) t.1.2.2 }
              parseIndicesLoop fuel nextLine d (triangleIndex + 1)
            else parseIndicesLoop fuel nextLine d triangleIndex
    else (true, p, d)

/-- `Parser::parseIndices` (lines 250-296). -/
def parseIndices (p : List Nat) (drawInfo : MeshCPU) : Bool × List Nat × MeshCPU :=
  if drawInfo.indices = [] ∨ drawInfo.numIndices = 0 then (false, p, drawInfo)
  else parseIndicesLoop (p.length + 1) p drawInfo 0

/-- Whether every write `indices[base + k] = v` (lines 286-288) of the loop of
`parseIndices` falls inside the index buffer.  It follows the loop of
`parseIndicesLoop` step by step and stops with `false` at the first accepted
face line whose `base + 2` is not below `indices.size()`.  Where it is `false`
the source writes past the buffer, which is undefined behaviour, and the value
of `parseIndicesLoop` describes no run of the program. -/
def parseIndicesInBounds : Nat → List Nat → MeshCPU → Nat → Bool
  | 0, _, _, _ => true
  | fuel + 1, p, d, triangleIndex =>
    if triangleIndex < d.numTriangles ∧ peek p ≠ 0 then
      let nextLine := skipToNextLine p
      let lineEnd := trimEOL p nextLine
      if samePos lineEnd p then parseIndicesInBounds fuel nextLine d triangleIndex
      else
        match parseUInt p with
        | none => parseIndicesInBounds fuel nextLine d triangleIndex
        | some (count, p') =>
          if count ≠ 3 then parseIndicesInBounds fuel nextLine d triangleIndex
          else
            let t := parseTriangle ((0, 0, 0), p', true)
            if t.2.2 then
              let base := triangleIndex * 3 % 2 ^ 32
              if base + 2 < d.indices.length then
                let d := { d with indices :=
                  ((d.indices.set (base + 0) t.1.1).set (base + 1) t.1.2.1).set (base + 2) t.1.2.2 }
                parseIndicesInBounds fuel nextLine d (triangleIndex + 1)
              else false
            else parseIndicesInBounds fuel nextLine d triangleIndex
    else true

/-! ## Orchestrator (`plyParser.cpp`, lines 9-49) -/

/-- Lines 45-48: the rollback after the `while (true)` block, returning `false`. -/
def failMesh (drawInfo : MeshCPU) : Bool × MeshCPU :=
  (false, { drawInfo with indices := [], vertices := [],
                          numVertices := 0, numIndices := 0, numTriangles := 0 })

/-- The header stage as the orchestrator runs it (line 19): `parsePlyHeader` on
the start of the buffer, with the five reference parameters bound to the fields
of `drawInfo`. -/
def headerStage (file : List Nat) (drawInfo : MeshCPU) : Bool × List Nat × HeaderInfo :=
  parsePlyHeader file
    ⟨drawInfo.numVertices, drawInfo.numTriangles, drawInfo.hasNormals, drawInfo.hasColours,
      drawInfo.hasTexCoords⟩

/-- The mesh after the header stage wrote through its five reference parameters. -/
def withHeader (drawInfo : MeshCPU) (h : HeaderInfo) : MeshCPU :=
  { drawInfo with numVertices := h.numVertices, numTriangles := h.numTriangles,
                  hasNormals := h.hasNormals, hasColours := h.hasColours,
                  hasTexCoords := h.hasTexCoords }

/-- `Parser::parsePlyMesh` (lines 9-49) from the point where `loadBinaryFile`
has filled `file` with the bytes of the file.  The result is the returned `bool`
and the output mesh `drawInfo` on return. -/
def parsePlyMesh (file : List Nat) (drawInfo : MeshCPU) : Bool × MeshCPU :=
  if file = [] then (false, drawInfo)
  else
    let hr := headerStage file drawInfo
    let drawInfo := withHeader drawInfo hr.2.2
    if !hr.1 then failMesh drawInfo
    else if drawInfo.numVertices = 0 ∨ drawInfo.numTriangles = 0 then failMesh drawInfo
    else
      let drawInfo := { drawInfo with vertices := List.replicate drawInfo.numVertices Vertex.default }
      let vr := parseVertices hr.2.1 drawInfo
      if !vr.1 then failMesh vr.2.2
      else
        let drawInfo := { vr.2.2 with numIndices := vr.2.2.numTriangles * 3 % 2 ^ 32 }
        let drawInfo := { drawInfo with indices := List.replicate drawInfo.numIndices 0 }
        let ir := parseIndices vr.2.1 drawInfo
        if !ir.1 then failMesh ir.2.2
        else (true, ir.2.2)

/-- The mesh a caller starts from: no vertices, no indices, zero counts, no flags. -/
def emptyMesh : MeshCPU :=
  { vertices := [], indices := [], numVertices := 0, numIndices := 0, numTriangles := 0,
    hasNormals := false, hasColours := false, hasTexCoords := false, minY := 0, maxY := 0 }

/-- The end-to-end input of the specification: a header declaring three
vertices and one face, followed by the four body lines. -/
def scenarioInput : List Nat :=
  bytes ("ply\nformat ascii 1.0\nelement vertex 3\nproperty float x\nproperty float y\nproperty float z\nelement face 1\nproperty list uchar int vertex_indices\nend_header\n0 0 0\n1 0 0\n0 1 0\n3 0 1 2\n")

/-- A mesh that already holds one triangle, as left by an earlier parse. -/
def usedMesh : MeshCPU :=
  { vertices := [Vertex.default, Vertex.default, Vertex.default], indices := [0, 1, 2],
    numVertices := 3, numIndices := 3, numTriangles := 1,
    hasNormals := false, hasColours := false, hasTexCoords := false, minY := 0, maxY := 0 }

/-- A file whose header declares one vertex and 1431655766 faces, with one
vertex line and no face line.  `3 * 1431655766 = 2 ^ 32 + 2`. -/
def overflowInput : List Nat :=
  bytes ("ply\nformat ascii 1.0\nelement vertex 1\nproperty float x\nproperty float y\nproperty float z\nelement face 1431655766\nproperty list uchar int vertex_indices\nend_header\n0 0 0\n")

/-- The mesh the orchestrator hands to `parseVertices` (after lines 19-29). -/
def meshForVertices (file : List Nat) (drawInfo : MeshCPU) : MeshCPU :=
  { withHeader drawInfo (headerStage file drawInfo).2.2 with
    vertices := List.replicate (headerStage file drawInfo).2.2.numVertices Vertex.default }

/-- The result of the vertex stage as the orchestrator runs it (line 30). -/
def vertexStage (file : List Nat) (drawInfo : MeshCPU) : Bool × List Nat × MeshCPU :=
  parseVertices (headerStage file drawInfo).2.1 (meshForVertices file drawInfo)

/-- The mesh the orchestrator hands to `parseIndices` (after lines 35-36). -/
def meshForIndices (file : List Nat) (drawInfo : MeshCPU) : MeshCPU :=
  { (vertexStage file drawInfo).2.2 with
    numIndices := (vertexStage file drawInfo).2.2.numTriangles * 3 % 2 ^ 32,
    indices := List.replicate ((vertexStage file drawInfo).2.2.numTriangles * 3 % 2 ^ 32) 0 }

/-- The result of the face stage as the orchestrator runs it (line 37). -/
def indexStage (file : List Nat) (drawInfo : MeshCPU) : Bool × List Nat × MeshCPU :=
  parseIndices (vertexStage file drawInfo).2.1 (meshForIndices file drawInfo)

/-- The fields of a mesh that the vertex loop never writes, and the length of
the vertex buffer. -/
def sameFrameV (d e : MeshCPU) : Prop :=
  e.indices = d.indices ∧ e.numVertices = d.numVertices ∧ e.numIndices = d.numIndices ∧
  e.numTriangles = d.numTriangles ∧ e.hasNormals = d.hasNormals ∧ e.hasColours = d.hasColours ∧
  e.hasTexCoords = d.hasTexCoords ∧ e.vertices.length = d.vertices.length

/-- The fields of a mesh that the face loop never writes, and the length of
the index buffer. -/
def sameFrameI (d e : MeshCPU) : Prop :=
  e.vertices = d.vertices ∧ e.numVertices = d.numVertices ∧ e.numIndices = d.numIndices ∧
  e.numTriangles = d.numTriangles ∧ e.hasNormals = d.hasNormals ∧ e.hasColours = d.hasColours ∧
  e.hasTexCoords = d.hasTexCoords ∧ e.minY = d.minY ∧ e.maxY = d.maxY ∧
  e.indices.length = d.indices.length

/-- The file of `overflowInput` followed by one triangle line. -/
def overflowFaceInput : List Nat := overflowInput ++ bytes ("3 5 6 7\n")

/-! ## The lines of a buffer, as the specification speaks of them -/

/-- Whether the line that starts at `p` is blank, the test `lineEnd == p` of the three loops. -/
def isBlankLine (p : List Nat) : Bool := samePos (trimEOL p (skipToNextLine p)) p

/-- The successive line starts from `p`: `p`, `skipToNextLine p`, ... up to the
end of the buffer (the NUL).  The first argument bounds the number of lines. -/
def lineStartsAux : Nat → List Nat → List (List Nat)
  | 0, _ => []
  | n + 1, p => if peek p = 0 then [] else p :: lineStartsAux n (skipToNextLine p)

/-- The line starts of a buffer; every line has at least one byte, so the
length of the buffer bounds their number. -/
def lineStarts (p : List Nat) : List (List Nat) := lineStartsAux p.length p

/-- The lines the header decoder looks at: the header skips leading spaces and
tabs once, then goes line by line. -/
def headerLines (file : List Nat) : List (List Nat) := lineStarts (skipWhitespace file)

/-- A line recognised as an element line: `element` followed by a space or tab. -/
def isElementLine (s : List Nat) : Bool :=
  startsWith ("element") s && (s.getD 7 0 == 32 || s.getD 7 0 == 9)

/-- A line recognised as a property line: it starts with `property`. -/
def isPropertyLine (s : List Nat) : Bool := startsWith ("property") s

/-- A line recognised as `end_header`: it starts with `end_header`. -/
def isEndHeaderLine (s : List Nat) : Bool := startsWith ("end_header") s

/-- The header lines before the first line recognised as `end_header`. -/
def linesBeforeEndHeader (file : List Nat) : List (List Nat) :=
  (headerLines file).takeWhile (fun s => !isEndHeaderLine s)

/-- A line on which the header decoder gives up: an element line that
`parsePlyElementLine` rejects, or a property line that `parsePlyPropertyLine`
rejects. -/
def isFatalLine (s : List Nat) : Bool :=
  (isElementLine s && !(parsePlyElementLine s 0 0).1) ||
  (isPropertyLine s &&
    (parsePlyPropertyLine s ⟨false, false, false, false, false, false, false, false⟩).isNone)

/-- The name a scalar property line declares: the token after the type token,
when the type token is not `list`. -/
def scalarPropertyName (s : List Nat) : Option (List Nat) :=
  if isPropertyLine s then
    let q := skipWhitespace (s.drop 8)
    let type := tokenRun q
    if type = bytes ("list") then none
    else some (tokenRun (skipWhitespace (q.drop type.length)))
  else none

/-- The names declared by the scalar property lines before `end_header`. -/
def declaredNames (file : List Nat) : List (List Nat) :=
  (linesBeforeEndHeader file).filterMap scalarPropertyName

/-- The header loop run over a list of line starts instead of a cursor. -/
def headerOnLines : List (List Nat) → HeaderInfo → PropertyFlags → Bool × List Nat × HeaderInfo
  | [], h, _ => (false, [], h)
  | s :: rest, h, f =>
    if isBlankLine s then headerOnLines rest h f
    else if isElementLine s then
      if (parsePlyElementLine s h.numVertices h.numTriangles).1 then
        headerOnLines rest
          { h with numVertices := (parsePlyElementLine s h.numVertices h.numTriangles).2.1,
                   numTriangles := (parsePlyElementLine s h.numVertices h.numTriangles).2.2 } f
      else
        (false, s,
          { h with numVertices := (parsePlyElementLine s h.numVertices h.numTriangles).2.1,
                   numTriangles := (parsePlyElementLine s h.numVertices h.numTriangles).2.2 })
    else if isPropertyLine s then
      match parsePlyPropertyLine s f with
      | some f' => headerOnLines rest h f'
      | none => (false, s, h)
    else if isEndHeaderLine s then
      (true, skipToNextLine s,
        { h with hasNormals := f.hasNx && f.hasNy && f.hasNz,
                 hasColours := f.hasRed && f.hasGreen && f.hasBlue,
                 hasTexCoords := f.hasU && f.hasV })
    else headerOnLines rest h f

/-- The property flags after the scalar property names `names` were recorded in order. -/
def flagsAfter (names : List (List Nat)) (f : PropertyFlags) : PropertyFlags :=
  names.foldl (fun g n => recordProperty n g) f

/-- Record the name of a scalar property line, if the line declares one. -/
def recordOpt (o : Option (List Nat)) (f : PropertyFlags) : PropertyFlags :=
  match o with
  | some n => recordProperty n f
  | none => f

/-- One of the two spellings `a`, `b` of a property occurs among the names `N`. -/
def declares (N : List (List Nat)) (a b : String) : Prop := bytes a ∈ N ∨ bytes b ∈ N

instance (N : List (List Nat)) (a b : String) : Decidable (declares N a b) := by
  unfold declares
  infer_instance

/-- A file whose second line is `element edge 5`, followed by `end_header`. -/
def edgeInput : List Nat := bytes ("ply\nelement edge 5\nend_header\n")

/-- A file with a property line whose name token has 32 bytes, followed by `end_header`. -/
def longTokenInput : List Nat :=
  bytes ("ply\nproperty float abcdefghijklmnopqrstuvwxyz012345\nend_header\n")

/-- A file without any line starting with `end_header`; the text occurs inside a comment. -/
def noEndHeaderInput : List Nat :=
  bytes ("ply\nformat ascii 1.0\ncomment end_header\nelement vertex 3\n")

/-- A header that declares normals under mixed spellings, a misspelt `Red`, a
list property named `red`, and `green` and `blue`. -/
def flagsInput : List Nat :=
  bytes ("ply\nproperty float nx\nproperty float normal_y\nproperty float nz\nproperty uchar Red\nproperty list uchar int red\nproperty uchar green\nproperty uchar blue\nproperty float u\nend_header\n")

/-- A file whose header declares red and green but not blue, with colour-like
numbers after the position on its vertex line. -/
def noBlueInput : List Nat :=
  bytes ("ply\nelement vertex 1\nelement face 1\nproperty float x\nproperty float y\nproperty float z\nproperty uchar red\nproperty uchar green\nend_header\n0 0 0 255 0 0\n3 0 0 0\n")

/-- A file that declares colours, with the boundary colour triple `1 0 0` on
the first vertex line and `0.5 0.25 1.0` on the second. -/
def floatColourInput : List Nat :=
  bytes ("ply\nelement vertex 2\nelement face 1\nproperty float x\nproperty float y\nproperty float z\nproperty float red\nproperty float green\nproperty float blue\nend_header\n0 0 0 1 0 0\n1 2 3 0.5 0.25 1.0\n3 0 1 1\n")

/-! ## Body lines, as the specification speaks of them -/

/-- Three values parsed one after the other, each from where the previous one
stopped: the values and the cursor after the third. -/
def chain3 {α : Type} (parser : List Nat → Option (α × List Nat)) (q : List Nat) :
    Option ((α × α × α) × List Nat) :=
  match parser q with
  | none => none
  | some (a, q1) =>
    match parser q1 with
    | none => none
    | some (b, q2) =>
      match parser q2 with
      | none => none
      | some (c, q3) => some ((a, b, c), q3)

/-- Three floats at the cursor. -/
def threeFloats (q : List Nat) : Option ((ℚ × ℚ × ℚ) × List Nat) := chain3 parseFloat q

/-- Three unsigned integers at the cursor. -/
def threeUInts (q : List Nat) : Option ((Nat × Nat × Nat) × List Nat) := chain3 parseUInt q

/-- The vector of three parsed floats. -/
def toVec3 (t : ℚ × ℚ × ℚ) : Vec3 := ⟨t.1, t.2.1, t.2.2⟩

/-- The position written on a line: its first three floats. -/
def linePosition (s : List Nat) : Option Vec3 := (threeFloats s).map (fun r => toVec3 r.1)

/-- The normal written on a line: the three floats after the position. -/
def lineNormal (s : List Nat) : Option Vec3 :=
  match threeFloats s with
  | none => none
  | some (_, s1) => (threeFloats s1).map (fun r => toVec3 r.1)

/-- A vertex line is accepted when three floats parse for the position and, if
normals are declared, three more floats parse for the normal. -/
def isAcceptedVertexLine (hasNormals : Bool) (s : List Nat) : Bool :=
  (linePosition s).isSome && (!hasNormals || (lineNormal s).isSome)

/-- The accepted vertex lines from the cursor `p` on, in file order. -/
def acceptedVertexLines (hasNormals : Bool) (p : List Nat) : List (List Nat) :=
  (lineStarts p).filter (isAcceptedVertexLine hasNormals)

/-- The cursor of an accepted vertex line after the position and, when declared, the normal. -/
def afterGeometry (hasNormals : Bool) (s : List Nat) : List Nat :=
  match threeFloats s with
  | none => s
  | some (_, s1) =>
    if hasNormals then
      match threeFloats s1 with
      | none => s1
      | some (_, s2) => s2
    else s1

/-- The three indices of an accepted face line: the line starts with the
unsigned integer 3 followed by three unsigned integers. -/
def faceLineIndices (s : List Nat) : Option (Nat × Nat × Nat) :=
  match parseUInt s with
  | none => none
  | some (count, s1) => if count = 3 then (threeUInts s1).map (fun r => r.1) else none

/-- The concatenation of a list of index triples. -/
def flattenTriples : List (Nat × Nat × Nat) → List Nat
  | [] => []
  | t :: ts => t.1 :: t.2.1 :: t.2.2 :: flattenTriples ts

/-- The reference for the face decoder: the indices of the first `n` accepted
face lines from the cursor `p` on, in file order, followed by zeros up to `3 * n`. -/
def referenceIndices (p : List Nat) (n : Nat) : List Nat :=
  flattenTriples (((lineStarts p).filterMap faceLineIndices).take n) ++
    List.replicate (3 * (n - (((lineStarts p).filterMap faceLineIndices).take n).length)) 0

/-- The float reading of a colour: three floats at the cursor, all within
[0,1].  The result is the colour and the cursor after the third float. -/
def floatColour (q : List Nat) : Option (Vec3 × List Nat) :=
  match threeFloats q with
  | none => none
  | some (t, q3) =>
    if 0 ≤ t.1 ∧ t.1 ≤ 1 ∧ 0 ≤ t.2.1 ∧ t.2.1 ≤ 1 ∧ 0 ≤ t.2.2 ∧ t.2.2 ≤ 1 then some (toVec3 t, q3)
    else none

/-- The alpha value read after an integer colour: the unsigned integer at the
cursor when one parses, and 255 otherwise. -/
def alphaOf (q : List Nat) : Nat :=
  match parseUInt q with
  | some (a, _) => a
  | none => 255

/-- The cursor after the attempt to read alpha. -/
def afterAlpha (q : List Nat) : List Nat :=
  match parseUInt q with
  | some (_, q') => q'
  | none => q

/-- The slot of an accepted vertex line after the position and, when declared,
the normal were written into it. -/
def geometryVertex (hasNormals : Bool) (v : Vertex) (s : List Nat) : Vertex :=
  { v with pos := (linePosition s).getD v.pos,
           norm := if hasNormals then (lineNormal s).getD v.norm else v.norm }

/-- The integer reading of a colour: three unsigned integers at the cursor,
each at most 255.  The result is the three values and the cursor after the
third. -/
def intColour (q : List Nat) : Option ((Nat × Nat × Nat) × List Nat) :=
  match threeUInts q with
  | none => none
  | some (t, q3) => if t.1 ≤ 255 ∧ t.2.1 ≤ 255 ∧ t.2.2 ≤ 255 then some (t, q3) else none

/-- A header declaring one vertex with position and colour and one face. -/
def colourHeader : String :=
  "ply\nelement vertex 1\nelement face 1\nproperty float x\nproperty float y\nproperty float z\nproperty uchar red\nproperty uchar green\nproperty uchar blue\nend_header\n"

/-- A file whose vertex line carries the integer colour `128 64 255` and the alpha `300`. -/
def alphaInput : List Nat := bytes (colourHeader ++ "0 0 0 128 64 255 300\n3 0 0 0\n")

/-- A file that declares texture coordinates, with a vertex line on which the
first texture coordinate parses and the second does not. -/
def halfTexCoordInput : List Nat :=
  bytes ("ply\nelement vertex 1\nelement face 1\nproperty float x\nproperty float y\nproperty float z\nproperty float u\nproperty float v\nend_header\n0 0 0 0.5 oops\n3 0 0 0\n")

/-- A file that declares two vertices; the second vertex line is abandoned
after two floats and the buffer ends there. -/
def abandonedLineInput : List Nat :=
  bytes ("ply\nelement vertex 2\nelement face 1\nproperty float x\nproperty float y\nproperty float z\nend_header\n0 0 0\n7 8 oops\n")

/-- The vertex line of the example: an integer colour without alpha, directly
followed by the texture coordinates `1 0`. -/
def colourThenTexCoordLine : List Nat := bytes ("0 0 0 128 64 255 1 0\n")

/-- The Y component of the position in slot `k` of the vertex buffer. -/
def slotY (e : MeshCPU) (k : Nat) : ℚ := (e.vertices.getD k Vertex.default).pos.y

/-- The running extent `mn`, `mx` after `i` accepted lines: `mn` never exceeds
its initial value `FLT_MAX` nor `mx` falls below `-FLT_MAX`, they bound the Y
components of the slots below `i`, and each of them is either still the
initial value or the Y component of one of those slots. -/
def extentOf (e : MeshCPU) (mn mx : ℚ) (i : Nat) : Prop :=
  mn ≤ FLT_MAX ∧ -FLT_MAX ≤ mx ∧
  (∀ k, k < i → mn ≤ slotY e k ∧ slotY e k ≤ mx) ∧
  (mn = FLT_MAX ∨ ∃ k, k < i ∧ slotY e k = mn) ∧
  (mx = -FLT_MAX ∨ ∃ k, k < i ∧ slotY e k = mx)

/-- A mesh with one default slot, as handed to the vertex decoder. -/
def oneSlotMesh : MeshCPU :=
  { emptyMesh with numVertices := 1, numTriangles := 1, vertices := [Vertex.default] }

/-- A vertex block of one line whose Y field overflows binary32. -/
def overflowYBlock : List Nat := bytes ("0 1e39 0\n")

/-- A mesh with two default slots, as handed to the vertex decoder. -/
def twoSlotMesh : MeshCPU :=
  { emptyMesh with numVertices := 2, numTriangles := 1,
                   vertices := [Vertex.default, Vertex.default] }

/-- A vertex block with a blank line, an abandoned line and two accepted lines. -/
def vertexBlock : List Nat := bytes ("\n1 2 oops\n1 2 3\n\n4 -5 6\n")

/-- The invariant of the vertex loop started at the cursor `p0` with `n` slots:
the accepted lines before the cursor are exactly those that filled the slots
below `i`, in order, and the running extent is that of those slots. -/
def vertexInv (n : Nat) (hn : Bool) (p0 p : List Nat) (e : MeshCPU) (mn mx : ℚ) (i : Nat) : Prop :=
  e.numVertices = n ∧ e.vertices.length = n ∧ e.hasNormals = hn ∧ i ≤ n ∧
  ∃ done : List (List Nat),
    acceptedVertexLines hn p0 = done ++ acceptedVertexLines hn p ∧ done.length = i ∧
    (∀ (k : Nat) (s : List Nat), done[k]? = some s →
      linePosition s = some (e.vertices.getD k Vertex.default).pos ∧
      (hn = true → lineNormal s = some (e.vertices.getD k Vertex.default).norm)) ∧
    extentOf e mn mx i

/-- The index triples of the accepted face lines from the cursor `p` on, in file order. -/
def acceptedFaces (p : List Nat) : List (Nat × Nat × Nat) :=
  (lineStarts p).filterMap faceLineIndices

/-- The invariant of the face loop started at the cursor `p0` with `n`
triangles: the accepted lines before the cursor are exactly those written into
the index buffer, in order, and the rest of the buffer is still zero. -/
def faceInv (n : Nat) (p0 p : List Nat) (e : MeshCPU) (t : Nat) : Prop :=
  e.numTriangles = n ∧ t ≤ n ∧
  ∃ done : List (Nat × Nat × Nat),
    acceptedFaces p0 = done ++ acceptedFaces p ∧ done.length = t ∧
    e.indices = flattenTriples done ++ List.replicate (3 * (n - t)) 0

/-- A mesh with the index buffer allocated for two triangles, as handed to the face decoder. -/
def twoTriangleMesh : MeshCPU :=
  { emptyMesh with numVertices := 3, numTriangles := 2, numIndices := 6,
                   indices := [0, 0, 0, 0, 0, 0] }

/-- A face block with a quad, a line that does not parse, a short line and one
triangle whose indices are out of range for three vertices. -/
def faceBlock : List Nat := bytes ("4 0 1 2 3\nface\n3 0 1\n\n3 7 8 9\n")

/-- The count declared by an accepted `element vertex N` line. -/
def elementVertexCount (s : List Nat) : Option Nat :=
  if isElementLine s then
    if startsWith ("vertex") (skipWhitespace (s.drop 7)) &&
        ((skipWhitespace (s.drop 7)).getD 6 0 == 32 || (skipWhitespace (s.drop 7)).getD 6 0 == 9)
    then (parseUInt (skipWhitespace ((skipWhitespace (s.drop 7)).drop 6))).map (fun r => r.1)
    else none
  else none

/-- The count declared by an accepted `element face N` line. -/
def elementFaceCount (s : List Nat) : Option Nat :=
  if isElementLine s then
    if startsWith ("vertex") (skipWhitespace (s.drop 7)) &&
        ((skipWhitespace (s.drop 7)).getD 6 0 == 32 || (skipWhitespace (s.drop 7)).getD 6 0 == 9)
    then none
    else if startsWith ("face") (skipWhitespace (s.drop 7)) &&
        ((skipWhitespace (s.drop 7)).getD 4 0 == 32 || (skipWhitespace (s.drop 7)).getD 4 0 == 9)
    then (parseUInt (skipWhitespace ((skipWhitespace (s.drop 7)).drop 4))).map (fun r => r.1)
    else none
  else none

/-- The vertex count the header declares: that of the last `element vertex`
line before `end_header`, if there is one. -/
def declaredVertexCount (file : List Nat) : Option Nat :=
  ((linesBeforeEndHeader file).filterMap elementVertexCount).getLast?

/-- The face count the header declares: that of the last `element face` line
before `end_header`, if there is one. -/
def declaredFaceCount (file : List Nat) : Option Nat :=
  ((linesBeforeEndHeader file).filterMap elementFaceCount).getLast?

/-- The start of the body: the line after the first `end_header` line. -/
def bodyStart (L : List (List Nat)) : List Nat :=
  match L.find? (fun s => isEndHeaderLine s) with
  | some s => skipToNextLine s
  | none => []

/-- Two meshes that hold the same vertex buffer, the same counts of vertices
and triangles and the same presence flags: all that the vertex loop reads. -/
def agreeV (d e : MeshCPU) : Prop :=
  e.vertices = d.vertices ∧ e.numVertices = d.numVertices ∧ e.numTriangles = d.numTriangles ∧
  e.hasNormals = d.hasNormals ∧ e.hasColours = d.hasColours ∧ e.hasTexCoords = d.hasTexCoords

/-- A file whose header declares a face count but no vertex count. -/
def noVertexCountInput : List Nat :=
  bytes ("ply\nelement face 1\nproperty float x\nproperty float y\nproperty float z\nend_header\n0 0 0\n1 0 0\n0 1 0\n3 0 1 2\n")

/-- The presence flags a successful header decode of the file computes. -/
def declaredFlags (file : List Nat) : Bool × Bool × Bool :=
  ((flagsAfter (declaredNames file) ⟨false, false, false, false, false, false, false, false⟩).hasNx &&
    (flagsAfter (declaredNames file) ⟨false, false, false, false, false, false, false, false⟩).hasNy &&
    (flagsAfter (declaredNames file) ⟨false, false, false, false, false, false, false, false⟩).hasNz,
   (flagsAfter (declaredNames file) ⟨false, false, false, false, false, false, false, false⟩).hasRed &&
    (flagsAfter (declaredNames file) ⟨false, false, false, false, false, false, false, false⟩).hasGreen &&
    (flagsAfter (declaredNames file) ⟨false, false, false, false, false, false, false, false⟩).hasBlue,
   (flagsAfter (declaredNames file) ⟨false, false, false, false, false, false, false, false⟩).hasU &&
    (flagsAfter (declaredNames file) ⟨false, false, false, false, false, false, false, false⟩).hasV)

/-! ## Theorems -/

/-! ### The scanner moves forward -/

theorem skipToNextLine_length_le (p : List Nat) : (skipToNextLine p).length ≤ p.length := by
  induction p with
  | nil => simp [skipToNextLine]
  | cons c cs ih =>
    unfold skipToNextLine
    split_ifs
    · simp
    · simp
    · simp only [List.length_tail, List.length_cons]; omega
    · simp
    · simp only [List.length_cons]; omega

theorem skipToNextLine_length_lt (p : List Nat) (h : peek p ≠ 0) :
    (skipToNextLine p).length < p.length := by
  cases p with
  | nil => simp [peek] at h
  | cons c cs =>
    have hc : c ≠ 0 := by simpa [peek] using h
    have hle := skipToNextLine_length_le cs
    unfold skipToNextLine
    split_ifs
    · contradiction
    · simp
    · simp only [List.length_tail, List.length_cons]; omega
    · simp
    · simp only [List.length_cons]; omega

theorem parseUInt_lt (p : List Nat) (n : Nat) (q : List Nat) (h : parseUInt p = some (n, q)) :
    n < 2 ^ 32 := by
  unfold parseUInt at h
  simp only at h
  split_ifs at h
  simp only [Option.some.injEq, Prod.mk.injEq] at h
  rw [← h.1]
  exact Nat.mod_lt _ (by norm_num)

/-! ### Loop rules for the two body decoders -/

/-- The `while` rule for the vertex loop: a property of (cursor, mesh, minY,
maxY, i) that every kind of iteration preserves holds when the loop exits, and
the loop does exit with `true` and writes the running extent into the mesh. -/
theorem parseVerticesLoop_rule (Inv : List Nat → MeshCPU → ℚ → ℚ → Nat → Prop)
    (hblank : ∀ p d mn mx i, i < d.numVertices → peek p ≠ 0 →
      samePos (trimEOL p (skipToNextLine p)) p = true →
      Inv p d mn mx i → Inv (skipToNextLine p) d mn mx i)
    (hrej : ∀ p d mn mx i, i < d.numVertices → peek p ≠ 0 →
      ¬ samePos (trimEOL p (skipToNextLine p)) p = true →
      (parseVertexLine d.hasNormals d.hasColours d.hasTexCoords
        (d.vertices.getD i Vertex.default) p).2 = false →
      Inv p d mn mx i →
      Inv (skipToNextLine p)
        { d with vertices := d.vertices.set i (parseVertexLine d.hasNormals d.hasColours
          d.hasTexCoords (d.vertices.getD i Vertex.default) p).1 } mn mx i)
    (hacc : ∀ p d mn mx i, i < d.numVertices → peek p ≠ 0 →
      ¬ samePos (trimEOL p (skipToNextLine p)) p = true →
      (parseVertexLine d.hasNormals d.hasColours d.hasTexCoords
        (d.vertices.getD i Vertex.default) p).2 = true →
      Inv p d mn mx i →
      Inv (skipToNextLine p)
        { d with vertices := d.vertices.set i (parseVertexLine d.hasNormals d.hasColours
          d.hasTexCoords (d.vertices.getD i Vertex.default) p).1 }
        (if (parseVertexLine d.hasNormals d.hasColours d.hasTexCoords
            (d.vertices.getD i Vertex.default) p).1.pos.y < mn
          then (parseVertexLine d.hasNormals d.hasColours d.hasTexCoords
            (d.vertices.getD i Vertex.default) p).1.pos.y else mn)
        (if (parseVertexLine d.hasNormals d.hasColours d.hasTexCoords
            (d.vertices.getD i Vertex.default) p).1.pos.y > mx
          then (parseVertexLine d.hasNormals d.hasColours d.hasTexCoords
            (d.vertices.getD i Vertex.default) p).1.pos.y else mx)
        (i + 1))
    (fuel : Nat) : ∀ (p : List Nat) (d : MeshCPU) (mn mx : ℚ) (i : Nat),
    p.length < fuel → Inv p d mn mx i →
    ∃ p' d' mn' mx' i',
      parseVerticesLoop fuel p d mn mx i = (true, p', { d' with minY := mn', maxY := mx' }) ∧
      Inv p' d' mn' mx' i' ∧ ¬ (i' < d'.numVertices ∧ peek p' ≠ 0) := by
  induction fuel with
  | zero => intro p d mn mx i h; omega
  | succ n ih =>
    intro p d mn mx i hf hinv
    unfold parseVerticesLoop
    by_cases hc : i < d.numVertices ∧ peek p ≠ 0
    · have hlt := skipToNextLine_length_lt p hc.2
      have hn : (skipToNextLine p).length < n := by omega
      rw [if_pos hc]
      dsimp only
      by_cases hb : samePos (trimEOL p (skipToNextLine p)) p = true
      · rw [if_pos hb]
        exact ih _ _ _ _ _ hn (hblank p d mn mx i hc.1 hc.2 hb hinv)
      · rw [if_neg hb, if_neg hc.2]
        by_cases hr : (parseVertexLine d.hasNormals d.hasColours d.hasTexCoords
            (d.vertices.getD i Vertex.default) p).2 = true
        · rw [if_pos hr]
          exact ih _ _ _ _ _ hn (hacc p d mn mx i hc.1 hc.2 hb hr hinv)
        · rw [if_neg hr]
          exact ih _ _ _ _ _ hn (hrej p d mn mx i hc.1 hc.2 hb (by simpa using hr) hinv)
    · rw [if_neg hc]
      exact ⟨p, d, mn, mx, i, rfl, hinv, hc⟩

/-- The `while` rule for the face loop: a property of (cursor, mesh,
triangleIndex) that every kind of iteration preserves holds when the loop
exits, and the loop does exit with `true`. -/
theorem parseIndicesLoop_rule (Inv : List Nat → MeshCPU → Nat → Prop)
    (hskip : ∀ p d t, t < d.numTriangles → peek p ≠ 0 → Inv p d t →
      Inv (skipToNextLine p) d t)
    (hacc : ∀ p d t p' i0 i1 i2 q, t < d.numTriangles → peek p ≠ 0 →
      ¬ samePos (trimEOL p (skipToNextLine p)) p = true →
      parseUInt p = some (3, p') →
      parseTriangle ((0, 0, 0), p', true) = ((i0, i1, i2), q, true) →
      Inv p d t →
      Inv (skipToNextLine p)
        { d with indices := ((d.indices.set (t * 3 % 2 ^ 32 + 0) i0).set
          (t * 3 % 2 ^ 32 + 1) i1).set (t * 3 % 2 ^ 32 + 2) i2 } (t + 1))
    (fuel : Nat) : ∀ (p : List Nat) (d : MeshCPU) (t : Nat),
    p.length < fuel → Inv p d t →
    ∃ p' d' t', parseIndicesLoop fuel p d t = (true, p', d') ∧ Inv p' d' t' ∧
      ¬ (t' < d'.numTriangles ∧ peek p' ≠ 0) := by
  induction fuel with
  | zero => intro p d t h; omega
  | succ n ih =>
    intro p d t hf hinv
    unfold parseIndicesLoop
    by_cases hc : t < d.numTriangles ∧ peek p ≠ 0
    · have hlt := skipToNextLine_length_lt p hc.2
      have hn : (skipToNextLine p).length < n := by omega
      have hs := hskip p d t hc.1 hc.2 hinv
      rw [if_pos hc]
      dsimp only
      by_cases hb : samePos (trimEOL p (skipToNextLine p)) p = true
      · rw [if_pos hb]
        exact ih _ _ _ hn hs
      · rw [if_neg hb]
        cases hu : parseUInt p with
        | none => exact ih _ _ _ hn hs
        | some r =>
          obtain ⟨count, p'⟩ := r
          dsimp only
          by_cases h3 : count = 3
          · subst h3
            rw [if_neg (by simp)]
            by_cases hv : (parseTriangle ((0, 0, 0), p', true)).2.2 = true
            · rw [if_pos hv]
              refine ih _ _ _ hn (hacc p d t p' _ _ _ (parseTriangle ((0, 0, 0), p', true)).2.1
                hc.1 hc.2 hb hu (Prod.ext rfl (Prod.ext rfl hv)) hinv)
            · rw [if_neg hv]
              exact ih _ _ _ hn hs
          · rw [if_pos h3]
            exact ih _ _ _ hn hs
    · rw [if_neg hc]
      exact ⟨p, d, t, rfl, hinv, hc⟩

/-! ### The body decoders always return `true` once their guards pass -/

theorem parseVerticesLoop_ok (fuel : Nat) (p : List Nat) (d : MeshCPU) (minY maxY : ℚ) (i : Nat)
    (h : p.length < fuel) : (parseVerticesLoop fuel p d minY maxY i).1 = true := by
  obtain ⟨p', d', mn', mx', i', he, -, -⟩ := parseVerticesLoop_rule (fun _ _ _ _ _ => True)
    (by intros; trivial) (by intros; trivial) (by intros; trivial) fuel p d minY maxY i h trivial
  rw [he]

theorem parseVertices_ok (p : List Nat) (d : MeshCPU) (h : d.numVertices ≠ 0) :
    (parseVertices p d).1 = true := by
  unfold parseVertices
  rw [if_neg h]
  exact parseVerticesLoop_ok _ _ _ _ _ _ (Nat.lt_succ_self _)

theorem parseIndicesLoop_ok (fuel : Nat) (p : List Nat) (d : MeshCPU) (t : Nat)
    (h : p.length < fuel) : (parseIndicesLoop fuel p d t).1 = true := by
  obtain ⟨p', d', t', he, -, -⟩ := parseIndicesLoop_rule (fun _ _ _ => True)
    (by intros; trivial) (by intros; trivial) fuel p d t h trivial
  rw [he]

theorem parseIndices_ok (p : List Nat) (d : MeshCPU) (h1 : d.indices ≠ []) (h2 : d.numIndices ≠ 0) :
    (parseIndices p d).1 = true := by
  unfold parseIndices
  rw [if_neg (by simp [h1, h2])]
  exact parseIndicesLoop_ok _ _ _ _ (Nat.lt_succ_self _)

/-! ### What the body decoders leave alone -/

theorem parseVerticesLoop_frame (fuel : Nat) (p : List Nat) (d : MeshCPU) (minY maxY : ℚ) (i : Nat)
    (h : p.length < fuel) : sameFrameV d (parseVerticesLoop fuel p d minY maxY i).2.2 := by
  obtain ⟨p', d', mn', mx', i', he, hinv, -⟩ := parseVerticesLoop_rule
    (fun _ e _ _ _ => sameFrameV d e)
    (by intros; assumption)
    (by intro p e mn mx i _ _ _ _ hi; simpa [sameFrameV] using hi)
    (by intro p e mn mx i _ _ _ _ hi; simpa [sameFrameV] using hi)
    fuel p d minY maxY i h (by simp [sameFrameV])
  rw [he]
  simpa [sameFrameV] using hinv

theorem parseVertices_frame (p : List Nat) (d : MeshCPU) : sameFrameV d (parseVertices p d).2.2 := by
  unfold parseVertices
  split_ifs
  · simp [sameFrameV]
  · exact parseVerticesLoop_frame _ _ _ _ _ _ (Nat.lt_succ_self _)

theorem parseIndicesLoop_frame (fuel : Nat) (p : List Nat) (d : MeshCPU) (t : Nat)
    (h : p.length < fuel) : sameFrameI d (parseIndicesLoop fuel p d t).2.2 := by
  obtain ⟨p', d', t', he, hinv, -⟩ := parseIndicesLoop_rule
    (fun _ e _ => sameFrameI d e)
    (by intros; assumption)
    (by intro p e t p' i0 i1 i2 q _ _ _ _ _ hi; simpa [sameFrameI] using hi)
    fuel p d t h (by simp [sameFrameI])
  rw [he]
  exact hinv

theorem parseIndices_frame (p : List Nat) (d : MeshCPU) : sameFrameI d (parseIndices p d).2.2 := by
  unfold parseIndices
  split_ifs
  · simp [sameFrameI]
  · exact parseIndicesLoop_frame _ _ _ _ (Nat.lt_succ_self _)

/-! ### The declared counts stay 32-bit values -/

theorem parsePlyElementLine_lt (p : List Nat) (nv nt : Nat) (h : nt < 2 ^ 32) :
    (parsePlyElementLine p nv nt).2.2 < 2 ^ 32 := by
  unfold parsePlyElementLine
  dsimp only
  by_cases h1 : (startsWith ("vertex") (skipWhitespace (List.drop 7 p)) &&
      ((skipWhitespace (List.drop 7 p)).getD 6 0 == 32 ||
        (skipWhitespace (List.drop 7 p)).getD 6 0 == 9)) = true
  · rw [if_pos h1]
    cases parseUInt (skipWhitespace (List.drop 6 (skipWhitespace (List.drop 7 p)))) with
    | none => exact h
    | some r => exact h
  · rw [if_neg h1]
    by_cases h2 : (startsWith ("face") (skipWhitespace (List.drop 7 p)) &&
        ((skipWhitespace (List.drop 7 p)).getD 4 0 == 32 ||
          (skipWhitespace (List.drop 7 p)).getD 4 0 == 9)) = true
    · rw [if_pos h2]
      cases hu : parseUInt (skipWhitespace (List.drop 4 (skipWhitespace (List.drop 7 p)))) with
      | none => exact h
      | some r => exact parseUInt_lt _ r.1 r.2 hu
    · rw [if_neg h2]
      exact h

theorem parsePlyHeaderLoop_numTriangles_lt (fuel : Nat) : ∀ (p : List Nat) (h : HeaderInfo)
    (f : PropertyFlags), h.numTriangles < 2 ^ 32 →
    (parsePlyHeaderLoop fuel p h f).2.2.numTriangles < 2 ^ 32 := by
  induction fuel with
  | zero => intro p h f hlt; exact hlt
  | succ n ih =>
    intro p h f hlt
    have he := parsePlyElementLine_lt p h.numVertices h.numTriangles hlt
    unfold parsePlyHeaderLoop
    by_cases h0 : peek p = 0
    · rw [if_pos h0]; exact hlt
    · rw [if_neg h0]
      dsimp only
      by_cases hb : samePos (trimEOL p (skipToNextLine p)) p = true
      · rw [if_pos hb]; exact ih _ _ _ hlt
      · rw [if_neg hb]
        by_cases h1 : (startsWith ("element") p && (p.getD 7 0 == 32 || p.getD 7 0 == 9)) = true
        · rw [if_pos h1]
          by_cases h2 : (parsePlyElementLine p h.numVertices h.numTriangles).1 = true
          · rw [if_pos h2]; exact ih _ _ _ he
          · rw [if_neg h2]; exact he
        · rw [if_neg h1]
          by_cases h2 : startsWith ("property") p = true
          · rw [if_pos h2]
            cases parsePlyPropertyLine p f with
            | none => exact hlt
            | some f' => exact ih _ _ _ hlt
          · rw [if_neg h2]
            by_cases h3 : startsWith ("end_header") p = true
            · rw [if_pos h3]; exact hlt
            · rw [if_neg h3]; exact ih _ _ _ hlt

theorem three_mul_mod_ne_zero (n : Nat) (h0 : n ≠ 0) (h : n < 2 ^ 32) :
    n * 3 % 2 ^ 32 ≠ 0 := by
  intro hmod
  have hd : 2 ^ 32 ∣ n * 3 := Nat.dvd_of_mod_eq_zero hmod
  have hc : Nat.Coprime (2 ^ 32) 3 := by
    apply Nat.Coprime.pow_left
    decide
  have hn : 2 ^ 32 ∣ n := hc.dvd_of_dvd_mul_right hd
  exact absurd (Nat.le_of_dvd (Nat.pos_of_ne_zero h0) hn) (not_le.mpr h)

/-! ### Lines -/

theorem dropWhile_append_singleton_ne_nil (q : Nat → Bool) (c : Nat) (hc : q c = false) :
    ∀ l : List Nat, (l ++ [c]).dropWhile q ≠ [] := by
  intro l
  induction l with
  | nil => simp [List.dropWhile, hc]
  | cons a l ih =>
    simp only [List.cons_append, List.dropWhile]
    cases q a with
    | true => exact ih
    | false => simp

/-- A line is blank exactly when it starts with an end-of-line byte. -/
theorem isBlankLine_eq (p : List Nat) (h : peek p ≠ 0) : isBlankLine p = isEOL (peek p) := by
  cases p with
  | nil => simp [peek] at h
  | cons c cs =>
    have hc : c ≠ 0 := by simpa [peek] using h
    by_cases h10 : c = 10
    · subst h10
      simp [isBlankLine, skipToNextLine, trimEOL, samePos, peek, isEOL]
    · by_cases h13 : c = 13
      · subst h13
        by_cases hn : peek cs = 10
        · cases cs with
          | nil => simp [peek] at hn
          | cons b t =>
            have hb : b = 10 := by simpa [peek] using hn
            subst hb
            have e : t.length + 1 + 1 - t.length = 2 := by omega
            simp [isBlankLine, skipToNextLine, trimEOL, samePos, peek, isEOL, e]
        · have e : cs.length + 1 - cs.length = 1 := by omega
          have hs : skipToNextLine (13 :: cs) = cs := by simp [skipToNextLine, hn]
          simp [isBlankLine, hs, trimEOL, samePos, peek, isEOL, e]
      · have hle := skipToNextLine_length_le cs
        have hE : isEOL c = false := by simp [isEOL, h10, h13]
        have hnext : skipToNextLine (c :: cs) = skipToNextLine cs := by
          simp [skipToNextLine, hc, h10, h13]
        have htake : List.take ((c :: cs).length - (skipToNextLine cs).length) (c :: cs)
            = c :: List.take (cs.length - (skipToNextLine cs).length) cs := by
          have : (c :: cs).length - (skipToNextLine cs).length
              = (cs.length - (skipToNextLine cs).length) + 1 := by
            simp only [List.length_cons]; omega
          rw [this, List.take_succ_cons]
        have hne := dropWhile_append_singleton_ne_nil isEOL c hE
          (List.take (cs.length - (skipToNextLine cs).length) cs).reverse
        have hpos : 0 < ((List.dropWhile isEOL
            ((List.take (cs.length - (skipToNextLine cs).length) cs).reverse ++ [c])).reverse).length := by
          rw [List.length_reverse]
          exact List.length_pos.mpr hne
        have key : ∀ content : List Nat, 0 < content.length →
            samePos ((c :: cs).drop content.length) (c :: cs) = false := by
          intro content hp
          simp only [samePos, List.length_drop, List.length_cons, beq_eq_false_iff_ne, ne_eq]
          omega
        show samePos (trimEOL (c :: cs) (skipToNextLine (c :: cs))) (c :: cs)
          = isEOL (peek (c :: cs))
        rw [hnext]
        unfold trimEOL
        dsimp only
        rw [htake, List.reverse_cons, key _ hpos]
        simp [peek, hE]

theorem startsWith_iff (lit : String) (p : List Nat) :
    startsWith lit p = true ↔ p.take (bytes lit).length = bytes lit := by
  unfold startsWith
  rw [List.isPrefixOf_iff_prefix, List.prefix_iff_eq_take]
  exact eq_comm

theorem bytes_element : bytes ("element") = [101, 108, 101, 109, 101, 110, 116] := by decide!

theorem bytes_property : bytes ("property") = [112, 114, 111, 112, 101, 114, 116, 121] := by
  decide!

theorem bytes_end_header :
    bytes ("end_header") = [101, 110, 100, 95, 104, 101, 97, 100, 101, 114] := by decide!

theorem peek_of_take (p l : List Nat) (c : Nat) (n : Nat) (h : p.take n = c :: l) : peek p = c := by
  cases p with
  | nil => simp at h
  | cons a t =>
    cases n with
    | zero => simp at h
    | succ k =>
      rw [List.take_succ_cons] at h
      simp only [List.cons.injEq] at h
      simp [peek, h.1]

theorem isElementLine_peek (s : List Nat) (h : isElementLine s = true) : peek s = 101 := by
  unfold isElementLine at h
  rw [Bool.and_eq_true] at h
  have h1 := (startsWith_iff _ _).mp h.1
  rw [bytes_element] at h1
  exact peek_of_take _ _ _ _ h1

theorem isPropertyLine_peek (s : List Nat) (h : isPropertyLine s = true) : peek s = 112 := by
  unfold isPropertyLine at h
  have h1 := (startsWith_iff _ _).mp h
  rw [bytes_property] at h1
  exact peek_of_take _ _ _ _ h1

theorem isEndHeaderLine_peek (s : List Nat) (h : isEndHeaderLine s = true) : peek s = 101 := by
  unfold isEndHeaderLine at h
  have h1 := (startsWith_iff _ _).mp h
  rw [bytes_end_header] at h1
  exact peek_of_take _ _ _ _ h1

theorem not_blank_of_peek (s : List Nat) (c : Nat) (h : peek s = c) (h0 : c ≠ 0)
    (hE : isEOL c = false) : isBlankLine s = false := by
  rw [isBlankLine_eq s (by rw [h]; exact h0), h, hE]

theorem isElementLine_not_blank (s : List Nat) (h : isElementLine s = true) :
    isBlankLine s = false :=
  not_blank_of_peek s 101 (isElementLine_peek s h) (by decide) (by decide)

theorem isPropertyLine_not_blank (s : List Nat) (h : isPropertyLine s = true) :
    isBlankLine s = false :=
  not_blank_of_peek s 112 (isPropertyLine_peek s h) (by decide) (by decide)

theorem isEndHeaderLine_not_blank (s : List Nat) (h : isEndHeaderLine s = true) :
    isBlankLine s = false :=
  not_blank_of_peek s 101 (isEndHeaderLine_peek s h) (by decide) (by decide)

theorem isPropertyLine_not_element (s : List Nat) (h : isPropertyLine s = true) :
    isElementLine s = false := by
  cases he : isElementLine s with
  | false => rfl
  | true =>
    have h1 := isElementLine_peek s he
    have h2 := isPropertyLine_peek s h
    omega

theorem isEndHeaderLine_not_property (s : List Nat) (h : isEndHeaderLine s = true) :
    isPropertyLine s = false := by
  cases he : isPropertyLine s with
  | false => rfl
  | true =>
    have h1 := isEndHeaderLine_peek s h
    have h2 := isPropertyLine_peek s he
    omega

theorem isEndHeaderLine_not_element (s : List Nat) (h : isEndHeaderLine s = true) :
    isElementLine s = false := by
  cases he : isElementLine s with
  | false => rfl
  | true =>
    exfalso
    unfold isElementLine at he
    rw [Bool.and_eq_true] at he
    have h1 := (startsWith_iff _ _).mp he.1
    have h2 := (startsWith_iff _ _).mp h
    rw [bytes_element] at h1
    rw [bytes_end_header] at h2
    have e1 := congrArg (List.take 2) h1
    have e2 := congrArg (List.take 2) h2
    simp only [List.take_take, List.length_cons, List.length_nil] at e1 e2
    norm_num at e1 e2
    rw [e1] at e2
    simp at e2

/-! ### The header loop, line by line -/

/-- With enough fuel the header loop is the line-by-line run over the line
starts of its cursor: same result, same reference parameters, and on success
the same cursor. -/
theorem parsePlyHeaderLoop_eq_onLines (fuel : Nat) : ∀ (p : List Nat) (h : HeaderInfo)
    (f : PropertyFlags) (m : Nat), p.length < fuel → p.length ≤ m →
    (parsePlyHeaderLoop fuel p h f).1 = (headerOnLines (lineStartsAux m p) h f).1 ∧
    (parsePlyHeaderLoop fuel p h f).2.2 = (headerOnLines (lineStartsAux m p) h f).2.2 ∧
    ((parsePlyHeaderLoop fuel p h f).1 = true →
      (parsePlyHeaderLoop fuel p h f).2.1 = (headerOnLines (lineStartsAux m p) h f).2.1) := by
  induction fuel with
  | zero => intro p h f m hf; omega
  | succ n ih =>
    intro p h f m hf hm
    unfold parsePlyHeaderLoop
    by_cases h0 : peek p = 0
    · rw [if_pos h0]
      cases m with
      | zero => simp [lineStartsAux, headerOnLines]
      | succ k => simp [lineStartsAux, headerOnLines, h0]
    · rw [if_neg h0]
      have hlt := skipToNextLine_length_lt p h0
      cases m with
      | zero => omega
      | succ k =>
        have hn : (skipToNextLine p).length < n := by omega
        have hk : (skipToNextLine p).length ≤ k := by omega
        have hL : lineStartsAux (k + 1) p = p :: lineStartsAux k (skipToNextLine p) := by
          simp [lineStartsAux, h0]
        rw [hL]
        unfold headerOnLines
        dsimp only
        by_cases hb : samePos (trimEOL p (skipToNextLine p)) p = true
        · have hb' : isBlankLine p = true := hb
          rw [if_pos hb, if_pos hb']
          exact ih _ _ _ _ hn hk
        · have hb' : ¬ isBlankLine p = true := hb
          rw [if_neg hb, if_neg hb']
          by_cases h1 : (startsWith ("element") p && (p.getD 7 0 == 32 || p.getD 7 0 == 9)) = true
          · have h1' : isElementLine p = true := h1
            rw [if_pos h1, if_pos h1']
            by_cases h2 : (parsePlyElementLine p h.numVertices h.numTriangles).1 = true
            · rw [if_pos h2, if_pos h2]
              exact ih _ _ _ _ hn hk
            · rw [if_neg h2, if_neg h2]
              simp
          · have h1' : ¬ isElementLine p = true := h1
            rw [if_neg h1, if_neg h1']
            by_cases h2 : startsWith ("property") p = true
            · have h2' : isPropertyLine p = true := h2
              rw [if_pos h2, if_pos h2']
              cases parsePlyPropertyLine p f with
              | none => simp
              | some f' => exact ih _ _ _ _ hn hk
            · have h2' : ¬ isPropertyLine p = true := h2
              rw [if_neg h2, if_neg h2']
              by_cases h3 : startsWith ("end_header") p = true
              · have h3' : isEndHeaderLine p = true := h3
                rw [if_pos h3, if_pos h3']
                simp
              · have h3' : ¬ isEndHeaderLine p = true := h3
                rw [if_neg h3, if_neg h3']
                exact ih _ _ _ _ hn hk

/-- The header decoder is the line-by-line run over the header lines of the buffer. -/
theorem parsePlyHeader_eq_onLines (file : List Nat) (h : HeaderInfo) :
    (parsePlyHeader file h).1
      = (headerOnLines (headerLines file) h ⟨false, false, false, false, false, false, false, false⟩).1 ∧
    (parsePlyHeader file h).2.2
      = (headerOnLines (headerLines file) h ⟨false, false, false, false, false, false, false, false⟩).2.2 ∧
    ((parsePlyHeader file h).1 = true → (parsePlyHeader file h).2.1
      = (headerOnLines (headerLines file) h ⟨false, false, false, false, false, false, false, false⟩).2.1) :=
  parsePlyHeaderLoop_eq_onLines _ _ _ _ _ (Nat.lt_succ_self _) (Nat.le_refl _)

/-! ### What the two line decoders of the header depend on -/

theorem parsePlyElementLine_fst (s : List Nat) (a b : Nat) :
    (parsePlyElementLine s a b).1 = (parsePlyElementLine s 0 0).1 := by
  unfold parsePlyElementLine
  dsimp only
  split_ifs
  · cases parseUInt (skipWhitespace (List.drop 6 (skipWhitespace (List.drop 7 s)))) <;> rfl
  · cases parseUInt (skipWhitespace (List.drop 4 (skipWhitespace (List.drop 7 s)))) <;> rfl
  · rfl

theorem parseToken_some (p : List Nat) (n : Nat) (t q : List Nat)
    (h : parseToken p n = some (t, q)) :
    t = tokenRun p ∧ q = skipWhitespace (p.drop (tokenRun p).length) := by
  unfold parseToken at h
  dsimp only at h
  split_ifs at h
  simp only [Option.some.injEq, Prod.mk.injEq] at h
  exact ⟨h.1.symm, h.2.symm⟩

theorem parsePlyPropertyLine_isSome (s : List Nat) (f g : PropertyFlags) :
    (parsePlyPropertyLine s f).isSome = (parsePlyPropertyLine s g).isSome := by
  unfold parsePlyPropertyLine
  dsimp only
  cases parseToken (skipWhitespace (List.drop 8 s)) 32 with
  | none => rfl
  | some r =>
    obtain ⟨type, p⟩ := r
    dsimp only
    split_ifs
    · cases parseToken p 32 with
      | none => rfl
      | some r1 =>
        obtain ⟨t1, p1⟩ := r1
        dsimp only
        cases parseToken p1 32 with
        | none => rfl
        | some r2 =>
          obtain ⟨t2, p2⟩ := r2
          dsimp only
          cases parseToken p2 32 with
          | none => rfl
          | some r3 => rfl
    · cases parseToken p 32 with
      | none => rfl
      | some r1 => rfl

theorem parsePlyPropertyLine_some (s : List Nat) (f f' : PropertyFlags)
    (hp : isPropertyLine s = true) (h : parsePlyPropertyLine s f = some f') :
    f' = recordOpt (scalarPropertyName s) f := by
  unfold parsePlyPropertyLine at h
  dsimp only at h
  unfold scalarPropertyName
  rw [if_pos hp]
  dsimp only
  cases h0 : parseToken (skipWhitespace (List.drop 8 s)) 32 with
  | none => rw [h0] at h; cases h
  | some r =>
    obtain ⟨type, p⟩ := r
    rw [h0] at h
    dsimp only at h
    obtain ⟨ht, hq⟩ := parseToken_some _ _ _ _ h0
    rw [← ht] at hq ⊢
    rw [← hq]
    by_cases hl : type = bytes ("list")
    · rw [if_pos hl] at h
      rw [if_pos hl]
      cases h1 : parseToken p 32 with
      | none => rw [h1] at h; cases h
      | some r1 =>
        obtain ⟨t1, p1⟩ := r1
        rw [h1] at h
        dsimp only at h
        cases h2 : parseToken p1 32 with
        | none => rw [h2] at h; cases h
        | some r2 =>
          obtain ⟨t2, p2⟩ := r2
          rw [h2] at h
          dsimp only at h
          cases h3 : parseToken p2 32 with
          | none => rw [h3] at h; cases h
          | some r3 =>
            rw [h3] at h
            simp only [Option.some.injEq] at h
            rw [← h]
            rfl
    · rw [if_neg hl] at h
      rw [if_neg hl]
      cases h1 : parseToken p 32 with
      | none => rw [h1] at h; cases h
      | some r1 =>
        obtain ⟨name, p1⟩ := r1
        rw [h1] at h
        simp only [Option.some.injEq] at h
        obtain ⟨hn, -⟩ := parseToken_some _ _ _ _ h1
        rw [← h, ← hn]
        rfl

theorem isFatalLine_element (s : List Nat) (h : isElementLine s = true) (a b : Nat) :
    isFatalLine s = !(parsePlyElementLine s a b).1 := by
  have hp : isPropertyLine s = false := by
    cases hq : isPropertyLine s with
    | false => rfl
    | true => rw [isPropertyLine_not_element s hq] at h; cases h
  rw [parsePlyElementLine_fst s a b]
  simp [isFatalLine, h, hp]

theorem isFatalLine_property (s : List Nat) (h : isPropertyLine s = true) (f : PropertyFlags) :
    isFatalLine s = (parsePlyPropertyLine s f).isNone := by
  have he := isPropertyLine_not_element s h
  have := parsePlyPropertyLine_isSome s f ⟨false, false, false, false, false, false, false, false⟩
  cases h1 : parsePlyPropertyLine s f <;>
    cases h2 : parsePlyPropertyLine s ⟨false, false, false, false, false, false, false, false⟩ <;>
    simp_all [isFatalLine]

theorem isFatalLine_other (s : List Nat) (h1 : isElementLine s = false)
    (h2 : isPropertyLine s = false) : isFatalLine s = false := by
  simp [isFatalLine, h1, h2]

/-! ### When the line-by-line run succeeds -/

theorem headerOnLines_success_iff (L : List (List Nat)) : ∀ (h : HeaderInfo) (f : PropertyFlags),
    (headerOnLines L h f).1 = true ↔
      (∃ s ∈ L, isEndHeaderLine s = true) ∧
        ∀ s ∈ L.takeWhile (fun s => !isEndHeaderLine s), isFatalLine s = false := by
  induction L with
  | nil => intro h f; simp [headerOnLines]
  | cons s rest ih =>
    intro h f
    unfold headerOnLines
    cases hend : isEndHeaderLine s with
    | true =>
      have h1 := isEndHeaderLine_not_blank s hend
      have h2 := isEndHeaderLine_not_element s hend
      have h3 := isEndHeaderLine_not_property s hend
      simp [h1, h2, h3, hend, List.takeWhile]
    | false =>
      have htw : List.takeWhile (fun s => !isEndHeaderLine s) (s :: rest)
          = s :: List.takeWhile (fun s => !isEndHeaderLine s) rest := by
        simp [List.takeWhile, hend]
      have hex : (∃ s' ∈ s :: rest, isEndHeaderLine s' = true)
          ↔ ∃ s' ∈ rest, isEndHeaderLine s' = true := by
        simp [hend]
      rw [htw, hex]
      simp only [List.mem_cons, forall_eq_or_imp]
      cases hb : isBlankLine s with
      | true =>
        have he : isElementLine s = false := by
          cases hq : isElementLine s with
          | false => rfl
          | true => rw [isElementLine_not_blank s hq] at hb; cases hb
        have hp : isPropertyLine s = false := by
          cases hq : isPropertyLine s with
          | false => rfl
          | true => rw [isPropertyLine_not_blank s hq] at hb; cases hb
        simp [isFatalLine_other s he hp, ih]
      | false =>
        cases he : isElementLine s with
        | true =>
          rw [isFatalLine_element s he h.numVertices h.numTriangles]
          cases hok : (parsePlyElementLine s h.numVertices h.numTriangles).1 with
          | true => simp [ih]
          | false => simp
        | false =>
          cases hp : isPropertyLine s with
          | true =>
            rw [isFatalLine_property s hp f]
            cases hq : parsePlyPropertyLine s f with
            | none => simp
            | some f' => simp [ih]
          | false =>
            simp [isFatalLine_other s he hp, ih]

/-! ### The property flags -/

theorem bytes_names :
    bytes ("nx") = [110, 120] ∧ bytes ("normal_x") = [110, 111, 114, 109, 97, 108, 95, 120] ∧
    bytes ("ny") = [110, 121] ∧ bytes ("normal_y") = [110, 111, 114, 109, 97, 108, 95, 121] ∧
    bytes ("nz") = [110, 122] ∧ bytes ("normal_z") = [110, 111, 114, 109, 97, 108, 95, 122] ∧
    bytes ("red") = [114, 101, 100] ∧ bytes ("green") = [103, 114, 101, 101, 110] ∧
    bytes ("blue") = [98, 108, 117, 101] ∧
    bytes ("u") = [117] ∧ bytes ("texture_u") = [116, 101, 120, 116, 117, 114, 101, 95, 117] ∧
    bytes ("v") = [118] ∧ bytes ("texture_v") = [116, 101, 120, 116, 117, 114, 101, 95, 118] := by
  decide!

theorem recordProperty_flags (n : List Nat) (f : PropertyFlags) :
    ((recordProperty n f).hasNx = (f.hasNx || decide (n = bytes ("nx") ∨ n = bytes ("normal_x")))) ∧
    ((recordProperty n f).hasNy = (f.hasNy || decide (n = bytes ("ny") ∨ n = bytes ("normal_y")))) ∧
    ((recordProperty n f).hasNz = (f.hasNz || decide (n = bytes ("nz") ∨ n = bytes ("normal_z")))) ∧
    ((recordProperty n f).hasRed = (f.hasRed || decide (n = bytes ("red")))) ∧
    ((recordProperty n f).hasGreen = (f.hasGreen || decide (n = bytes ("green")))) ∧
    ((recordProperty n f).hasBlue = (f.hasBlue || decide (n = bytes ("blue")))) ∧
    ((recordProperty n f).hasU = (f.hasU || decide (n = bytes ("u") ∨ n = bytes ("texture_u")))) ∧
    ((recordProperty n f).hasV = (f.hasV || decide (n = bytes ("v") ∨ n = bytes ("texture_v")))) := by
  obtain ⟨e1, e2, e3, e4, e5, e6, e7, e8, e9, e10, e11, e12, e13⟩ := bytes_names
  unfold recordProperty
  rw [e1, e2, e3, e4, e5, e6, e7, e8, e9, e10, e11, e12, e13]
  split_ifs with h1 h2 h3 h4 h5 h6 h7 h8
  · rcases h1 with h | h <;> subst h <;> simp
  · rcases h2 with h | h <;> subst h <;> simp
  · rcases h3 with h | h <;> subst h <;> simp
  · subst h4; simp
  · subst h5; simp
  · subst h6; simp
  · rcases h7 with h | h <;> subst h <;> simp
  · rcases h8 with h | h <;> subst h <;> simp
  · simp_all

theorem flagsAfter_flags (N : List (List Nat)) : ∀ f : PropertyFlags,
    ((flagsAfter N f).hasNx = (f.hasNx || decide (declares N ("nx") ("normal_x")))) ∧
    ((flagsAfter N f).hasNy = (f.hasNy || decide (declares N ("ny") ("normal_y")))) ∧
    ((flagsAfter N f).hasNz = (f.hasNz || decide (declares N ("nz") ("normal_z")))) ∧
    ((flagsAfter N f).hasRed = (f.hasRed || decide (bytes ("red") ∈ N))) ∧
    ((flagsAfter N f).hasGreen = (f.hasGreen || decide (bytes ("green") ∈ N))) ∧
    ((flagsAfter N f).hasBlue = (f.hasBlue || decide (bytes ("blue") ∈ N))) ∧
    ((flagsAfter N f).hasU = (f.hasU || decide (declares N ("u") ("texture_u")))) ∧
    ((flagsAfter N f).hasV = (f.hasV || decide (declares N ("v") ("texture_v")))) := by
  induction N with
  | nil => intro f; simp [flagsAfter, declares]
  | cons n N ih =>
    intro f
    obtain ⟨r1, r2, r3, r4, r5, r6, r7, r8⟩ := recordProperty_flags n f
    obtain ⟨i1, i2, i3, i4, i5, i6, i7, i8⟩ := ih (recordProperty n f)
    have e : flagsAfter (n :: N) f = flagsAfter N (recordProperty n f) := rfl
    rw [e, i1, i2, i3, i4, i5, i6, i7, i8, r1, r2, r3, r4, r5, r6, r7, r8]
    refine ⟨?_, ?_, ?_, ?_, ?_, ?_, ?_, ?_⟩ <;>
      (rw [Bool.eq_iff_iff]
       simp only [Bool.or_eq_true, decide_eq_true_eq, declares, List.mem_cons, eq_comm (a := n)]
       tauto)

theorem scalarPropertyName_none (s : List Nat) (hp : isPropertyLine s = false) :
    scalarPropertyName s = none := by
  simp [scalarPropertyName, hp]

theorem flagsAfter_filterMap_cons (s : List Nat) (rest : List (List Nat)) (f : PropertyFlags) :
    flagsAfter (List.filterMap scalarPropertyName (s :: rest)) f
      = flagsAfter (List.filterMap scalarPropertyName rest) (recordOpt (scalarPropertyName s) f) := by
  cases h : scalarPropertyName s with
  | none => simp [List.filterMap_cons, h, recordOpt]
  | some n => simp [List.filterMap_cons, h, recordOpt, flagsAfter]

/-- On success the three presence flags are computed from the property flags
after every scalar property line before `end_header` was recorded. -/
theorem headerOnLines_flags (L : List (List Nat)) : ∀ (h : HeaderInfo) (f : PropertyFlags),
    (headerOnLines L h f).1 = true →
    (headerOnLines L h f).2.2.hasNormals =
      ((flagsAfter ((L.takeWhile (fun s => !isEndHeaderLine s)).filterMap scalarPropertyName) f).hasNx &&
       (flagsAfter ((L.takeWhile (fun s => !isEndHeaderLine s)).filterMap scalarPropertyName) f).hasNy &&
       (flagsAfter ((L.takeWhile (fun s => !isEndHeaderLine s)).filterMap scalarPropertyName) f).hasNz) ∧
    (headerOnLines L h f).2.2.hasColours =
      ((flagsAfter ((L.takeWhile (fun s => !isEndHeaderLine s)).filterMap scalarPropertyName) f).hasRed &&
       (flagsAfter ((L.takeWhile (fun s => !isEndHeaderLine s)).filterMap scalarPropertyName) f).hasGreen &&
       (flagsAfter ((L.takeWhile (fun s => !isEndHeaderLine s)).filterMap scalarPropertyName) f).hasBlue) ∧
    (headerOnLines L h f).2.2.hasTexCoords =
      ((flagsAfter ((L.takeWhile (fun s => !isEndHeaderLine s)).filterMap scalarPropertyName) f).hasU &&
       (flagsAfter ((L.takeWhile (fun s => !isEndHeaderLine s)).filterMap scalarPropertyName) f).hasV) := by
  induction L with
  | nil => intro h f hs; simp [headerOnLines] at hs
  | cons s rest ih =>
    intro h f
    unfold headerOnLines
    cases hend : isEndHeaderLine s with
    | true =>
      have h1 := isEndHeaderLine_not_blank s hend
      have h2 := isEndHeaderLine_not_element s hend
      have h3 := isEndHeaderLine_not_property s hend
      simp [h1, h2, h3, hend, List.takeWhile, flagsAfter]
    | false =>
      have htw : List.takeWhile (fun s => !isEndHeaderLine s) (s :: rest)
          = s :: List.takeWhile (fun s => !isEndHeaderLine s) rest := by
        simp [List.takeWhile, hend]
      rw [htw, flagsAfter_filterMap_cons]
      cases hb : isBlankLine s with
      | true =>
        have hp : isPropertyLine s = false := by
          cases hq : isPropertyLine s with
          | false => rfl
          | true => rw [isPropertyLine_not_blank s hq] at hb; cases hb
        rw [scalarPropertyName_none s hp]
        simpa [recordOpt] using ih h f
      | false =>
        cases he : isElementLine s with
        | true =>
          have hp : isPropertyLine s = false := by
            cases hq : isPropertyLine s with
            | false => rfl
            | true => rw [isPropertyLine_not_element s hq] at he; cases he
          rw [scalarPropertyName_none s hp]
          cases hok : (parsePlyElementLine s h.numVertices h.numTriangles).1 with
          | true => simpa [recordOpt] using ih _ f
          | false => simp
        | false =>
          cases hp : isPropertyLine s with
          | true =>
            cases hq : parsePlyPropertyLine s f with
            | none => simp
            | some f' =>
              rw [← parsePlyPropertyLine_some s f f' hp hq]
              simpa using ih h f'
          | false =>
            rw [scalarPropertyName_none s hp]
            simpa [recordOpt] using ih h f

/-! ### One vertex line -/

theorem parseOr_valid {α σ : Type} (parser : List Nat → Option (α × List Nat)) (set : σ → α → σ)
    (s : σ × List Nat × Bool) (h : (parseOr parser set s).2.2 = true) : s.2.2 = true := by
  unfold parseOr at h
  cases hp : parser s.2.1 with
  | none => rw [hp] at h; cases h
  | some r => rw [hp] at h; exact h

theorem parseOr_some {α σ : Type} (parser : List Nat → Option (α × List Nat)) (set : σ → α → σ)
    (x : σ) (p : List Nat) (b : Bool) (a : α) (q : List Nat) (h : parser p = some (a, q)) :
    parseOr parser set (x, p, b) = (set x a, q, b) := by
  simp [parseOr, h]

/-- A step of `PARSE_OR` whose setter leaves the projection `g` alone leaves it alone. -/
theorem parseOr_frame {α σ β : Type} (parser : List Nat → Option (α × List Nat))
    (set : σ → α → σ) (g : σ → β) (hg : ∀ x a, g (set x a) = g x) (s : σ × List Nat × Bool) :
    g (parseOr parser set s).1 = g s.1 := by
  unfold parseOr
  cases parser s.2.1 with
  | none => rfl
  | some r => exact hg _ _

theorem parsePosition_col (s : Vertex × List Nat × Bool) : (parsePosition s).1.col = s.1.col := by
  unfold parsePosition
  refine (parseOr_frame parseFloat _ Vertex.col ?_ _).trans ?_
  · intro x a; rfl
  refine (parseOr_frame parseFloat _ Vertex.col ?_ _).trans ?_
  · intro x a; rfl
  refine parseOr_frame parseFloat _ Vertex.col ?_ _
  intro x a; rfl

theorem parseNormal_col (s : Vertex × List Nat × Bool) : (parseNormal s).1.col = s.1.col := by
  unfold parseNormal
  refine (parseOr_frame parseFloat _ Vertex.col ?_ _).trans ?_
  · intro x a; rfl
  refine (parseOr_frame parseFloat _ Vertex.col ?_ _).trans ?_
  · intro x a; rfl
  refine parseOr_frame parseFloat _ Vertex.col ?_ _
  intro x a; rfl

theorem parseTexCoord_col (s : Vertex × List Nat × Bool) : (parseTexCoord s).1.col = s.1.col := by
  unfold parseTexCoord
  split_ifs
  · refine (parseOr_frame parseFloat _ Vertex.col ?_ _).trans ?_
    · intro x a; rfl
    refine parseOr_frame parseFloat _ Vertex.col ?_ _
    intro x a; rfl
  · rfl

/-- Without declared colours a vertex line never writes the colour of its slot. -/
theorem parseVertexLine_col_of_no_colours (hn ht : Bool) (v : Vertex) (p : List Nat) :
    (parseVertexLine hn false ht v p).1.col = v.col := by
  unfold parseVertexLine
  simp only [Bool.false_and, Bool.false_eq_true, if_false]
  split_ifs <;> simp only [parseTexCoord_col, parseNormal_col, parsePosition_col]

theorem getD_of_forall {α : Type} (P : α → Prop) (l : List α) (i : Nat) (d : α)
    (hl : ∀ v ∈ l, P v) (hd : P d) : P (l.getD i d) := by
  by_cases hi : i < l.length
  · rw [List.getD_eq_getElem l d hi]
    exact hl _ (List.getElem_mem hi)
  · rw [List.getD_eq_default l d (by omega)]
    exact hd

theorem forall_set_of_forall {α : Type} (P : α → Prop) (l : List α) (i : Nat) (x : α)
    (hl : ∀ v ∈ l, P v) (hx : P x) : ∀ v ∈ l.set i x, P v := by
  intro v hv
  rcases List.mem_or_eq_of_mem_set hv with h | h
  · exact hl v h
  · rw [h]; exact hx

/-- Without declared colours the vertex loop keeps every colour at its default. -/
theorem parseVerticesLoop_no_colours (fuel : Nat) (p : List Nat) (d : MeshCPU) (mn mx : ℚ) (i : Nat)
    (hf : p.length < fuel) (hc : d.hasColours = false)
    (hv : ∀ v ∈ d.vertices, v.col = Vertex.default.col) :
    (parseVerticesLoop fuel p d mn mx i).2.2.hasColours = false ∧
    ∀ v ∈ (parseVerticesLoop fuel p d mn mx i).2.2.vertices, v.col = Vertex.default.col := by
  have step : ∀ (p : List Nat) (e : MeshCPU) (j : Nat),
      (e.hasColours = false ∧ ∀ v ∈ e.vertices, v.col = Vertex.default.col) →
      (e.hasColours = false ∧ ∀ v ∈ e.vertices.set j (parseVertexLine e.hasNormals e.hasColours
        e.hasTexCoords (e.vertices.getD j Vertex.default) p).1, v.col = Vertex.default.col) := by
    intro p e j hi
    refine ⟨hi.1, forall_set_of_forall _ _ _ _ hi.2 ?_⟩
    rw [hi.1, parseVertexLine_col_of_no_colours]
    exact getD_of_forall (fun v : Vertex => v.col = Vertex.default.col) _ _ _ hi.2 rfl
  obtain ⟨p', d', mn', mx', i', he, hinv, -⟩ := parseVerticesLoop_rule
    (fun _ e _ _ _ => e.hasColours = false ∧ ∀ v ∈ e.vertices, v.col = Vertex.default.col)
    (by intros; assumption)
    (by intro p e mn mx j _ _ _ _ hi; exact step p e j hi)
    (by intro p e mn mx j _ _ _ _ hi; exact step p e j hi)
    fuel p d mn mx i hf ⟨hc, hv⟩
  rw [he]
  exact hinv

theorem parseFloat_some_peek (p : List Nat) (x : ℚ × List Nat) (h : parseFloat p = some x) :
    peek p ≠ 0 := by
  intro h0
  have hs : takeSign p = (false, p) := by simp [takeSign, h0]
  have hd : digitRun p = [] := by
    cases p with
    | nil => rfl
    | cons c cs =>
      have hc : c = 0 := by simpa [peek] using h0
      subst hc
      simp [digitRun, isDigit]
  simp [parseFloat, hs, hd] at h

theorem parsePosition_valid (s : Vertex × List Nat × Bool) (h : (parsePosition s).2.2 = true) :
    s.2.2 = true :=
  parseOr_valid _ _ _ (parseOr_valid _ _ _ (parseOr_valid _ _ _ h))

theorem parseNormal_valid (s : Vertex × List Nat × Bool) (h : (parseNormal s).2.2 = true) :
    s.2.2 = true :=
  parseOr_valid _ _ _ (parseOr_valid _ _ _ (parseOr_valid _ _ _ h))

/-- The colour step when three floats within [0,1] follow: the float reading is taken. -/
theorem parseColour_float (w : Vertex) (q q1 q2 q3 : List Nat) (r g b : ℚ)
    (hr : parseFloat q = some (r, q1)) (hg : parseFloat q1 = some (g, q2))
    (hb : parseFloat q2 = some (b, q3))
    (r0 : 0 ≤ r) (r1 : r ≤ 1) (g0 : 0 ≤ g) (g1 : g ≤ 1) (b0 : 0 ≤ b) (b1 : b ≤ 1) :
    parseColour w q true = ({ w with col := ⟨r, g, b, 1⟩ }, q3, true) := by
  have hfc : parseFloatColour (⟨1, 1, 1⟩, q, true) = (⟨r, g, b⟩, q3, true) := by
    unfold parseFloatColour
    rw [parseOr_some _ _ _ _ _ _ _ hr, parseOr_some _ _ _ _ _ _ _ hg,
      parseOr_some _ _ _ _ _ _ _ hb]
  unfold parseColour
  simp only [hfc, r0, r1, g0, g1, b0, b1, decide_True, Bool.and_self, if_true]

/-! ### The orchestrator, stage by stage -/

theorem parsePlyMesh_unfold (file : List Nat) (m : MeshCPU) (hne : file ≠ []) :
    parsePlyMesh file m =
      if (headerStage file m).1 = false then failMesh (withHeader m (headerStage file m).2.2)
      else if (headerStage file m).2.2.numVertices = 0 ∨ (headerStage file m).2.2.numTriangles = 0
        then failMesh (withHeader m (headerStage file m).2.2)
      else if (vertexStage file m).1 = false then failMesh (vertexStage file m).2.2
      else if (indexStage file m).1 = false then failMesh (indexStage file m).2.2
      else (true, (indexStage file m).2.2) := by
  unfold parsePlyMesh
  rw [if_neg hne]
  simp only [Bool.not_eq_true', indexStage, meshForIndices, vertexStage, meshForVertices,
    withHeader]

theorem vertexStage_ok (file : List Nat) (m : MeshCPU)
    (hv : (headerStage file m).2.2.numVertices ≠ 0) : (vertexStage file m).1 = true :=
  parseVertices_ok _ _ hv

theorem vertexStage_frame (file : List Nat) (m : MeshCPU) :
    sameFrameV (meshForVertices file m) (vertexStage file m).2.2 :=
  parseVertices_frame _ _

theorem headerStage_numTriangles_lt (file : List Nat) (m : MeshCPU) (hm : m.numTriangles < 2 ^ 32) :
    (headerStage file m).2.2.numTriangles < 2 ^ 32 :=
  parsePlyHeaderLoop_numTriangles_lt _ _ _ _ hm

theorem indexStage_ok (file : List Nat) (m : MeshCPU) (hm : m.numTriangles < 2 ^ 32)
    (ht : (headerStage file m).2.2.numTriangles ≠ 0) : (indexStage file m).1 = true := by
  have hf := vertexStage_frame file m
  have hnt : (vertexStage file m).2.2.numTriangles = (headerStage file m).2.2.numTriangles := by
    rw [hf.2.2.2.1]; rfl
  have hnz := three_mul_mod_ne_zero _ ht (headerStage_numTriangles_lt file m hm)
  rw [← hnt] at hnz
  apply parseIndices_ok
  · intro hnil
    have hlen := congrArg List.length hnil
    simp only [meshForIndices, List.length_replicate, List.length_nil] at hlen
    exact hnz hlen
  · exact hnz

/-- Success of the whole parse, for a non-empty file and a 32-bit prior face count. -/
theorem parsePlyMesh_true_iff (file : List Nat) (m : MeshCPU) (hne : file ≠ [])
    (hm : m.numTriangles < 2 ^ 32) :
    (parsePlyMesh file m).1 = true ↔
      (headerStage file m).1 = true ∧ (headerStage file m).2.2.numVertices ≠ 0 ∧
        (headerStage file m).2.2.numTriangles ≠ 0 := by
  rw [parsePlyMesh_unfold file m hne]
  by_cases hh : (headerStage file m).1 = false
  · rw [if_pos hh]; simp [failMesh, hh]
  · rw [if_neg hh]
    by_cases hz : (headerStage file m).2.2.numVertices = 0 ∨ (headerStage file m).2.2.numTriangles = 0
    · rw [if_pos hz]
      simp only [failMesh, Bool.false_eq_true, false_iff, not_and, ne_eq]
      intro _ hv ht
      exact hz.elim hv ht
    · rw [if_neg hz]
      have hv : (headerStage file m).2.2.numVertices ≠ 0 := fun h => hz (Or.inl h)
      have ht : (headerStage file m).2.2.numTriangles ≠ 0 := fun h => hz (Or.inr h)
      rw [if_neg (by simp [vertexStage_ok file m hv]),
        if_neg (by simp [indexStage_ok file m hm ht])]
      simpa [hv, ht] using hh

/-- The mesh returned by a successful parse is the one the face stage leaves. -/
theorem parsePlyMesh_mesh_of_true (file : List Nat) (m : MeshCPU)
    (hs : (parsePlyMesh file m).1 = true) :
    file ≠ [] ∧ (headerStage file m).1 = true ∧ (headerStage file m).2.2.numVertices ≠ 0 ∧
      (headerStage file m).2.2.numTriangles ≠ 0 ∧ (parsePlyMesh file m).2 = (indexStage file m).2.2 := by
  have hne : file ≠ [] := by
    intro h
    simp [parsePlyMesh, h] at hs
  refine ⟨hne, ?_⟩
  rw [parsePlyMesh_unfold file m hne] at hs ⊢
  by_cases hh : (headerStage file m).1 = false
  · rw [if_pos hh] at hs; simp [failMesh] at hs
  · rw [if_neg hh] at hs ⊢
    by_cases hz : (headerStage file m).2.2.numVertices = 0 ∨ (headerStage file m).2.2.numTriangles = 0
    · rw [if_pos hz] at hs; simp [failMesh] at hs
    · rw [if_neg hz] at hs ⊢
      by_cases h1 : (vertexStage file m).1 = false
      · rw [if_pos h1] at hs; simp [failMesh] at hs
      · rw [if_neg h1] at hs ⊢
        by_cases h2 : (indexStage file m).1 = false
        · rw [if_pos h2] at hs; simp [failMesh] at hs
        · rw [if_neg h2]
          exact ⟨by simpa using hh, fun h => hz (Or.inl h), fun h => hz (Or.inr h), rfl⟩

/-- The buffer sizes after a successful parse: the vertex buffer has
`numVertices` entries, and the index buffer has `numIndices` entries, which is
`numTriangles * 3` reduced modulo `2 ^ 32`. -/
theorem parsePlyMesh_lengths (file : List Nat) (m : MeshCPU) (hs : (parsePlyMesh file m).1 = true) :
    (parsePlyMesh file m).2.vertices.length = (parsePlyMesh file m).2.numVertices ∧
    (parsePlyMesh file m).2.numIndices = (parsePlyMesh file m).2.numTriangles * 3 % 2 ^ 32 ∧
    (parsePlyMesh file m).2.indices.length = (parsePlyMesh file m).2.numIndices := by
  obtain ⟨-, -, -, -, hmesh⟩ := parsePlyMesh_mesh_of_true file m hs
  obtain ⟨i1, i2, i3, i4, -, -, -, -, -, i10⟩ :=
    parseIndices_frame (vertexStage file m).2.1 (meshForIndices file m)
  obtain ⟨-, v2, -, v4, -, -, -, v8⟩ := vertexStage_frame file m
  rw [hmesh]
  unfold indexStage
  rw [i1, i2, i3, i4, i10]
  simp only [meshForIndices, List.length_replicate, and_self, and_true]
  rw [v8, v2]
  simp [meshForVertices, withHeader]

/-! ### Claims about the orchestrator -/

/-- C1 (as the code behaves): on a file declaring 1431655766 faces the parse
succeeds, the vertex buffer has the declared single entry, and the index buffer
has 2 entries, not 3 x 1431655766, because `numTriangles * 3` wrapped around
32 bits (`parsePlyMesh_lengths` gives the sizes on every successful parse). -/
theorem overflow_index_buffer_short :
    (parsePlyMesh overflowInput emptyMesh).1 = true ∧
    (parsePlyMesh overflowInput emptyMesh).2.numVertices = 1 ∧
    (parsePlyMesh overflowInput emptyMesh).2.vertices.length = 1 ∧
    (parsePlyMesh overflowInput emptyMesh).2.numTriangles = 1431655766 ∧
    (parsePlyMesh overflowInput emptyMesh).2.numIndices = 2 ∧
    (parsePlyMesh overflowInput emptyMesh).2.indices.length = 2 ∧
    (parsePlyMesh overflowInput emptyMesh).2.indices.length
      ≠ 3 * (parsePlyMesh overflowInput emptyMesh).2.numTriangles := by
  decide!

/-- C2: on the end-to-end input of the specification, `parsePlyMesh` on an empty
mesh returns success with the three vertices at positions (0,0,0), (1,0,0),
(0,1,0), the index buffer [0,1,2], minY = 0 and maxY = 1 (the counts are 3
vertices, 1 triangle and 3 indices). -/
theorem scenario_parses :
    (parsePlyMesh scenarioInput emptyMesh).1 = true ∧
    (parsePlyMesh scenarioInput emptyMesh).2.vertices.length = 3 ∧
    (parsePlyMesh scenarioInput emptyMesh).2.vertices.map (fun v => v.pos)
      = [⟨0, 0, 0⟩, ⟨1, 0, 0⟩, ⟨0, 1, 0⟩] ∧
    (parsePlyMesh scenarioInput emptyMesh).2.indices = [0, 1, 2] ∧
    (parsePlyMesh scenarioInput emptyMesh).2.minY = 0 ∧
    (parsePlyMesh scenarioInput emptyMesh).2.maxY = 1 ∧
    (parsePlyMesh scenarioInput emptyMesh).2.numVertices = 3 ∧
    (parsePlyMesh scenarioInput emptyMesh).2.numTriangles = 1 ∧
    (parsePlyMesh scenarioInput emptyMesh).2.numIndices = 3 := by
  decide!

/-- C3: for every non-empty input buffer and every prior content of the mesh,
if `parsePlyMesh` reports failure then on return the vertex buffer and the index
buffer are empty and numVertices = numIndices = numTriangles = 0. -/
theorem failure_clears_mesh (file : List Nat) (m : MeshCPU) (hne : file ≠ [])
    (hf : (parsePlyMesh file m).1 = false) :
    (parsePlyMesh file m).2.vertices = [] ∧ (parsePlyMesh file m).2.indices = [] ∧
    (parsePlyMesh file m).2.numVertices = 0 ∧ (parsePlyMesh file m).2.numIndices = 0 ∧
    (parsePlyMesh file m).2.numTriangles = 0 := by
  rw [parsePlyMesh_unfold file m hne] at hf ⊢
  split_ifs at hf ⊢ <;> simp [failMesh]

/-- Witness for C3: a file without `end_header`, parsed into a mesh that holds a triangle. -/
theorem failure_clears_mesh_witness :
    bytes ("ply\nformat ascii 1.0\n") ≠ [] ∧
    (parsePlyMesh (bytes ("ply\nformat ascii 1.0\n")) usedMesh).1 = false ∧
    (parsePlyMesh (bytes ("ply\nformat ascii 1.0\n")) usedMesh).2.vertices = [] ∧
    (parsePlyMesh (bytes ("ply\nformat ascii 1.0\n")) usedMesh).2.indices = [] ∧
    (parsePlyMesh (bytes ("ply\nformat ascii 1.0\n")) usedMesh).2.numVertices = 0 ∧
    (parsePlyMesh (bytes ("ply\nformat ascii 1.0\n")) usedMesh).2.numIndices = 0 ∧
    (parsePlyMesh (bytes ("ply\nformat ascii 1.0\n")) usedMesh).2.numTriangles = 0 :=
  ⟨by decide!, by decide!,
    failure_clears_mesh (bytes ("ply\nformat ascii 1.0\n")) usedMesh (by decide!) (by decide!)⟩

/-- Line 14: handed a vector of size 0, the function returns `false` before the
rollback of lines 45-47, and the mesh is as it was.  Such a vector holds no
terminating NUL; whether `loadBinaryFile` can produce one is outside this source
file. -/
theorem parsePlyMesh_nil (m : MeshCPU) : parsePlyMesh [] m = (false, m) := by
  simp [parsePlyMesh]

/-- Every write of the face loop is inside the index buffer when the buffer has
room for three entries per declared face. -/
theorem parseIndicesInBounds_of_le (fuel : Nat) : ∀ (p : List Nat) (d : MeshCPU) (t : Nat),
    d.numTriangles * 3 ≤ d.indices.length → parseIndicesInBounds fuel p d t = true := by
  induction fuel with
  | zero =>
    intro p d t _
    rfl
  | succ n ih =>
    intro p d t h
    unfold parseIndicesInBounds
    by_cases hc : t < d.numTriangles ∧ peek p ≠ 0
    · rw [if_pos hc]
      dsimp only
      by_cases hb : samePos (trimEOL p (skipToNextLine p)) p = true
      · rw [if_pos hb]
        exact ih _ _ _ h
      · rw [if_neg hb]
        cases hu : parseUInt p with
        | none => exact ih _ _ _ h
        | some x =>
          obtain ⟨count, p'⟩ := x
          dsimp only
          by_cases h3 : count ≠ 3
          · rw [if_pos h3]
            exact ih _ _ _ h
          · rw [if_neg h3]
            by_cases hv : (parseTriangle ((0, 0, 0), p', true)).2.2 = true
            · rw [if_pos hv]
              have hlt : t * 3 % 2 ^ 32 + 2 < d.indices.length := by
                have hle := Nat.mod_le (t * 3) (2 ^ 32)
                generalize t * 3 % 2 ^ 32 = b at hle ⊢
                omega
              rw [if_pos hlt]
              apply ih
              simpa using h
            · rw [if_neg hv]
              exact ih _ _ _ h
    · rw [if_neg hc]

/-- Without a wrap at line 35 the buffer allocated at line 36 has room for every
write of the face loop. -/
theorem parseIndicesInBounds_of_no_wrap (fuel : Nat) (p : List Nat) (d : MeshCPU) (t : Nat)
    (hlen : d.indices.length = d.numTriangles * 3 % 2 ^ 32)
    (hb : d.numTriangles * 3 < 2 ^ 32) : parseIndicesInBounds fuel p d t = true := by
  apply parseIndicesInBounds_of_le
  rw [hlen, Nat.mod_eq_of_lt hb]

/-- C5 (as the code behaves): on the file of C1 followed by the triangle line
`3 5 6 7`, the header decodes and both counts are nonzero, the vertex decoder
returns `true`, and the index buffer allocated at lines 35-36 has 2 entries
because `numTriangles * 3` wrapped; the face loop accepts the line `3 5 6 7`
with `triangleIndex = 0`, so line 288 writes `indices[2]`: not every write of
the run is inside the buffer, and the run does not return success. -/
theorem overflow_face_write_out_of_bounds :
    overflowFaceInput ≠ [] ∧ (headerStage overflowFaceInput emptyMesh).1 = true ∧
    (headerStage overflowFaceInput emptyMesh).2.2.numVertices ≠ 0 ∧
    (headerStage overflowFaceInput emptyMesh).2.2.numTriangles ≠ 0 ∧
    (vertexStage overflowFaceInput emptyMesh).1 = true ∧
    (meshForIndices overflowFaceInput emptyMesh).indices.length = 2 ∧
    faceLineIndices (vertexStage overflowFaceInput emptyMesh).2.1 = some (5, 6, 7) ∧
    parseIndicesInBounds ((vertexStage overflowFaceInput emptyMesh).2.1.length + 1)
      (vertexStage overflowFaceInput emptyMesh).2.1
      (meshForIndices overflowFaceInput emptyMesh) 0 = false := by
  decide!

/-! ### Claims about the header decoder -/

theorem headerStage_fst_false (file : List Nat) (m : MeshCPU)
    (hno : ∀ s ∈ headerLines file, isEndHeaderLine s = false) : (headerStage file m).1 = false := by
  unfold headerStage
  rw [(parsePlyHeader_eq_onLines file _).1]
  cases hr : (headerOnLines (headerLines file)
      ⟨m.numVertices, m.numTriangles, m.hasNormals, m.hasColours, m.hasTexCoords⟩
      ⟨false, false, false, false, false, false, false, false⟩).1 with
  | false => rfl
  | true =>
    obtain ⟨⟨s, hs, he⟩, -⟩ := (headerOnLines_success_iff _ _ _).mp hr
    rw [hno s hs] at he
    cases he

/-- C6: for every input buffer in which no header line starts with `end_header`
before the buffer ends, `parsePlyHeader` reports failure (whatever the five
reference parameters hold), and therefore `parsePlyMesh` reports failure. -/
theorem header_fails_without_end_header (file : List Nat) (h : HeaderInfo) (m : MeshCPU)
    (hno : ∀ s ∈ headerLines file, isEndHeaderLine s = false) :
    (parsePlyHeader file h).1 = false ∧ (parsePlyMesh file m).1 = false := by
  constructor
  · rw [(parsePlyHeader_eq_onLines file h).1]
    cases hr : (headerOnLines (headerLines file) h
        ⟨false, false, false, false, false, false, false, false⟩).1 with
    | false => rfl
    | true =>
      obtain ⟨⟨s, hs, he⟩, -⟩ := (headerOnLines_success_iff _ _ _).mp hr
      rw [hno s hs] at he
      cases he
  · by_cases hne : file = []
    · simp [parsePlyMesh, hne]
    · rw [parsePlyMesh_unfold file m hne, if_pos (headerStage_fst_false file m hno)]
      rfl

/-- Witness for C6: a file whose only occurrence of `end_header` is inside a comment line. -/
theorem header_fails_without_end_header_witness :
    (∀ s ∈ headerLines noEndHeaderInput, isEndHeaderLine s = false) ∧
    (parsePlyHeader noEndHeaderInput ⟨0, 0, false, false, false⟩).1 = false ∧
    (parsePlyMesh noEndHeaderInput emptyMesh).1 = false :=
  ⟨by decide!,
    header_fails_without_end_header noEndHeaderInput ⟨0, 0, false, false, false⟩ emptyMesh
      (by decide!)⟩

/-- C7 (as stated) fails: this buffer contains an `end_header` line, and the
header decoder fails on it, at the line `element edge 5` that precedes it. -/
theorem header_fails_before_end_header :
    (∃ s ∈ headerLines edgeInput, isEndHeaderLine s = true) ∧
    (parsePlyHeader edgeInput ⟨0, 0, false, false, false⟩).1 = false := by
  decide!

/-- A property line whose name token has 32 bytes also makes the header decoder
fail, although an `end_header` line follows. -/
theorem header_fails_on_long_token :
    (∃ s ∈ headerLines longTokenInput, isEndHeaderLine s = true) ∧
    (parsePlyHeader longTokenInput ⟨0, 0, false, false, false⟩).1 = false := by
  decide!

/-- C7 (amended): the header decoder succeeds exactly when the buffer has a
line starting with `end_header` and no line before the first such line is an
element line that `parsePlyElementLine` rejects or a property line that
`parsePlyPropertyLine` rejects.  A line that is neither an element line nor a
property line never makes it fail: it is skipped. -/
theorem header_succeeds_iff (file : List Nat) (h : HeaderInfo) :
    ((parsePlyHeader file h).1 = true ↔
      (∃ s ∈ headerLines file, isEndHeaderLine s = true) ∧
        ∀ s ∈ linesBeforeEndHeader file, isFatalLine s = false) ∧
    (∀ s : List Nat, isElementLine s = false → isPropertyLine s = false →
      isFatalLine s = false) := by
  refine ⟨?_, isFatalLine_other⟩
  rw [(parsePlyHeader_eq_onLines file h).1]
  exact headerOnLines_success_iff _ _ _

/-- The three presence flags of a successful header decode, in terms of the declared names. -/
theorem parsePlyHeader_flags (file : List Nat) (h : HeaderInfo)
    (hs : (parsePlyHeader file h).1 = true) :
    ((parsePlyHeader file h).2.2.hasNormals = true ↔
      declares (declaredNames file) ("nx") ("normal_x") ∧
      declares (declaredNames file) ("ny") ("normal_y") ∧
      declares (declaredNames file) ("nz") ("normal_z")) ∧
    ((parsePlyHeader file h).2.2.hasColours = true ↔
      bytes ("red") ∈ declaredNames file ∧ bytes ("green") ∈ declaredNames file ∧
      bytes ("blue") ∈ declaredNames file) ∧
    ((parsePlyHeader file h).2.2.hasTexCoords = true ↔
      declares (declaredNames file) ("u") ("texture_u") ∧
      declares (declaredNames file) ("v") ("texture_v")) := by
  obtain ⟨e1, e2, -⟩ := parsePlyHeader_eq_onLines file h
  rw [e1] at hs
  obtain ⟨k1, k2, k3⟩ := headerOnLines_flags _ _ _ hs
  obtain ⟨i1, i2, i3, i4, i5, i6, i7, i8⟩ := flagsAfter_flags (declaredNames file)
    ⟨false, false, false, false, false, false, false, false⟩
  rw [e2, k1, k2, k3]
  change (((flagsAfter (declaredNames file) _).hasNx && (flagsAfter (declaredNames file) _).hasNy
      && (flagsAfter (declaredNames file) _).hasNz) = true ↔ _) ∧
    (((flagsAfter (declaredNames file) _).hasRed && (flagsAfter (declaredNames file) _).hasGreen
      && (flagsAfter (declaredNames file) _).hasBlue) = true ↔ _) ∧
    (((flagsAfter (declaredNames file) _).hasU && (flagsAfter (declaredNames file) _).hasV)
      = true ↔ _)
  rw [i1, i2, i3, i4, i5, i6, i7, i8]
  simp only [Bool.false_or, Bool.and_eq_true, decide_eq_true_eq, and_assoc]
  refine ⟨?_, ?_, ?_⟩ <;> trivial

/-- C8: for every header that decodes successfully, hasNormals is true exactly
when the scalar property lines before `end_header` name all three of (nx or
normal_x), (ny or normal_y), (nz or normal_z); hasColours exactly when they
name red, green and blue; hasTexCoords exactly when they name (u or texture_u)
and (v or texture_v).  The names are compared byte for byte, and the names of
`property list` lines are not among the declared names. -/
theorem header_flags_iff (file : List Nat) (h : HeaderInfo)
    (hs : (parsePlyHeader file h).1 = true) :
    ((parsePlyHeader file h).2.2.hasNormals = true ↔
      declares (declaredNames file) ("nx") ("normal_x") ∧
      declares (declaredNames file) ("ny") ("normal_y") ∧
      declares (declaredNames file) ("nz") ("normal_z")) ∧
    ((parsePlyHeader file h).2.2.hasColours = true ↔
      bytes ("red") ∈ declaredNames file ∧ bytes ("green") ∈ declaredNames file ∧
      bytes ("blue") ∈ declaredNames file) ∧
    ((parsePlyHeader file h).2.2.hasTexCoords = true ↔
      declares (declaredNames file) ("u") ("texture_u") ∧
      declares (declaredNames file) ("v") ("texture_v")) :=
  parsePlyHeader_flags file h hs

/-- Witness for C8: a header declaring nx, normal_y, nz, a misspelt `Red`, a
list property named `red`, green, blue and u: normals are present, colours and
texture coordinates are not. -/
theorem header_flags_iff_witness :
    (parsePlyHeader flagsInput ⟨0, 0, false, false, false⟩).1 = true ∧
    (parsePlyHeader flagsInput ⟨0, 0, false, false, false⟩).2.2.hasNormals = true ∧
    (parsePlyHeader flagsInput ⟨0, 0, false, false, false⟩).2.2.hasColours = false ∧
    (parsePlyHeader flagsInput ⟨0, 0, false, false, false⟩).2.2.hasTexCoords = false ∧
    ((parsePlyHeader flagsInput ⟨0, 0, false, false, false⟩).2.2.hasColours = true ↔
      bytes ("red") ∈ declaredNames flagsInput ∧ bytes ("green") ∈ declaredNames flagsInput ∧
      bytes ("blue") ∈ declaredNames flagsInput) :=
  ⟨by decide!, by decide!, by decide!, by decide!,
    (header_flags_iff flagsInput ⟨0, 0, false, false, false⟩ (by decide!)).2.1⟩

/-! ### Claims about colours -/

/-- A header that does not declare red, green and blue leaves `hasColours` false. -/
theorem headerStage_hasColours_false (file : List Nat) (m : MeshCPU)
    (hh : (headerStage file m).1 = true)
    (hdecl : ¬ (bytes ("red") ∈ declaredNames file ∧ bytes ("green") ∈ declaredNames file ∧
      bytes ("blue") ∈ declaredNames file)) :
    (headerStage file m).2.2.hasColours = false := by
  have h := (parsePlyHeader_flags file _ hh).2.1
  cases hc : (headerStage file m).2.2.hasColours with
  | false => rfl
  | true => exact absurd (h.mp hc) hdecl

/-- C9: for every input whose header does not declare all three of red, green
and blue, a successful parse ends with hasColours = false and every vertex's
colour equal to the colour of the default-constructed Vertex, whatever the body
lines contain. -/
theorem no_colours_without_declaration (file : List Nat) (m : MeshCPU)
    (hdecl : ¬ (bytes ("red") ∈ declaredNames file ∧ bytes ("green") ∈ declaredNames file ∧
      bytes ("blue") ∈ declaredNames file))
    (hs : (parsePlyMesh file m).1 = true) :
    (parsePlyMesh file m).2.hasColours = false ∧
    ∀ v ∈ (parsePlyMesh file m).2.vertices, v.col = Vertex.default.col := by
  obtain ⟨-, hh, hv, -, hmesh⟩ := parsePlyMesh_mesh_of_true file m hs
  have hc := headerStage_hasColours_false file m hh hdecl
  have hfi := parseIndices_frame (vertexStage file m).2.1 (meshForIndices file m)
  have hloop := parseVerticesLoop_no_colours ((headerStage file m).2.1.length + 1)
    (headerStage file m).2.1 (meshForVertices file m) FLT_MAX (-FLT_MAX) 0 (Nat.lt_succ_self _) hc
    (by
      intro v hv
      simp only [meshForVertices, List.mem_replicate] at hv
      rw [hv.2])
  have hvs : (vertexStage file m).2.2 = (parseVerticesLoop ((headerStage file m).2.1.length + 1)
      (headerStage file m).2.1 (meshForVertices file m) FLT_MAX (-FLT_MAX) 0).2.2 := by
    unfold vertexStage parseVertices
    rw [if_neg (by exact hv)]
  rw [hmesh]
  unfold indexStage
  rw [hfi.1, hfi.2.2.2.2.2.1]
  show (vertexStage file m).2.2.hasColours = false ∧
    ∀ v ∈ (vertexStage file m).2.2.vertices, v.col = Vertex.default.col
  rw [hvs]
  exact hloop

/-- Witness for C9: the header declares red and green only; the vertex line
carries `255 0 0` after the position, and the colour stays at its default. -/
theorem no_colours_without_declaration_witness :
    ¬ (bytes ("red") ∈ declaredNames noBlueInput ∧ bytes ("green") ∈ declaredNames noBlueInput ∧
      bytes ("blue") ∈ declaredNames noBlueInput) ∧
    (parsePlyMesh noBlueInput emptyMesh).1 = true ∧
    (parsePlyMesh noBlueInput emptyMesh).2.hasColours = false ∧
    ∀ v ∈ (parsePlyMesh noBlueInput emptyMesh).2.vertices, v.col = Vertex.default.col :=
  ⟨by decide!, by decide!,
    no_colours_without_declaration noBlueInput emptyMesh (by decide!) (by decide!)⟩

/-- C10: float-first colour decoding.  On a vertex line with colours declared
on which the position (and the normal, when declared) parsed, leaving the
cursor at `q`, if three floats r, g, b parse from `q` and each lies within
[0,1], the line is accepted and the colour of the vertex is (r, g, b, 1): the
float reading is taken and the integer reading is not tried. -/
theorem float_colour_first (hn ht : Bool) (v w : Vertex) (p q q1 q2 q3 : List Nat) (r g b : ℚ)
    (hpos : (if hn then parseNormal (parsePosition (v, p, true)) else parsePosition (v, p, true))
      = (w, q, true))
    (hr : parseFloat q = some (r, q1)) (hg : parseFloat q1 = some (g, q2))
    (hb : parseFloat q2 = some (b, q3))
    (r0 : 0 ≤ r) (r1 : r ≤ 1) (g0 : 0 ≤ g) (g1 : g ≤ 1) (b0 : 0 ≤ b) (b1 : b ≤ 1) :
    (parseVertexLine hn true ht v p).2 = true ∧
    (parseVertexLine hn true ht v p).1.col = ⟨r, g, b, 1⟩ := by
  have hq : peek q ≠ 0 := parseFloat_some_peek q _ hr
  have hcol := parseColour_float w q q1 q2 q3 r g b hr hg hb r0 r1 g0 g1 b0 b1
  have hpv : (parsePosition (v, p, true)).2.2 = true := by
    cases hn with
    | false =>
      simp only [Bool.false_eq_true, if_false] at hpos
      rw [hpos]
    | true =>
      simp only [if_true] at hpos
      apply parseNormal_valid
      rw [hpos]
  unfold parseVertexLine
  simp only [hpv, Bool.not_true, Bool.false_eq_true, if_false, hpos, Bool.true_and, bne_iff_ne,
    ne_eq, hq, not_false_eq_true, if_true, hcol]
  cases ht with
  | false => simp
  | true => simp [parseTexCoord_col]

/-- Witness for C10: the boundary triple `1 0 0` after the position `0 0 0` is
read as the floats (1, 0, 0), giving (1, 0, 0, 1) and not (1/255, 0, 0, 1); and
in a whole file the lines `0 0 0 1 0 0` and `1 2 3 0.5 0.25 1.0` give the
colours (1, 0, 0, 1) and (0.5, 0.25, 1, 1). -/
theorem float_colour_first_witness :
    ((parseVertexLine false true false Vertex.default (bytes ("0 0 0 1 0 0\n"))).2 = true ∧
      (parseVertexLine false true false Vertex.default (bytes ("0 0 0 1 0 0\n"))).1.col
        = ⟨1, 0, 0, 1⟩) ∧
    (parsePlyMesh floatColourInput emptyMesh).1 = true ∧
    (parsePlyMesh floatColourInput emptyMesh).2.vertices.map (fun v => v.col)
      = [⟨1, 0, 0, 1⟩, ⟨1 / 2, 1 / 4, 1, 1⟩] :=
  ⟨float_colour_first false false Vertex.default Vertex.default (bytes ("0 0 0 1 0 0\n"))
      (bytes ("1 0 0\n")) (bytes ("0 0\n")) (bytes ("0\n")) (bytes ("\n")) 1 0 0
      (by decide!) (by decide!) (by decide!) (by decide!)
      (by decide!) (by decide!) (by decide!) (by decide!) (by decide!) (by decide!),
    by decide!, by decide!⟩

/-! ### Three `PARSE_OR` in a row -/

theorem chain3_parseOr_some {α σ : Type} (parser : List Nat → Option (α × List Nat))
    (s1 s2 s3 : σ → α → σ) (x : σ) (q q3 : List Nat) (a b c : α)
    (h : chain3 parser q = some ((a, b, c), q3)) :
    parseOr parser s3 (parseOr parser s2 (parseOr parser s1 (x, q, true)))
      = (s3 (s2 (s1 x a) b) c, q3, true) := by
  unfold chain3 at h
  cases h1 : parser q with
  | none => rw [h1] at h; cases h
  | some r1 =>
    obtain ⟨a', q1⟩ := r1
    rw [h1] at h
    dsimp only at h
    cases h2 : parser q1 with
    | none => rw [h2] at h; cases h
    | some r2 =>
      obtain ⟨b', q2⟩ := r2
      rw [h2] at h
      dsimp only at h
      cases h3 : parser q2 with
      | none => rw [h3] at h; cases h
      | some r3 =>
        obtain ⟨c', q3'⟩ := r3
        rw [h3] at h
        simp only [Option.some.injEq, Prod.mk.injEq] at h
        obtain ⟨⟨ha, hb, hc⟩, hq⟩ := h
        subst ha hb hc hq
        rw [parseOr_some _ _ _ _ _ _ _ h1, parseOr_some _ _ _ _ _ _ _ h2,
          parseOr_some _ _ _ _ _ _ _ h3]

theorem parseOr_none {α σ : Type} (parser : List Nat → Option (α × List Nat)) (set : σ → α → σ)
    (x : σ) (p : List Nat) (b : Bool) (h : parser p = none) :
    parseOr parser set (x, p, b) = (x, p, false) := by
  simp [parseOr, h]

theorem parseOr_false {α σ : Type} (parser : List Nat → Option (α × List Nat)) (set : σ → α → σ)
    (s : σ × List Nat × Bool) (h : s.2.2 = false) : (parseOr parser set s).2.2 = false := by
  unfold parseOr
  cases parser s.2.1 with
  | none => rfl
  | some r => exact h

theorem chain3_parseOr_none {α σ : Type} (parser : List Nat → Option (α × List Nat))
    (s1 s2 s3 : σ → α → σ) (x : σ) (q : List Nat) (h : chain3 parser q = none) :
    (parseOr parser s3 (parseOr parser s2 (parseOr parser s1 (x, q, true)))).2.2 = false := by
  unfold chain3 at h
  cases h1 : parser q with
  | none =>
    rw [parseOr_none _ _ _ _ _ h1]
    exact parseOr_false _ _ _ (parseOr_false _ _ _ rfl)
  | some r1 =>
    obtain ⟨a, q1⟩ := r1
    rw [h1] at h
    dsimp only at h
    rw [parseOr_some _ _ _ _ _ _ _ h1]
    cases h2 : parser q1 with
    | none =>
      rw [parseOr_none _ _ _ _ _ h2]
      exact parseOr_false _ _ _ rfl
    | some r2 =>
      obtain ⟨b, q2⟩ := r2
      rw [h2] at h
      dsimp only at h
      rw [parseOr_some _ _ _ _ _ _ _ h2]
      cases h3 : parser q2 with
      | none => rw [parseOr_none _ _ _ _ _ h3]
      | some r3 => rw [h3] at h; cases h

/-! ### One vertex line, in terms of what is written on it -/

theorem parsePosition_some (v : Vertex) (s s1 : List Nat) (t : ℚ × ℚ × ℚ)
    (h : threeFloats s = some (t, s1)) :
    parsePosition (v, s, true) = ({ v with pos := toVec3 t }, s1, true) := by
  obtain ⟨a, b, c⟩ := t
  unfold parsePosition
  rw [chain3_parseOr_some parseFloat _ _ _ v s s1 a b c h]
  rfl

theorem parsePosition_none (v : Vertex) (s : List Nat) (h : threeFloats s = none) :
    (parsePosition (v, s, true)).2.2 = false :=
  chain3_parseOr_none parseFloat _ _ _ v s h

theorem parseNormal_some (v : Vertex) (s s1 : List Nat) (t : ℚ × ℚ × ℚ)
    (h : threeFloats s = some (t, s1)) :
    parseNormal (v, s, true) = ({ v with norm := toVec3 t }, s1, true) := by
  obtain ⟨a, b, c⟩ := t
  unfold parseNormal
  rw [chain3_parseOr_some parseFloat _ _ _ v s s1 a b c h]
  rfl

theorem parseNormal_none (v : Vertex) (s : List Nat) (h : threeFloats s = none) :
    (parseNormal (v, s, true)).2.2 = false :=
  chain3_parseOr_none parseFloat _ _ _ v s h

/-- A rejected line: the iteration does not reach `++i`. -/
theorem parseVertexLine_rejected (hn hc ht : Bool) (v : Vertex) (s : List Nat)
    (h : isAcceptedVertexLine hn s = false) : (parseVertexLine hn hc ht v s).2 = false := by
  unfold parseVertexLine
  dsimp only
  cases hp : threeFloats s with
  | none => simp [parsePosition_none v s hp]
  | some r =>
    obtain ⟨t, s1⟩ := r
    rw [parsePosition_some v s s1 t hp]
    simp only [isAcceptedVertexLine, linePosition, lineNormal, hp, Option.map_some',
      Option.isSome_some, Bool.true_and, Bool.or_eq_false_iff, Bool.not_eq_false'] at h
    obtain ⟨hn1, hnorm⟩ := h
    subst hn1
    cases hq : threeFloats s1 with
    | none => simp [parseNormal_none _ s1 hq]
    | some r2 => rw [hq] at hnorm; simp at hnorm

/-- An accepted line: the slot gets the position and, when declared, the
normal of the line; then the colour and texture-coordinate steps run from the
cursor after them. -/
theorem parseVertexLine_accepted (hn hc ht : Bool) (v : Vertex) (s : List Nat)
    (h : isAcceptedVertexLine hn s = true) :
    parseVertexLine hn hc ht v s =
      ((if ht then parseTexCoord
          (if hc && peek (afterGeometry hn s) != 0
            then parseColour (geometryVertex hn v s) (afterGeometry hn s) true
            else (geometryVertex hn v s, afterGeometry hn s, true))
        else
          (if hc && peek (afterGeometry hn s) != 0
            then parseColour (geometryVertex hn v s) (afterGeometry hn s) true
            else (geometryVertex hn v s, afterGeometry hn s, true))).1, true) := by
  unfold parseVertexLine
  dsimp only
  cases hp : threeFloats s with
  | none => simp [isAcceptedVertexLine, linePosition, hp] at h
  | some r =>
    obtain ⟨t, s1⟩ := r
    rw [parsePosition_some v s s1 t hp]
    cases hn with
    | false =>
      have hg : geometryVertex false v s = { v with pos := toVec3 t } := by
        simp [geometryVertex, linePosition, hp]
      have ha : afterGeometry false s = s1 := by simp [afterGeometry, hp]
      rw [hg, ha]
      simp
    | true =>
      cases hq : threeFloats s1 with
      | none => simp [isAcceptedVertexLine, linePosition, lineNormal, hp, hq] at h
      | some r2 =>
        obtain ⟨t2, s2⟩ := r2
        have hg : geometryVertex true v s = { v with pos := toVec3 t, norm := toVec3 t2 } := by
          simp [geometryVertex, linePosition, lineNormal, hp, hq]
        have ha : afterGeometry true s = s2 := by simp [afterGeometry, hp, hq]
        rw [hg, ha]
        simp only [Bool.not_true, Bool.false_eq_true, if_false, if_true]
        rw [parseNormal_some _ s1 s2 t2 hq]
        simp

/-! ### The colour step -/

theorem parseFloatColour_some (q q3 : List Nat) (t : ℚ × ℚ × ℚ)
    (h : threeFloats q = some (t, q3)) :
    parseFloatColour (⟨1, 1, 1⟩, q, true) = (toVec3 t, q3, true) := by
  obtain ⟨a, b, c⟩ := t
  unfold parseFloatColour
  rw [chain3_parseOr_some parseFloat _ _ _ _ q q3 a b c h]
  rfl

theorem parseFloatColour_none (q : List Nat) (h : threeFloats q = none) :
    (parseFloatColour (⟨1, 1, 1⟩, q, true)).2.2 = false :=
  chain3_parseOr_none parseFloat _ _ _ _ q h

theorem parseIntColour_some (q q3 : List Nat) (t : Nat × Nat × Nat)
    (h : threeUInts q = some (t, q3)) :
    parseIntColour ((0, 0, 0), q, true) = (t, q3, true) := by
  obtain ⟨a, b, c⟩ := t
  unfold parseIntColour
  rw [chain3_parseOr_some parseUInt _ _ _ _ q q3 a b c h]

theorem parseIntColour_none (q : List Nat) (h : threeUInts q = none) :
    (parseIntColour ((0, 0, 0), q, true)).2.2 = false :=
  chain3_parseOr_none parseUInt _ _ _ _ q h

/-- The test of lines 199-202 is the float reading of the colour. -/
theorem floatColour_test (q : List Nat) :
    ((parseFloatColour (⟨1, 1, 1⟩, q, true)).2.2 &&
      decide (0 ≤ (parseFloatColour (⟨1, 1, 1⟩, q, true)).1.x) &&
      decide ((parseFloatColour (⟨1, 1, 1⟩, q, true)).1.x ≤ 1) &&
      decide (0 ≤ (parseFloatColour (⟨1, 1, 1⟩, q, true)).1.y) &&
      decide ((parseFloatColour (⟨1, 1, 1⟩, q, true)).1.y ≤ 1) &&
      decide (0 ≤ (parseFloatColour (⟨1, 1, 1⟩, q, true)).1.z) &&
      decide ((parseFloatColour (⟨1, 1, 1⟩, q, true)).1.z ≤ 1)) = (floatColour q).isSome := by
  unfold floatColour
  cases h : threeFloats q with
  | none => simp [parseFloatColour_none q h]
  | some r =>
    obtain ⟨t, q3⟩ := r
    rw [parseFloatColour_some q q3 t h]
    by_cases hc : 0 ≤ t.1 ∧ t.1 ≤ 1 ∧ 0 ≤ t.2.1 ∧ t.2.1 ≤ 1 ∧ 0 ≤ t.2.2 ∧ t.2.2 ≤ 1
    · simp [hc, toVec3]
    · simp only [hc, if_false, Option.isSome_none, toVec3, Bool.true_and]
      rw [Bool.eq_false_iff]
      intro hh
      simp only [Bool.and_eq_true, decide_eq_true_eq] at hh
      exact hc ⟨hh.1.1.1.1.1, hh.1.1.1.1.2, hh.1.1.1.2, hh.1.1.2, hh.1.2, hh.2⟩

/-- The colour step when the float reading succeeds. -/
theorem parseColour_eq_float (w : Vertex) (q q3 : List Nat) (c : Vec3)
    (h : floatColour q = some (c, q3)) :
    parseColour w q true = ({ w with col := ⟨c.x, c.y, c.z, 1⟩ }, q3, true) := by
  have ht := floatColour_test q
  rw [h] at ht
  unfold floatColour at h
  cases h3 : threeFloats q with
  | none => rw [h3] at h; cases h
  | some r =>
    obtain ⟨t, q3'⟩ := r
    rw [h3] at h
    dsimp only at h
    split_ifs at h
    simp only [Option.some.injEq, Prod.mk.injEq] at h
    obtain ⟨hc, hq⟩ := h
    subst hc hq
    unfold parseColour
    dsimp only
    rw [if_pos (by simpa using ht), parseFloatColour_some q q3' t h3]

/-- The colour step when the float reading fails: the integer reading, from the
start of the colour fields. -/
theorem parseColour_eq_int (w : Vertex) (q : List Nat) (h : floatColour q = none) :
    parseColour w q true =
      (if (parseIntColour ((0, 0, 0), q, true)).2.2 = true ∧
          (parseIntColour ((0, 0, 0), q, true)).1.1 ≤ 255 ∧
          (parseIntColour ((0, 0, 0), q, true)).1.2.1 ≤ 255 ∧
          (parseIntColour ((0, 0, 0), q, true)).1.2.2 ≤ 255 then
        { w with col := ⟨((parseIntColour ((0, 0, 0), q, true)).1.1 : ℚ) / 255,
            ((parseIntColour ((0, 0, 0), q, true)).1.2.1 : ℚ) / 255,
            ((parseIntColour ((0, 0, 0), q, true)).1.2.2 : ℚ) / 255,
            (alphaOf (parseIntColour ((0, 0, 0), q, true)).2.1 : ℚ) / 255⟩ }
        else w,
       afterAlpha (parseIntColour ((0, 0, 0), q, true)).2.1,
       (parseIntColour ((0, 0, 0), q, true)).2.2) := by
  have ht := floatColour_test q
  rw [h] at ht
  unfold parseColour
  dsimp only
  rw [if_neg (by simpa using ht)]
  unfold alphaOf afterAlpha
  cases parseUInt (parseIntColour ((0, 0, 0), q, true)).2.1 with
  | none =>
    dsimp only
    split_ifs with h1 h2 h2
    · rfl
    · exfalso; apply h2; simpa [and_assoc] using h1
    · exfalso; apply h1; simpa [and_assoc] using h2
    · rfl
  | some r =>
    dsimp only
    split_ifs with h1 h2 h2
    · rfl
    · exfalso; apply h2; simpa [and_assoc] using h1
    · exfalso; apply h1; simpa [and_assoc] using h2
    · rfl

theorem parseColour_geometry (w : Vertex) (q : List Nat) :
    (parseColour w q true).1.pos = w.pos ∧ (parseColour w q true).1.norm = w.norm ∧
    (parseColour w q true).1.texCoord = w.texCoord := by
  cases h : floatColour q with
  | none =>
    rw [parseColour_eq_int w q h]
    dsimp only
    split_ifs <;> exact ⟨rfl, rfl, rfl⟩
  | some r =>
    obtain ⟨c, q3⟩ := r
    rw [parseColour_eq_float w q q3 c h]
    exact ⟨rfl, rfl, rfl⟩

theorem parseTexCoord_geometry (s : Vertex × List Nat × Bool) :
    (parseTexCoord s).1.pos = s.1.pos ∧ (parseTexCoord s).1.norm = s.1.norm := by
  unfold parseTexCoord
  split_ifs
  · constructor
    · refine (parseOr_frame parseFloat _ Vertex.pos ?_ _).trans ?_
      · intro x a; rfl
      refine parseOr_frame parseFloat _ Vertex.pos ?_ _
      intro x a; rfl
    · refine (parseOr_frame parseFloat _ Vertex.norm ?_ _).trans ?_
      · intro x a; rfl
      refine parseOr_frame parseFloat _ Vertex.norm ?_ _
      intro x a; rfl
  · exact ⟨rfl, rfl⟩

/-- The position and normal of the slot after an accepted line are those
written on the line. -/
theorem parseVertexLine_geometry (hn hc ht : Bool) (v : Vertex) (s : List Nat)
    (h : isAcceptedVertexLine hn s = true) :
    (parseVertexLine hn hc ht v s).1.pos = (geometryVertex hn v s).pos ∧
    (parseVertexLine hn hc ht v s).1.norm = (geometryVertex hn v s).norm := by
  rw [parseVertexLine_accepted hn hc ht v s h]
  dsimp only
  have hcg := parseColour_geometry (geometryVertex hn v s) (afterGeometry hn s)
  split_ifs
  · rw [(parseTexCoord_geometry _).1, (parseTexCoord_geometry _).2]; exact ⟨hcg.1, hcg.2.1⟩
  · rw [(parseTexCoord_geometry _).1, (parseTexCoord_geometry _).2]; exact ⟨rfl, rfl⟩
  · exact ⟨hcg.1, hcg.2.1⟩
  · exact ⟨rfl, rfl⟩

/-- The colour of the slot after an accepted line is the colour the colour step left. -/
theorem parseVertexLine_colour (hn hc ht : Bool) (v : Vertex) (s : List Nat)
    (h : isAcceptedVertexLine hn s = true) :
    (parseVertexLine hn hc ht v s).1.col =
      (if hc && peek (afterGeometry hn s) != 0
        then parseColour (geometryVertex hn v s) (afterGeometry hn s) true
        else (geometryVertex hn v s, afterGeometry hn s, true)).1.col := by
  rw [parseVertexLine_accepted hn hc ht v s h]
  dsimp only
  cases ht with
  | false => simp
  | true => simp [parseTexCoord_col]

theorem parseUInt_some_peek (p : List Nat) (x : Nat × List Nat) (h : parseUInt p = some x) :
    peek p ≠ 0 := by
  intro h0
  have hd : digitRun p = [] := by
    cases p with
    | nil => rfl
    | cons c cs =>
      have hc : c = 0 := by simpa [peek] using h0
      subst hc
      simp [digitRun, isDigit]
  simp [parseUInt, hd] at h

/-! ### Claims about one vertex line -/

theorem parseVertexLine_accepted_snd (hn hc ht : Bool) (v : Vertex) (s : List Nat)
    (h : isAcceptedVertexLine hn s = true) : (parseVertexLine hn hc ht v s).2 = true := by
  rw [parseVertexLine_accepted hn hc ht v s h]

/-- The colour step when the float reading fails and the integer reading succeeds. -/
theorem parseColour_of_intColour (w : Vertex) (q q3 : List Nat) (r g b : Nat)
    (hnf : floatColour q = none) (hi : intColour q = some ((r, g, b), q3)) :
    parseColour w q true =
      ({ w with col := ⟨(r : ℚ) / 255, (g : ℚ) / 255, (b : ℚ) / 255, (alphaOf q3 : ℚ) / 255⟩ },
        afterAlpha q3, true) := by
  unfold intColour at hi
  cases h3 : threeUInts q with
  | none => rw [h3] at hi; cases hi
  | some x =>
    obtain ⟨t, q3'⟩ := x
    rw [h3] at hi
    dsimp only at hi
    split_ifs at hi with hle
    simp only [Option.some.injEq, Prod.mk.injEq] at hi
    obtain ⟨ht, hq⟩ := hi
    subst ht hq
    rw [parseColour_eq_int w q hnf, parseIntColour_some q q3' (r, g, b) h3]
    dsimp only
    rw [if_pos ⟨rfl, hle⟩]

/-- The colour step when both readings fail: the colour is not written. -/
theorem parseColour_of_no_colour (w : Vertex) (q : List Nat)
    (hnf : floatColour q = none) (hi : intColour q = none) :
    (parseColour w q true).1 = w := by
  rw [parseColour_eq_int w q hnf]
  dsimp only
  unfold intColour at hi
  cases h3 : threeUInts q with
  | none =>
    have hv := parseIntColour_none q h3
    rw [if_neg (by rw [hv]; simp)]
  | some x =>
    obtain ⟨t, q3⟩ := x
    rw [h3] at hi
    dsimp only at hi
    split_ifs at hi with hle
    rw [parseIntColour_some q q3 t h3]
    dsimp only
    rw [if_neg (fun h => hle h.2)]

theorem intColour_some_peek (q : List Nat) (x : (Nat × Nat × Nat) × List Nat)
    (h : intColour q = some x) : peek q ≠ 0 := by
  unfold intColour threeUInts chain3 at h
  cases h1 : parseUInt q with
  | none => rw [h1] at h; cases h
  | some y => exact parseUInt_some_peek _ y h1

/-- C11: integer-fallback colour decoding.  On an accepted vertex line with
colours declared whose colour fields (from the cursor after the position and
the normal) do not form three floats all within [0,1], the line is still
accepted; if three unsigned integers r, g, b, each at most 255, parse from the
start of the colour fields, the colour is (r/255, g/255, b/255, a/255) where a
is the unsigned integer that follows, when it is at most 255, and 255 when none
follows; if the integer reading fails, the colour of the slot is left as it
was.  The floats are the binary32 values the tokens round to, the values lines
199-202 compare. -/
theorem integer_colour_fallback (hn ht : Bool) (v : Vertex) (s : List Nat)
    (hacc : isAcceptedVertexLine hn s = true)
    (hnf : floatColour (afterGeometry hn s) = none) :
    (parseVertexLine hn true ht v s).2 = true ∧
    (∀ (r g b : Nat) (q3 : List Nat), intColour (afterGeometry hn s) = some ((r, g, b), q3) →
      alphaOf q3 ≤ 255 →
      (parseVertexLine hn true ht v s).1.col
        = ⟨(r : ℚ) / 255, (g : ℚ) / 255, (b : ℚ) / 255, (alphaOf q3 : ℚ) / 255⟩) ∧
    (intColour (afterGeometry hn s) = none → (parseVertexLine hn true ht v s).1.col = v.col) := by
  have hcol := parseVertexLine_colour hn true ht v s hacc
  refine ⟨parseVertexLine_accepted_snd hn true ht v s hacc, ?_, ?_⟩
  · intro r g b q3 hi _
    have hq := intColour_some_peek _ _ hi
    rw [hcol, if_pos (by simpa using hq), parseColour_of_intColour _ _ q3 r g b hnf hi]
  · intro hi
    rw [hcol]
    by_cases hq : peek (afterGeometry hn s) = 0
    · rw [if_neg (by simp [hq])]
      rfl
    · rw [if_pos (by simpa using hq), parseColour_of_no_colour _ _ hnf hi]
      rfl

/-- Witness for C11: `128 64 255 32` gives alpha 32/255, `128 64 255` gives
alpha 1, and on `1.5 0.2 0.1` the colour keeps its default value. -/
theorem integer_colour_fallback_witness :
    (parseVertexLine false true false Vertex.default (bytes ("0 0 0 128 64 255 32\n"))).1.col
      = ⟨128 / 255, 64 / 255, 1, 32 / 255⟩ ∧
    (parseVertexLine false true false Vertex.default (bytes ("0 0 0 128 64 255\n"))).1.col
      = ⟨128 / 255, 64 / 255, 1, 1⟩ ∧
    ((parseVertexLine false true false Vertex.default (bytes ("0 0 0 1.5 0.2 0.1\n"))).2 = true ∧
      (parseVertexLine false true false Vertex.default (bytes ("0 0 0 1.5 0.2 0.1\n"))).1.col
        = Vertex.default.col) :=
  ⟨((integer_colour_fallback false false Vertex.default (bytes ("0 0 0 128 64 255 32\n"))
        (by decide!) (by decide!)).2.1 128 64 255 (bytes ("32\n")) (by decide!)
        (by decide!)).trans (by decide!),
    ((integer_colour_fallback false false Vertex.default (bytes ("0 0 0 128 64 255\n"))
        (by decide!) (by decide!)).2.1 128 64 255 (bytes ("\n")) (by decide!)
        (by decide!)).trans (by decide!),
    (integer_colour_fallback false false Vertex.default (bytes ("0 0 0 1.5 0.2 0.1\n"))
        (by decide!) (by decide!)).1,
    (integer_colour_fallback false false Vertex.default (bytes ("0 0 0 1.5 0.2 0.1\n"))
        (by decide!) (by decide!)).2.2 (by decide!)⟩

/-- The test of lines 199-202 is made on the binary32 values the colour fields
were stored as: `1.00000001` is stored as 1 and `-1e-46` as 0, so on both lines
the float reading is taken; `1.0000001` is stored above 1 and the integer
reading follows, which fails on `1.0000001` and leaves the colour as it was. -/
theorem float_colour_test_after_rounding :
    (parseVertexLine false true false Vertex.default
      (bytes ("0 0 0 1.00000001 0 0\n"))).1.col = ⟨1, 0, 0, 1⟩ ∧
    (parseVertexLine false true false Vertex.default
      (bytes ("0 0 0 0 -1e-46 1\n"))).1.col = ⟨0, 0, 1, 1⟩ ∧
    (floatColour (bytes ("1.00000001 0 0\n"))).isSome = true ∧
    floatColour (bytes ("1.0000001 0 0\n")) = none ∧
    (parseVertexLine false true false { Vertex.default with col := ⟨0, 0, 0, 0⟩ }
      (bytes ("0 0 0 1.0000001 0 0\n"))).1.col = ⟨0, 0, 0, 0⟩ := by
  decide!

theorem parseTexCoord_some (w : Vertex) (q q1 q2 : List Nat) (u v : ℚ)
    (hu : parseFloat q = some (u, q1)) (hv : parseFloat q1 = some (v, q2)) :
    parseTexCoord (w, q, true) = ({ w with texCoord := ⟨u, v⟩ }, q2, true) := by
  unfold parseTexCoord
  rw [if_pos rfl, parseOr_some _ _ _ _ _ _ _ hu, parseOr_some _ _ _ _ _ _ _ hv]

/-- C17 (as the code behaves): on a file whose vertex line carries the integer
colour `128 64 255` followed by `300`, the parse succeeds and the alpha channel
written into the vertex is 300/255 = 20/17, above 1: lines 217-219 check R, G
and B against 255 but not alpha. -/
theorem alpha_not_range_checked :
    (parsePlyMesh alphaInput emptyMesh).1 = true ∧
    (parsePlyMesh alphaInput emptyMesh).2.vertices.map (fun v => v.col)
      = [⟨128 / 255, 64 / 255, 1, 20 / 17⟩] ∧
    (parsePlyMesh alphaInput emptyMesh).2.vertices.all (fun v => decide (v.col.w ≤ 1)) = false := by
  decide!

/-- C18 (as the code behaves): on a file that declares texture coordinates,
with the vertex line `0 0 0 0.5 oops`, the vertex is accepted and its texture
coordinate is (0.5, 0): the first component was written before the second
failed to parse, so the texture coordinate is not left at its default. -/
theorem texcoord_half_written :
    (parsePlyMesh halfTexCoordInput emptyMesh).1 = true ∧
    (parsePlyMesh halfTexCoordInput emptyMesh).2.hasTexCoords = true ∧
    (parsePlyMesh halfTexCoordInput emptyMesh).2.vertices.map (fun v => v.texCoord)
      = [⟨1 / 2, 0⟩] ∧
    (parsePlyMesh halfTexCoordInput emptyMesh).2.vertices.all
      (fun v => decide (v.texCoord = Vertex.default.texCoord)) = false := by
  decide!

/-- C16 (as the code behaves): on a file that declares two vertices and has the
body lines `0 0 0` and `7 8 oops`, the parse succeeds with one accepted vertex
line, and slot 1 holds the position (7, 8, 0): the abandoned line left its
first two floats in the slot, which is not the default-constructed Vertex. -/
theorem abandoned_line_leaves_trace :
    (parsePlyMesh abandonedLineInput emptyMesh).1 = true ∧
    (acceptedVertexLines false (headerStage abandonedLineInput emptyMesh).2.1).length = 1 ∧
    (parsePlyMesh abandonedLineInput emptyMesh).2.vertices.map (fun v => v.pos)
      = [⟨0, 0, 0⟩, ⟨7, 8, 0⟩] ∧
    (parsePlyMesh abandonedLineInput emptyMesh).2.vertices.getD 1 Vertex.default
      ≠ Vertex.default := by
  decide!

/-- C20 (as stated) fails: on the accepted line `0 0 0 128 64 255 1 0` with
colours and texture coordinates declared, the colour is (128/255, 64/255, 1,
1/255) and the texture coordinate is (0, 0), not (128/255, 64/255, 1, 1) and
(1, 0): the colour step read the first texture coordinate as alpha. -/
theorem texcoord_read_as_alpha :
    isAcceptedVertexLine false colourThenTexCoordLine = true ∧
    floatColour (afterGeometry false colourThenTexCoordLine) = none ∧
    (intColour (afterGeometry false colourThenTexCoordLine)).map (fun r => r.1)
      = some (128, 64, 255) ∧
    (parseVertexLine false true true Vertex.default colourThenTexCoordLine).1.col
      = ⟨128 / 255, 64 / 255, 1, 1 / 255⟩ ∧
    (parseVertexLine false true true Vertex.default colourThenTexCoordLine).1.texCoord = ⟨0, 0⟩ ∧
    ¬ ((parseVertexLine false true true Vertex.default colourThenTexCoordLine).1.col
        = ⟨128 / 255, 64 / 255, 255 / 255, 1⟩ ∧
      (parseVertexLine false true true Vertex.default colourThenTexCoordLine).1.texCoord
        = ⟨1, 0⟩) := by
  decide!

/-- C20 (amended): on an accepted vertex line with colours and texture
coordinates declared, whose colour fields are not three floats within [0,1]
and are three unsigned integers r, g, b, each at most 255: if an unsigned
integer a, at most 255, parses right after them (the first texture-coordinate
field starts with digits), the colour is (r/255, g/255, b/255, a/255); if none
parses there and two floats u, v do, the colour is (r/255, g/255, b/255, 1) and
the texture coordinate is (u, v). -/
theorem integer_colour_then_texcoords (hn : Bool) (v : Vertex) (s q3 : List Nat) (r g b : Nat)
    (hacc : isAcceptedVertexLine hn s = true)
    (hnf : floatColour (afterGeometry hn s) = none)
    (hi : intColour (afterGeometry hn s) = some ((r, g, b), q3)) :
    (parseVertexLine hn true true v s).2 = true ∧
    (∀ (a : Nat) (q4 : List Nat), parseUInt q3 = some (a, q4) → a ≤ 255 →
      (parseVertexLine hn true true v s).1.col
        = ⟨(r : ℚ) / 255, (g : ℚ) / 255, (b : ℚ) / 255, (a : ℚ) / 255⟩) ∧
    (parseUInt q3 = none → ∀ (u w : ℚ) (q4 q5 : List Nat),
      parseFloat q3 = some (u, q4) → parseFloat q4 = some (w, q5) →
      (parseVertexLine hn true true v s).1.col
        = ⟨(r : ℚ) / 255, (g : ℚ) / 255, (b : ℚ) / 255, 1⟩ ∧
      (parseVertexLine hn true true v s).1.texCoord = ⟨u, w⟩) := by
  have hq := intColour_some_peek _ _ hi
  have hcol := parseVertexLine_colour hn true true v s hacc
  rw [if_pos (by simpa using hq), parseColour_of_intColour _ _ q3 r g b hnf hi] at hcol
  refine ⟨parseVertexLine_accepted_snd hn true true v s hacc, ?_, ?_⟩
  · intro a q4 ha _
    rw [hcol]
    simp [alphaOf, ha]
  · intro hnone u w q4 q5 hu hw
    constructor
    · rw [hcol]
      simp [alphaOf, hnone]
    · rw [parseVertexLine_accepted hn true true v s hacc]
      simp only [if_true]
      rw [if_pos (by simpa using hq), parseColour_of_intColour _ _ q3 r g b hnf hi]
      have ha : afterAlpha q3 = q3 := by simp [afterAlpha, hnone]
      rw [ha, parseTexCoord_some _ q3 q4 q5 u w hu hw]

/-- Witness for C20 (amended): on `0 0 0 128 64 255 1 0` the field `1` is read
as alpha; on `0 0 0 128 64 255 -1 0` no unsigned integer follows the colour, so
alpha is 1 and the texture coordinate is (-1, 0). -/
theorem integer_colour_then_texcoords_witness :
    (parseVertexLine false true true Vertex.default colourThenTexCoordLine).1.col
      = ⟨128 / 255, 64 / 255, 255 / 255, 1 / 255⟩ ∧
    ((parseVertexLine false true true Vertex.default (bytes ("0 0 0 128 64 255 -1 0\n"))).1.col
        = ⟨128 / 255, 64 / 255, 255 / 255, 1⟩ ∧
      (parseVertexLine false true true Vertex.default
        (bytes ("0 0 0 128 64 255 -1 0\n"))).1.texCoord = ⟨-1, 0⟩) :=
  ⟨((integer_colour_then_texcoords false Vertex.default colourThenTexCoordLine (bytes ("1 0\n"))
        128 64 255 (by decide!) (by decide!) (by decide!)).2.1 1 (bytes ("0\n"))
        (by decide!) (by decide!)).trans (by decide!),
    (integer_colour_then_texcoords false Vertex.default (bytes ("0 0 0 128 64 255 -1 0\n"))
        (bytes ("-1 0\n")) 128 64 255 (by decide!) (by decide!) (by decide!)).2.2 (by decide!)
        (-1) 0 (bytes ("0\n")) (bytes ("\n")) (by decide!) (by decide!)⟩

/-! ### Line starts -/

theorem lineStartsAux_eq (m : Nat) : ∀ (n : Nat) (p : List Nat), p.length ≤ m → p.length ≤ n →
    lineStartsAux m p = lineStartsAux n p := by
  induction m with
  | zero =>
    intro n p hm _
    have hp : p = [] := List.length_eq_zero.mp (by omega)
    subst hp
    cases n <;> simp [lineStartsAux, peek]
  | succ m ih =>
    intro n p hm hn
    cases n with
    | zero =>
      have hp : p = [] := List.length_eq_zero.mp (by omega)
      subst hp
      simp [lineStartsAux, peek]
    | succ n =>
      unfold lineStartsAux
      by_cases h0 : peek p = 0
      · rw [if_pos h0, if_pos h0]
      · rw [if_neg h0, if_neg h0]
        have hlt := skipToNextLine_length_lt p h0
        rw [ih n (skipToNextLine p) (by omega) (by omega)]

theorem lineStarts_nil (p : List Nat) (h : peek p = 0) : lineStarts p = [] := by
  unfold lineStarts
  cases hp : p.length with
  | zero => rfl
  | succ k => simp [lineStartsAux, h]

theorem lineStarts_cons (p : List Nat) (h : peek p ≠ 0) :
    lineStarts p = p :: lineStarts (skipToNextLine p) := by
  have hlt := skipToNextLine_length_lt p h
  unfold lineStarts
  cases hp : p.length with
  | zero => omega
  | succ k =>
    rw [lineStartsAux, if_neg h]
    rw [lineStartsAux_eq k (skipToNextLine p).length (skipToNextLine p) (by omega) (Nat.le_refl _)]

theorem parseFloat_none_of_eol (p : List Nat) (h : isEOL (peek p) = true) : parseFloat p = none := by
  have h2 : peek p = 10 ∨ peek p = 13 := by simpa [isEOL] using h
  have hs : takeSign p = (false, p) := by
    rcases h2 with h2 | h2 <;> simp [takeSign, h2]
  have hd : digitRun p = [] := by
    cases p with
    | nil => rfl
    | cons c cs =>
      have hc : c = 10 ∨ c = 13 := by simpa [peek] using h2
      rcases hc with hc | hc <;> subst hc <;> simp [digitRun, isDigit]
  simp [parseFloat, hs, hd]

theorem not_accepted_of_blank (hn : Bool) (p : List Nat) (h0 : peek p ≠ 0)
    (hb : isBlankLine p = true) : isAcceptedVertexLine hn p = false := by
  rw [isBlankLine_eq p h0] at hb
  have hf := parseFloat_none_of_eol p hb
  simp [isAcceptedVertexLine, linePosition, threeFloats, chain3, hf]

theorem acceptedVertexLines_skip (hn : Bool) (p : List Nat) (h0 : peek p ≠ 0)
    (h : isAcceptedVertexLine hn p = false) :
    acceptedVertexLines hn p = acceptedVertexLines hn (skipToNextLine p) := by
  unfold acceptedVertexLines
  rw [lineStarts_cons p h0, List.filter_cons_of_neg (by simp [h])]

theorem acceptedVertexLines_accept (hn : Bool) (p : List Nat) (h0 : peek p ≠ 0)
    (h : isAcceptedVertexLine hn p = true) :
    acceptedVertexLines hn p = p :: acceptedVertexLines hn (skipToNextLine p) := by
  unfold acceptedVertexLines
  rw [lineStarts_cons p h0, List.filter_cons_of_pos h]

theorem acceptedVertexLines_nil (hn : Bool) (p : List Nat) (h0 : peek p = 0) :
    acceptedVertexLines hn p = [] := by
  unfold acceptedVertexLines
  rw [lineStarts_nil p h0]
  rfl

theorem getD_set_ne {α : Type} (l : List α) (i k : Nat) (x d : α) (h : k ≠ i) :
    (l.set i x).getD k d = l.getD k d := by
  rw [List.getD_eq_getElem?_getD, List.getD_eq_getElem?_getD, List.getElem?_set_ne (Ne.symm h)]

theorem getD_set_self {α : Type} (l : List α) (i : Nat) (x d : α) (h : i < l.length) :
    (l.set i x).getD i d = x := by
  rw [List.getD_eq_getElem?_getD, List.getElem?_set_self h]
  rfl

/-! ### The invariant of the vertex loop -/

theorem vertexInv_skip (n : Nat) (hn : Bool) (p0 p : List Nat) (e : MeshCPU) (mn mx : ℚ) (i : Nat)
    (x : Vertex) (h0 : peek p ≠ 0) (hrej : isAcceptedVertexLine hn p = false)
    (h : vertexInv n hn p0 p e mn mx i) :
    vertexInv n hn p0 (skipToNextLine p) { e with vertices := e.vertices.set i x } mn mx i := by
  obtain ⟨h1, h2, h3, h4, done, h5, h6, h7, h8⟩ := h
  have hk : ∀ k, k < i → ({ e with vertices := e.vertices.set i x } : MeshCPU).vertices.getD k
      Vertex.default = e.vertices.getD k Vertex.default := by
    intro k hk
    exact getD_set_ne _ _ _ _ _ (by omega)
  refine ⟨h1, by simpa using h2, h3, h4, done, ?_, h6, ?_, ?_⟩
  · rw [h5, acceptedVertexLines_skip hn p h0 hrej]
  · intro k s hs
    have hlt : k < i := by
      rw [← h6]
      exact (List.getElem?_eq_some.mp hs).1
    rw [hk k hlt]
    exact h7 k s hs
  · have hsk : ∀ k, k < i → slotY { e with vertices := e.vertices.set i x } k = slotY e k := by
      intro k hk'
      unfold slotY
      rw [hk k hk']
    obtain ⟨hmn, hmx, hb, hamin, hbmax⟩ := h8
    refine ⟨hmn, hmx, ?_, ?_, ?_⟩
    · intro k hk'
      rw [hsk k hk']
      exact hb k hk'
    · rcases hamin with h | ⟨a, ha, h⟩
      · exact Or.inl h
      · exact Or.inr ⟨a, ha, by rw [hsk a ha]; exact h⟩
    · rcases hbmax with h | ⟨b, hb', h⟩
      · exact Or.inl h
      · exact Or.inr ⟨b, hb', by rw [hsk b hb']; exact h⟩

theorem vertexInv_blank (n : Nat) (hn : Bool) (p0 p : List Nat) (e : MeshCPU) (mn mx : ℚ) (i : Nat)
    (h0 : peek p ≠ 0) (hrej : isAcceptedVertexLine hn p = false)
    (h : vertexInv n hn p0 p e mn mx i) :
    vertexInv n hn p0 (skipToNextLine p) e mn mx i := by
  obtain ⟨h1, h2, h3, h4, done, h5, h6, h7, h8⟩ := h
  exact ⟨h1, h2, h3, h4, done, by rw [h5, acceptedVertexLines_skip hn p h0 hrej], h6, h7, h8⟩

theorem vertexInv_accept (n : Nat) (hn : Bool) (p0 p : List Nat) (e : MeshCPU) (mn mx : ℚ)
    (i : Nat) (x : Vertex) (P : Vec3) (h0 : peek p ≠ 0) (hi : i < n)
    (hacc : isAcceptedVertexLine hn p = true)
    (hP : linePosition p = some P) (hx : x.pos = P)
    (hN : hn = true → lineNormal p = some x.norm)
    (h : vertexInv n hn p0 p e mn mx i) :
    vertexInv n hn p0 (skipToNextLine p) { e with vertices := e.vertices.set i x }
      (if x.pos.y < mn then x.pos.y else mn) (if x.pos.y > mx then x.pos.y else mx) (i + 1) := by
  obtain ⟨h1, h2, h3, h4, done, h5, h6, h7, h8⟩ := h
  have hk : ∀ k, k < i → ({ e with vertices := e.vertices.set i x } : MeshCPU).vertices.getD k
      Vertex.default = e.vertices.getD k Vertex.default := by
    intro k hk
    exact getD_set_ne _ _ _ _ _ (by omega)
  have hself : ({ e with vertices := e.vertices.set i x } : MeshCPU).vertices.getD i
      Vertex.default = x := getD_set_self _ _ _ _ (by omega)
  refine ⟨h1, by simpa using h2, h3, hi, done ++ [p], ?_, by simp [h6], ?_, ?_⟩
  · rw [h5, acceptedVertexLines_accept hn p h0 hacc]
    simp
  · intro k s hs
    by_cases hlt : k < i
    · rw [hk k hlt]
      apply h7 k s
      rw [← hs, List.getElem?_append_left (by omega)]
    · have hki : k = i := by
        have := (List.getElem?_eq_some.mp hs).1
        simp only [List.length_append, List.length_singleton] at this
        omega
      subst hki
      rw [hself]
      have hs' : s = p := by
        rw [List.getElem?_append_right (by omega)] at hs
        simp only [h6, Nat.sub_self, List.getElem?_cons_zero, Option.some.injEq] at hs
        exact hs.symm
      subst hs'
      exact ⟨by rw [hP, hx], hN⟩
  · have hsi : slotY { e with vertices := e.vertices.set i x } i = x.pos.y := by
      unfold slotY
      rw [hself]
    have hsk : ∀ k, k < i → slotY { e with vertices := e.vertices.set i x } k = slotY e k := by
      intro k hk'
      unfold slotY
      rw [hk k hk']
    obtain ⟨hmn, hmx, hb, hamin, hbmax⟩ := h8
    refine ⟨?_, ?_, ?_, ?_, ?_⟩
    · split_ifs with hc
      · exact le_trans (le_of_lt hc) hmn
      · exact hmn
    · split_ifs with hc
      · exact le_trans hmx (le_of_lt hc)
      · exact hmx
    · intro k hk'
      by_cases hlt : k < i
      · rw [hsk k hlt]
        have := hb k hlt
        constructor
        · split_ifs with hc
          · exact le_trans (le_of_lt hc) this.1
          · exact this.1
        · split_ifs with hc
          · exact le_trans this.2 (le_of_lt hc)
          · exact this.2
      · have hki : k = i := by omega
        subst hki
        rw [hsi]
        constructor
        · split_ifs with hc
          · exact le_refl _
          · exact not_lt.mp hc
        · split_ifs with hc
          · exact le_refl _
          · exact not_lt.mp hc
    · split_ifs with hc
      · exact Or.inr ⟨i, by omega, hsi⟩
      · rcases hamin with h | ⟨a, ha, h⟩
        · exact Or.inl h
        · exact Or.inr ⟨a, by omega, by rw [hsk a ha]; exact h⟩
    · split_ifs with hc
      · exact Or.inr ⟨i, by omega, hsi⟩
      · rcases hbmax with h | ⟨b, hb', h⟩
        · exact Or.inl h
        · exact Or.inr ⟨b, by omega, by rw [hsk b hb']; exact h⟩

/-- What the vertex decoder leaves: it returns `true`, and the invariant holds
at the state in which the loop stopped. -/
theorem parseVertices_inv (p0 : List Nat) (d : MeshCPU) (hlen : d.vertices.length = d.numVertices)
    (hnz : d.numVertices ≠ 0) :
    ∃ (p : List Nat) (e : MeshCPU) (mn mx : ℚ) (i : Nat),
      parseVertices p0 d = (true, p, { e with minY := mn, maxY := mx }) ∧
      vertexInv d.numVertices d.hasNormals p0 p e mn mx i ∧
      ¬ (i < e.numVertices ∧ peek p ≠ 0) := by
  unfold parseVertices
  rw [if_neg hnz]
  refine parseVerticesLoop_rule (vertexInv d.numVertices d.hasNormals p0) ?_ ?_ ?_
    (p0.length + 1) p0 d FLT_MAX (-FLT_MAX) 0 (Nat.lt_succ_self _) ?_
  · intro p e mn mx i _ h0 hb hinv
    exact vertexInv_blank _ _ _ _ _ _ _ _ h0 (not_accepted_of_blank _ p h0 hb) hinv
  · intro p e mn mx i _ h0 _ hr hinv
    have hn := hinv.2.2.1
    have hrej : isAcceptedVertexLine d.hasNormals p = false := by
      cases ha : isAcceptedVertexLine d.hasNormals p with
      | false => rfl
      | true =>
        rw [hn, parseVertexLine_accepted_snd _ _ _ _ _ ha] at hr
        cases hr
    exact vertexInv_skip _ _ _ _ _ _ _ _ _ h0 hrej hinv
  · intro p e mn mx i hi h0 _ hr hinv
    have hn := hinv.2.2.1
    have hnv := hinv.1
    have hacc : isAcceptedVertexLine d.hasNormals p = true := by
      cases ha : isAcceptedVertexLine d.hasNormals p with
      | true => rfl
      | false =>
        rw [hn, parseVertexLine_rejected _ _ _ _ _ ha] at hr
        cases hr
    have hacc' : isAcceptedVertexLine e.hasNormals p = true := by rw [hn]; exact hacc
    obtain ⟨hg1, hg2⟩ := parseVertexLine_geometry e.hasNormals e.hasColours e.hasTexCoords
      (e.vertices.getD i Vertex.default) p hacc'
    cases hP : linePosition p with
    | none => simp [isAcceptedVertexLine, hP] at hacc
    | some P =>
      refine vertexInv_accept _ _ _ _ _ _ _ _ _ P h0 (by omega) hacc hP ?_ ?_ hinv
      · rw [hg1]
        simp [geometryVertex, hP]
      · intro hnt
        rw [hg2]
        cases hN : lineNormal p with
        | none => simp [isAcceptedVertexLine, hP, hN, hnt] at hacc
        | some Nn => simp [geometryVertex, hN, hn, hnt]
  · exact ⟨rfl, hlen, rfl, Nat.zero_le _, [], rfl, rfl, by simp, le_refl _, le_refl _,
      fun k hk => absurd hk (Nat.not_lt_zero k), Or.inl rfl, Or.inl rfl⟩

/-- The accepted lines that filled slots are the first `numVertices` accepted lines. -/
theorem vertexInv_done (n : Nat) (hn : Bool) (p0 p : List Nat) (e : MeshCPU) (mn mx : ℚ) (i : Nat)
    (h : vertexInv n hn p0 p e mn mx i) (hexit : ¬ (i < e.numVertices ∧ peek p ≠ 0)) :
    i = min n (acceptedVertexLines hn p0).length ∧
    (∀ (k : Nat) (s : List Nat), k < n → (acceptedVertexLines hn p0)[k]? = some s →
      linePosition s = some (e.vertices.getD k Vertex.default).pos ∧
      (hn = true → lineNormal s = some (e.vertices.getD k Vertex.default).norm)) ∧
    extentOf e mn mx i := by
  obtain ⟨h1, h2, h3, h4, done, h5, h6, h7, h8⟩ := h
  have hdone : done = (acceptedVertexLines hn p0).take n := by
    by_cases hi : i < e.numVertices
    · have h0 : peek p = 0 := by
        by_contra hne
        exact hexit ⟨hi, hne⟩
      rw [h5, acceptedVertexLines_nil hn p h0, List.append_nil,
        List.take_of_length_le (by omega)]
    · have hin : done.length = n := by omega
      rw [h5, ← hin, List.take_left']
      rfl
  refine ⟨?_, ?_, h8⟩
  · rw [← h6, hdone, List.length_take]
  · intro k s hk hs
    apply h7 k s
    rw [hdone, List.getElem?_take_of_lt hk]
    exact hs

/-- C13: vertex slots advance only on accepted lines.  With the vertex buffer
allocated (`numVertices` slots, `numVertices` nonzero), `parseVertices` returns
`true`, and for every k below `numVertices` for which a k-th accepted line
exists (counting from 0, in file order, from the cursor on), slot k holds the
position written on that line and, when normals are declared, its normal. -/
theorem accepted_lines_fill_slots (p : List Nat) (d : MeshCPU)
    (hlen : d.vertices.length = d.numVertices) (hnz : d.numVertices ≠ 0) :
    (parseVertices p d).1 = true ∧
    ∀ (k : Nat) (s : List Nat), k < d.numVertices →
      (acceptedVertexLines d.hasNormals p)[k]? = some s →
      linePosition s = some ((parseVertices p d).2.2.vertices.getD k Vertex.default).pos ∧
      (d.hasNormals = true →
        lineNormal s = some ((parseVertices p d).2.2.vertices.getD k Vertex.default).norm) := by
  obtain ⟨q, e, mn, mx, i, heq, hinv, hexit⟩ := parseVertices_inv p d hlen hnz
  rw [heq]
  exact ⟨rfl, (vertexInv_done _ _ _ _ _ _ _ _ hinv hexit).2.1⟩

/-- Witness for C13: a blank line, the abandoned line `1 2 oops`, then `1 2 3`,
a blank line and `4 -5 6`: slot 0 holds (1, 2, 3) and slot 1 holds (4, -5, 6). -/
theorem accepted_lines_fill_slots_witness :
    acceptedVertexLines false vertexBlock
      = [bytes ("1 2 3\n\n4 -5 6\n"), bytes ("4 -5 6\n")] ∧
    linePosition (bytes ("4 -5 6\n"))
      = some ((parseVertices vertexBlock twoSlotMesh).2.2.vertices.getD 1 Vertex.default).pos ∧
    (parseVertices vertexBlock twoSlotMesh).2.2.vertices.map (fun v => v.pos)
      = [⟨1, 2, 3⟩, ⟨4, -5, 6⟩] :=
  ⟨by decide!,
    ((accepted_lines_fill_slots vertexBlock twoSlotMesh (by decide!) (by decide!)).2 1
      (bytes ("4 -5 6\n")) (by decide!) (by decide!)).1,
    by decide!⟩

/-- C19 (as stated) fails: on the one-line vertex block `0 1e39 0` the line is
accepted and fills slot 0; the Y it stores is above `FLT_MAX`, the test of line
239 is false, and on return minY is still `FLT_MAX`, which no populated slot
attains. -/
theorem overflowing_y_leaves_initial_minY :
    oneSlotMesh.vertices.length = oneSlotMesh.numVertices ∧
    (acceptedVertexLines oneSlotMesh.hasNormals overflowYBlock).length = 1 ∧
    (parseVertices overflowYBlock oneSlotMesh).1 = true ∧
    (parseVertices overflowYBlock oneSlotMesh).2.2.minY = FLT_MAX ∧
    FLT_MAX < slotY (parseVertices overflowYBlock oneSlotMesh).2.2 0 ∧
    ¬ (∃ k, k < min oneSlotMesh.numVertices
          (acceptedVertexLines oneSlotMesh.hasNormals overflowYBlock).length ∧
        slotY (parseVertices overflowYBlock oneSlotMesh).2.2 k
          = (parseVertices overflowYBlock oneSlotMesh).2.2.minY) := by
  decide!

/-- C19 (amended): with the vertex buffer allocated, on return minY and maxY
bound the Y component of the position of every populated slot, the slots below
min(numVertices, number of accepted lines).  minY is attained by a populated
slot, and so is the minimum, when some populated slot has Y at most `FLT_MAX`;
maxY is attained, and so is the maximum, when some populated slot has Y at
least `-FLT_MAX`.  When the Y of every populated slot is above `FLT_MAX`, minY
is the initial value `FLT_MAX`; when every one is below `-FLT_MAX`, maxY is
`-FLT_MAX`. -/
theorem extent_bounds_and_attainment (p : List Nat) (d : MeshCPU)
    (hlen : d.vertices.length = d.numVertices) (hnz : d.numVertices ≠ 0) :
    (∀ k, k < min d.numVertices (acceptedVertexLines d.hasNormals p).length →
      (parseVertices p d).2.2.minY ≤ slotY (parseVertices p d).2.2 k ∧
      slotY (parseVertices p d).2.2 k ≤ (parseVertices p d).2.2.maxY) ∧
    ((∃ k, k < min d.numVertices (acceptedVertexLines d.hasNormals p).length ∧
        slotY (parseVertices p d).2.2 k ≤ FLT_MAX) →
      ∃ k, k < min d.numVertices (acceptedVertexLines d.hasNormals p).length ∧
        slotY (parseVertices p d).2.2 k = (parseVertices p d).2.2.minY) ∧
    ((∃ k, k < min d.numVertices (acceptedVertexLines d.hasNormals p).length ∧
        -FLT_MAX ≤ slotY (parseVertices p d).2.2 k) →
      ∃ k, k < min d.numVertices (acceptedVertexLines d.hasNormals p).length ∧
        slotY (parseVertices p d).2.2 k = (parseVertices p d).2.2.maxY) ∧
    ((∀ k, k < min d.numVertices (acceptedVertexLines d.hasNormals p).length →
        FLT_MAX < slotY (parseVertices p d).2.2 k) →
      (parseVertices p d).2.2.minY = FLT_MAX) ∧
    ((∀ k, k < min d.numVertices (acceptedVertexLines d.hasNormals p).length →
        slotY (parseVertices p d).2.2 k < -FLT_MAX) →
      (parseVertices p d).2.2.maxY = -FLT_MAX) := by
  obtain ⟨q, e, mn, mx, i, heq, hinv, hexit⟩ := parseVertices_inv p d hlen hnz
  obtain ⟨hi, -, hmn, hmx, hb, hamin, hbmax⟩ := vertexInv_done _ _ _ _ _ _ _ _ hinv hexit
  rw [heq, ← hi]
  have hs : ∀ k, slotY { e with minY := mn, maxY := mx } k = slotY e k := fun _ => rfl
  simp only [hs]
  refine ⟨hb, ?_, ?_, ?_, ?_⟩
  · rintro ⟨k, hk, hle⟩
    rcases hamin with h | h
    · exact ⟨k, hk, le_antisymm (by rw [h]; exact hle) (hb k hk).1⟩
    · exact h
  · rintro ⟨k, hk, hle⟩
    rcases hbmax with h | h
    · exact ⟨k, hk, le_antisymm (hb k hk).2 (by rw [h]; exact hle)⟩
    · exact h
  · intro hall
    rcases hamin with h | ⟨k, hk, h⟩
    · exact h
    · exact absurd (hall k hk) (not_lt.mpr (by rw [h]; exact hmn))
  · intro hall
    rcases hbmax with h | ⟨k, hk, h⟩
    · exact h
    · exact absurd (hall k hk) (not_lt.mpr (by rw [h]; exact hmx))

/-- Witness for C19 (amended): on the vertex block of C13, whose accepted lines
have Y = 2 and Y = -5, minY = -5 and maxY = 2 and both are attained. -/
theorem extent_bounds_and_attainment_witness :
    (parseVertices vertexBlock twoSlotMesh).2.2.minY = -5 ∧
    (parseVertices vertexBlock twoSlotMesh).2.2.maxY = 2 ∧
    (∃ k, k < min twoSlotMesh.numVertices (acceptedVertexLines twoSlotMesh.hasNormals
        vertexBlock).length ∧
      slotY (parseVertices vertexBlock twoSlotMesh).2.2 k
        = (parseVertices vertexBlock twoSlotMesh).2.2.minY) ∧
    (∃ k, k < min twoSlotMesh.numVertices (acceptedVertexLines twoSlotMesh.hasNormals
        vertexBlock).length ∧
      slotY (parseVertices vertexBlock twoSlotMesh).2.2 k
        = (parseVertices vertexBlock twoSlotMesh).2.2.maxY) :=
  ⟨by decide!, by decide!,
    (extent_bounds_and_attainment vertexBlock twoSlotMesh (by decide!) (by decide!)).2.1
      ⟨0, by decide!, by decide!⟩,
    (extent_bounds_and_attainment vertexBlock twoSlotMesh (by decide!) (by decide!)).2.2.1
      ⟨0, by decide!, by decide!⟩⟩

/-! ### The face loop, line by line -/

theorem parseTriangle_some (q q3 : List Nat) (t : Nat × Nat × Nat)
    (h : threeUInts q = some (t, q3)) :
    parseTriangle ((0, 0, 0), q, true) = (t, q3, true) := by
  obtain ⟨a, b, c⟩ := t
  unfold parseTriangle
  rw [chain3_parseOr_some parseUInt _ _ _ _ q q3 a b c h]

theorem parseTriangle_none (q : List Nat) (h : threeUInts q = none) :
    (parseTriangle ((0, 0, 0), q, true)).2.2 = false :=
  chain3_parseOr_none parseUInt _ _ _ _ q h

theorem parseUInt_none_of_eol (p : List Nat) (h : isEOL (peek p) = true) : parseUInt p = none := by
  have h2 : peek p = 10 ∨ peek p = 13 := by simpa [isEOL] using h
  have hd : digitRun p = [] := by
    cases p with
    | nil => rfl
    | cons c cs =>
      have hc : c = 10 ∨ c = 13 := by simpa [peek] using h2
      rcases hc with hc | hc <;> subst hc <;> simp [digitRun, isDigit]
  simp [parseUInt, hd]

/-- The `while` rule for the face loop with the reading of each line: a skipped
line is one that is not an accepted face line, and a line that advances the
triangle counter is an accepted face line with the indices that are written. -/
theorem parseIndicesLoop_rule_lines (Inv : List Nat → MeshCPU → Nat → Prop)
    (hskip : ∀ p d t, t < d.numTriangles → peek p ≠ 0 → faceLineIndices p = none → Inv p d t →
      Inv (skipToNextLine p) d t)
    (hacc : ∀ p d t i0 i1 i2, t < d.numTriangles → peek p ≠ 0 →
      faceLineIndices p = some (i0, i1, i2) → Inv p d t →
      Inv (skipToNextLine p)
        { d with indices := ((d.indices.set (t * 3 % 2 ^ 32 + 0) i0).set
          (t * 3 % 2 ^ 32 + 1) i1).set (t * 3 % 2 ^ 32 + 2) i2 } (t + 1))
    (fuel : Nat) : ∀ (p : List Nat) (d : MeshCPU) (t : Nat),
    p.length < fuel → Inv p d t →
    ∃ p' d' t', parseIndicesLoop fuel p d t = (true, p', d') ∧ Inv p' d' t' ∧
      ¬ (t' < d'.numTriangles ∧ peek p' ≠ 0) := by
  induction fuel with
  | zero => intro p d t h; omega
  | succ n ih =>
    intro p d t hf hinv
    unfold parseIndicesLoop
    by_cases hc : t < d.numTriangles ∧ peek p ≠ 0
    · have hlt := skipToNextLine_length_lt p hc.2
      have hn : (skipToNextLine p).length < n := by omega
      rw [if_pos hc]
      dsimp only
      by_cases hb : samePos (trimEOL p (skipToNextLine p)) p = true
      · rw [if_pos hb]
        have hb' : isBlankLine p = true := hb
        rw [isBlankLine_eq p hc.2] at hb'
        have hnone : faceLineIndices p = none := by
          simp [faceLineIndices, parseUInt_none_of_eol p hb']
        exact ih _ _ _ hn (hskip p d t hc.1 hc.2 hnone hinv)
      · rw [if_neg hb]
        cases hu : parseUInt p with
        | none =>
          have hnone : faceLineIndices p = none := by simp [faceLineIndices, hu]
          exact ih _ _ _ hn (hskip p d t hc.1 hc.2 hnone hinv)
        | some r =>
          obtain ⟨count, p'⟩ := r
          dsimp only
          by_cases h3 : count = 3
          · subst h3
            rw [if_neg (by simp)]
            cases ht : threeUInts p' with
            | none =>
              have hnone : faceLineIndices p = none := by simp [faceLineIndices, hu, ht]
              rw [if_neg (by rw [parseTriangle_none p' ht]; simp)]
              exact ih _ _ _ hn (hskip p d t hc.1 hc.2 hnone hinv)
            | some x =>
              obtain ⟨⟨i0, i1, i2⟩, q3⟩ := x
              have hsome : faceLineIndices p = some (i0, i1, i2) := by
                simp [faceLineIndices, hu, ht]
              rw [parseTriangle_some p' q3 (i0, i1, i2) ht, if_pos rfl]
              exact ih _ _ _ hn (hacc p d t i0 i1 i2 hc.1 hc.2 hsome hinv)
          · rw [if_pos h3]
            have hnone : faceLineIndices p = none := by simp [faceLineIndices, hu, h3]
            exact ih _ _ _ hn (hskip p d t hc.1 hc.2 hnone hinv)
    · rw [if_neg hc]
      exact ⟨p, d, t, rfl, hinv, hc⟩

theorem flattenTriples_length (l : List (Nat × Nat × Nat)) :
    (flattenTriples l).length = 3 * l.length := by
  induction l with
  | nil => rfl
  | cons t ts ih => simp only [flattenTriples, List.length_cons, ih]; omega

theorem flattenTriples_append (l : List (Nat × Nat × Nat)) (t : Nat × Nat × Nat) :
    flattenTriples (l ++ [t]) = flattenTriples l ++ [t.1, t.2.1, t.2.2] := by
  induction l with
  | nil => rfl
  | cons s ss ih =>
    show s.1 :: s.2.1 :: s.2.2 :: flattenTriples (ss ++ [t])
      = s.1 :: s.2.1 :: s.2.2 :: (flattenTriples ss ++ [t.1, t.2.1, t.2.2])
    rw [ih]

theorem set_three (A R : List Nat) (x y z a b c : Nat) :
    (((A ++ x :: y :: z :: R).set (A.length + 0) a).set (A.length + 1) b).set (A.length + 2) c
      = A ++ a :: b :: c :: R := by
  induction A with
  | nil => rfl
  | cons h t ih =>
    simp only [Nat.add_zero] at ih
    have e1 : t.length + 1 + 1 = (t.length + 1) + 1 := by omega
    have e2 : t.length + 1 + 2 = (t.length + 2) + 1 := by omega
    simp only [List.cons_append, List.length_cons, Nat.add_zero]
    rw [e2, List.set_cons_succ, List.set_cons_succ, List.set_cons_succ, ih]

theorem acceptedFaces_skip (p : List Nat) (h0 : peek p ≠ 0) (h : faceLineIndices p = none) :
    acceptedFaces p = acceptedFaces (skipToNextLine p) := by
  unfold acceptedFaces
  rw [lineStarts_cons p h0, List.filterMap_cons_none h]

theorem acceptedFaces_accept (p : List Nat) (h0 : peek p ≠ 0) (t : Nat × Nat × Nat)
    (h : faceLineIndices p = some t) :
    acceptedFaces p = t :: acceptedFaces (skipToNextLine p) := by
  unfold acceptedFaces
  rw [lineStarts_cons p h0, List.filterMap_cons_some h]

theorem acceptedFaces_nil (p : List Nat) (h0 : peek p = 0) : acceptedFaces p = [] := by
  unfold acceptedFaces
  rw [lineStarts_nil p h0]
  rfl

theorem faceInv_accept (n : Nat) (p0 p : List Nat) (e : MeshCPU) (t i0 i1 i2 : Nat)
    (h32 : 3 * n < 2 ^ 32) (h0 : peek p ≠ 0) (ht : t < n)
    (hf : faceLineIndices p = some (i0, i1, i2)) (h : faceInv n p0 p e t) :
    faceInv n p0 (skipToNextLine p)
      { e with indices := ((e.indices.set (t * 3 % 2 ^ 32 + 0) i0).set
        (t * 3 % 2 ^ 32 + 1) i1).set (t * 3 % 2 ^ 32 + 2) i2 } (t + 1) := by
  obtain ⟨h1, h2, done, h3, h4, h5⟩ := h
  have hbase : t * 3 % 2 ^ 32 = (flattenTriples done).length := by
    rw [flattenTriples_length, h4, Nat.mod_eq_of_lt (by omega)]
    omega
  have hrep : List.replicate (3 * (n - t)) 0
      = 0 :: 0 :: 0 :: List.replicate (3 * (n - (t + 1))) 0 := by
    have : 3 * (n - t) = 3 * (n - (t + 1)) + 1 + 1 + 1 := by omega
    rw [this]
    rfl
  refine ⟨h1, ht, done ++ [(i0, i1, i2)], ?_, by simp [h4], ?_⟩
  · rw [h3, acceptedFaces_accept p h0 _ hf]
    simp
  · show ((e.indices.set (t * 3 % 2 ^ 32 + 0) i0).set (t * 3 % 2 ^ 32 + 1) i1).set
      (t * 3 % 2 ^ 32 + 2) i2 = _
    rw [h5, hrep, hbase, set_three, flattenTriples_append]
    simp

/-- The index buffer the face decoder leaves is the reference. -/
theorem parseIndices_reference (p : List Nat) (d : MeshCPU) (h32 : 3 * d.numTriangles < 2 ^ 32)
    (hind : d.indices = List.replicate (3 * d.numTriangles) 0)
    (hni : d.numIndices = 3 * d.numTriangles) :
    (d.numTriangles ≠ 0 → (parseIndices p d).1 = true) ∧
    (parseIndices p d).2.2.indices = referenceIndices p d.numTriangles := by
  by_cases hz : d.numTriangles = 0
  · refine ⟨fun h => absurd hz h, ?_⟩
    have hnil : d.indices = [] := by rw [hind, hz]; rfl
    unfold parseIndices
    rw [if_pos (Or.inl hnil)]
    simp [referenceIndices, hz, hnil, flattenTriples]
  · have hne : d.indices ≠ [] := by
      intro hnil
      have := congrArg List.length hnil
      rw [hind] at this
      simp at this
      exact hz this
    have hiz : d.numIndices ≠ 0 := by omega
    obtain ⟨q, e, t, heq, hinv, hexit⟩ := parseIndicesLoop_rule_lines
      (faceInv d.numTriangles p)
      (by
        intro q e t _ h0 hnone hinv
        obtain ⟨h1, h2, done, h3, h4, h5⟩ := hinv
        exact ⟨h1, h2, done, by rw [h3, acceptedFaces_skip q h0 hnone], h4, h5⟩)
      (by
        intro q e t i0 i1 i2 ht h0 hsome hinv
        exact faceInv_accept _ _ _ _ _ _ _ _ h32 h0 (by rw [← hinv.1]; exact ht) hsome hinv)
      (p.length + 1) p d 0 (Nat.lt_succ_self _)
      ⟨rfl, Nat.zero_le _, [], rfl, rfl, by simpa [flattenTriples] using hind⟩
    have hrun : parseIndices p d = (true, q, e) := by
      unfold parseIndices
      rw [if_neg (by simp [hne, hiz])]
      exact heq
    rw [hrun]
    refine ⟨fun _ => rfl, ?_⟩
    obtain ⟨h1, h2, done, h3, h4, h5⟩ := hinv
    have hdone : done = (acceptedFaces p).take d.numTriangles := by
      by_cases hi : t < e.numTriangles
      · have h0 : peek q = 0 := by
          by_contra hne'
          exact hexit ⟨hi, hne'⟩
        rw [h3, acceptedFaces_nil q h0, List.append_nil, List.take_of_length_le (by omega)]
      · have hin : done.length = d.numTriangles := by omega
        rw [h3, ← hin, List.take_left']
        rfl
    have hd2 : (List.filterMap faceLineIndices (lineStarts p)).take d.numTriangles = done :=
      hdone.symm
    show e.indices = referenceIndices p d.numTriangles
    unfold referenceIndices
    rw [h5, ← h4, hd2]

/-- C12: face decoding equals the reference.  With `3 * numTriangles < 2 ^ 32`
and the index buffer allocated as `3 * numTriangles` zeros, after
`parseIndices` the index buffer is the concatenation, in file order, of the
three indices of the first `numTriangles` accepted lines (a line that starts
with the unsigned integer 3 followed by three unsigned integers), stored as
parsed, followed by zeros; every other line consumes no triangle slot.  The
decoder returns `true` when `numTriangles` is nonzero. -/
theorem face_decoding_reference (p : List Nat) (d : MeshCPU)
    (h32 : 3 * d.numTriangles < 2 ^ 32)
    (hind : d.indices = List.replicate (3 * d.numTriangles) 0)
    (hni : d.numIndices = 3 * d.numTriangles) :
    (d.numTriangles ≠ 0 → (parseIndices p d).1 = true) ∧
    (parseIndices p d).2.2.indices = referenceIndices p d.numTriangles :=
  parseIndices_reference p d h32 hind hni

/-- Witness for C12: a quad, an unparsable line, a short line and a blank line
consume no slot; the triangle `3 7 8 9` fills the first slot with its indices
unaltered and the second slot stays zero. -/
theorem face_decoding_reference_witness :
    (parseIndices faceBlock twoTriangleMesh).1 = true ∧
    (lineStarts faceBlock).filterMap faceLineIndices = [(7, 8, 9)] ∧
    referenceIndices faceBlock 2 = [7, 8, 9, 0, 0, 0] ∧
    (parseIndices faceBlock twoTriangleMesh).2.2.indices = [7, 8, 9, 0, 0, 0] :=
  ⟨by decide!, by decide!, by decide!,
    (face_decoding_reference faceBlock twoTriangleMesh (by decide!) (by decide!)
      (by decide!)).2.trans (by decide!)⟩

/-! ### What the header stage takes from the mesh -/

theorem parsePlyElementLine_counts (s : List Nat) (a b : Nat) (h : isElementLine s = true) :
    (parsePlyElementLine s a b).2.1 = (elementVertexCount s).getD a ∧
    (parsePlyElementLine s a b).2.2 = (elementFaceCount s).getD b := by
  unfold parsePlyElementLine elementVertexCount elementFaceCount
  rw [if_pos h, if_pos h]
  dsimp only
  by_cases h1 : (startsWith ("vertex") (skipWhitespace (List.drop 7 s)) &&
      ((skipWhitespace (List.drop 7 s)).getD 6 0 == 32 ||
        (skipWhitespace (List.drop 7 s)).getD 6 0 == 9)) = true
  · rw [if_pos h1, if_pos h1, if_pos h1]
    cases parseUInt (skipWhitespace (List.drop 6 (skipWhitespace (List.drop 7 s)))) with
    | none => exact ⟨rfl, rfl⟩
    | some r => exact ⟨rfl, rfl⟩
  · rw [if_neg h1, if_neg h1, if_neg h1]
    by_cases h2 : (startsWith ("face") (skipWhitespace (List.drop 7 s)) &&
        ((skipWhitespace (List.drop 7 s)).getD 4 0 == 32 ||
          (skipWhitespace (List.drop 7 s)).getD 4 0 == 9)) = true
    · rw [if_pos h2, if_pos h2]
      cases parseUInt (skipWhitespace (List.drop 4 (skipWhitespace (List.drop 7 s)))) with
      | none => exact ⟨rfl, rfl⟩
      | some r => exact ⟨rfl, rfl⟩
    · rw [if_neg h2, if_neg h2]
      exact ⟨rfl, rfl⟩

theorem elementCount_none (s : List Nat) (h : isElementLine s = false) :
    elementVertexCount s = none ∧ elementFaceCount s = none := by
  simp [elementVertexCount, elementFaceCount, h]

theorem getLast?_cons_getD (n a : Nat) (X : List Nat) :
    ((n :: X).getLast?).getD a = (X.getLast?).getD n := by
  cases X with
  | nil => rfl
  | cons y Y =>
    rw [List.getLast?_cons_cons]
    have h : (y :: Y).getLast? = some ((y :: Y).getLast (by simp)) :=
      List.getLast?_eq_getLast _ (by simp)
    rw [h]
    rfl

theorem getLast?_filterMap_cons_getD (g : List Nat → Option Nat) (s : List Nat)
    (rest : List (List Nat)) (a : Nat) :
    (((s :: rest).filterMap g).getLast?).getD a
      = ((rest.filterMap g).getLast?).getD ((g s).getD a) := by
  cases h : g s with
  | none => rw [List.filterMap_cons_none h]; rfl
  | some n => rw [List.filterMap_cons_some h, getLast?_cons_getD]; rfl

/-- On success the counts the header leaves are the declared ones, and the
prior ones where the header declares none; the cursor is the start of the body. -/
theorem headerOnLines_counts (L : List (List Nat)) : ∀ (h : HeaderInfo) (f : PropertyFlags),
    (headerOnLines L h f).1 = true →
    (headerOnLines L h f).2.1 = bodyStart L ∧
    (headerOnLines L h f).2.2.numVertices =
      (((L.takeWhile (fun s => !isEndHeaderLine s)).filterMap elementVertexCount).getLast?).getD
        h.numVertices ∧
    (headerOnLines L h f).2.2.numTriangles =
      (((L.takeWhile (fun s => !isEndHeaderLine s)).filterMap elementFaceCount).getLast?).getD
        h.numTriangles := by
  induction L with
  | nil => intro h f hs; simp [headerOnLines] at hs
  | cons s rest ih =>
    intro h f
    unfold headerOnLines
    cases hend : isEndHeaderLine s with
    | true =>
      have h1 := isEndHeaderLine_not_blank s hend
      have h2 := isEndHeaderLine_not_element s hend
      have h3 := isEndHeaderLine_not_property s hend
      simp [h1, h2, h3, hend, List.takeWhile, bodyStart, List.find?]
    | false =>
      have htw : List.takeWhile (fun s => !isEndHeaderLine s) (s :: rest)
          = s :: List.takeWhile (fun s => !isEndHeaderLine s) rest := by
        simp [List.takeWhile, hend]
      have hbs : bodyStart (s :: rest) = bodyStart rest := by
        simp [bodyStart, List.find?, hend]
      rw [htw, hbs, getLast?_filterMap_cons_getD, getLast?_filterMap_cons_getD]
      cases hb : isBlankLine s with
      | true =>
        have he : isElementLine s = false := by
          cases hq : isElementLine s with
          | false => rfl
          | true => rw [isElementLine_not_blank s hq] at hb; cases hb
        rw [(elementCount_none s he).1, (elementCount_none s he).2]
        simpa using ih h f
      | false =>
        cases he : isElementLine s with
        | true =>
          obtain ⟨c1, c2⟩ := parsePlyElementLine_counts s h.numVertices h.numTriangles he
          rw [← c1, ← c2]
          cases hok : (parsePlyElementLine s h.numVertices h.numTriangles).1 with
          | true => simpa using ih _ f
          | false => simp
        | false =>
          rw [(elementCount_none s he).1, (elementCount_none s he).2]
          cases hp : isPropertyLine s with
          | true =>
            cases hq : parsePlyPropertyLine s f with
            | none => simp
            | some f' => simpa using ih h f'
          | false => simpa using ih h f

/-- On failure the header leaves the three presence flags as they were. -/
theorem headerOnLines_flags_of_failure (L : List (List Nat)) : ∀ (h : HeaderInfo)
    (f : PropertyFlags), (headerOnLines L h f).1 = false →
    (headerOnLines L h f).2.2.hasNormals = h.hasNormals ∧
    (headerOnLines L h f).2.2.hasColours = h.hasColours ∧
    (headerOnLines L h f).2.2.hasTexCoords = h.hasTexCoords := by
  induction L with
  | nil => intro h f _; exact ⟨rfl, rfl, rfl⟩
  | cons s rest ih =>
    intro h f
    unfold headerOnLines
    cases hb : isBlankLine s with
    | true => simpa using ih h f
    | false =>
      cases he : isElementLine s with
      | true =>
        cases hok : (parsePlyElementLine s h.numVertices h.numTriangles).1 with
        | true => simpa using ih _ f
        | false => simp
      | false =>
        cases hp : isPropertyLine s with
        | true =>
          cases hq : parsePlyPropertyLine s f with
          | none => simp
          | some f' => simpa using ih h f'
        | false =>
          cases hend : isEndHeaderLine s with
          | true => simp
          | false => simpa using ih h f

theorem headerOnLines_fst_indep (L : List (List Nat)) (h h' : HeaderInfo) (f f' : PropertyFlags) :
    (headerOnLines L h f).1 = (headerOnLines L h' f').1 := by
  rw [Bool.eq_iff_iff, headerOnLines_success_iff L h f, headerOnLines_success_iff L h' f']

/-- Whether the header stage succeeds does not depend on the mesh. -/
theorem headerStage_fst_indep (file : List Nat) (m m' : MeshCPU) :
    (headerStage file m).1 = (headerStage file m').1 := by
  unfold headerStage
  rw [(parsePlyHeader_eq_onLines file _).1, (parsePlyHeader_eq_onLines file _).1]
  exact headerOnLines_fst_indep _ _ _ _ _

/-- What a successful header stage leaves: the start of the body, the declared
counts (the prior ones where none is declared) and the declared flags. -/
theorem headerStage_of_success (file : List Nat) (m : MeshCPU)
    (h : (headerStage file m).1 = true) :
    (headerStage file m).2.1 = bodyStart (headerLines file) ∧
    (headerStage file m).2.2.numVertices = (declaredVertexCount file).getD m.numVertices ∧
    (headerStage file m).2.2.numTriangles = (declaredFaceCount file).getD m.numTriangles ∧
    (headerStage file m).2.2.hasNormals = (declaredFlags file).1 ∧
    (headerStage file m).2.2.hasColours = (declaredFlags file).2.1 ∧
    (headerStage file m).2.2.hasTexCoords = (declaredFlags file).2.2 := by
  unfold headerStage at h ⊢
  obtain ⟨e1, e2, e3⟩ := parsePlyHeader_eq_onLines file
    ⟨m.numVertices, m.numTriangles, m.hasNormals, m.hasColours, m.hasTexCoords⟩
  rw [e3 h, e2]
  rw [e1] at h
  obtain ⟨c1, c2, c3⟩ := headerOnLines_counts _ _ _ h
  obtain ⟨k1, k2, k3⟩ := headerOnLines_flags _ _ _ h
  exact ⟨c1, c2, c3, k1, k2, k3⟩

/-- A failed header stage leaves the three presence flags of the mesh as they were. -/
theorem headerStage_of_failure (file : List Nat) (m : MeshCPU)
    (h : (headerStage file m).1 = false) :
    (headerStage file m).2.2.hasNormals = m.hasNormals ∧
    (headerStage file m).2.2.hasColours = m.hasColours ∧
    (headerStage file m).2.2.hasTexCoords = m.hasTexCoords := by
  unfold headerStage at h ⊢
  obtain ⟨e1, e2, -⟩ := parsePlyHeader_eq_onLines file
    ⟨m.numVertices, m.numTriangles, m.hasNormals, m.hasColours, m.hasTexCoords⟩
  rw [e2]
  rw [e1] at h
  exact headerOnLines_flags_of_failure _ _ _ h

/-! ### The vertex loop reads only the vertex buffer, the counts and the flags -/

theorem parseVerticesLoop_agree (fuel : Nat) : ∀ (p : List Nat) (d d' : MeshCPU) (mn mx : ℚ)
    (i : Nat), agreeV d d' →
    (parseVerticesLoop fuel p d mn mx i).1 = (parseVerticesLoop fuel p d' mn mx i).1 ∧
    (parseVerticesLoop fuel p d mn mx i).2.1 = (parseVerticesLoop fuel p d' mn mx i).2.1 ∧
    agreeV (parseVerticesLoop fuel p d mn mx i).2.2 (parseVerticesLoop fuel p d' mn mx i).2.2 ∧
    ((parseVerticesLoop fuel p d mn mx i).1 = true →
      (parseVerticesLoop fuel p d mn mx i).2.2.minY = (parseVerticesLoop fuel p d' mn mx i).2.2.minY ∧
      (parseVerticesLoop fuel p d mn mx i).2.2.maxY
        = (parseVerticesLoop fuel p d' mn mx i).2.2.maxY) := by
  induction fuel with
  | zero =>
    intro p d d' mn mx i hag
    exact ⟨rfl, rfl, hag, fun h => by simp [parseVerticesLoop] at h⟩
  | succ n ih =>
    intro p d d' mn mx i hag
    obtain ⟨a1, a2, a3, a4, a5, a6⟩ := hag
    unfold parseVerticesLoop
    rw [a1, a2, a4, a5, a6]
    by_cases hc : i < d.numVertices ∧ peek p ≠ 0
    · simp only [if_pos hc]
      by_cases hb : samePos (trimEOL p (skipToNextLine p)) p = true
      · simp only [if_pos hb]
        exact ih _ _ _ _ _ _ ⟨a1, a2, a3, a4, a5, a6⟩
      · simp only [if_neg hb, if_neg hc.2]
        by_cases hr : (parseVertexLine d.hasNormals d.hasColours d.hasTexCoords
            (d.vertices.getD i Vertex.default) p).2 = true
        · simp only [if_pos hr]
          exact ih _ _ _ _ _ _
            (by refine ⟨?_, ?_, ?_, ?_, ?_, ?_⟩ <;> first | rfl | assumption)
        · simp only [if_neg hr]
          exact ih _ _ _ _ _ _
            (by refine ⟨?_, ?_, ?_, ?_, ?_, ?_⟩ <;> first | rfl | assumption)
    · rw [if_neg hc, if_neg hc]
      exact ⟨rfl, rfl, by refine ⟨?_, ?_, ?_, ?_, ?_, ?_⟩ <;> first | rfl | assumption,
        fun _ => ⟨rfl, rfl⟩⟩

theorem parseVertices_agree (p : List Nat) (d d' : MeshCPU) (hag : agreeV d d')
    (hnz : d.numVertices ≠ 0) :
    (parseVertices p d).2.1 = (parseVertices p d').2.1 ∧
    agreeV (parseVertices p d).2.2 (parseVertices p d').2.2 ∧
    (parseVertices p d).2.2.minY = (parseVertices p d').2.2.minY ∧
    (parseVertices p d).2.2.maxY = (parseVertices p d').2.2.maxY := by
  have hnz' : d'.numVertices ≠ 0 := by rw [hag.2.1]; exact hnz
  have hok := parseVerticesLoop_ok (p.length + 1) p d FLT_MAX (-FLT_MAX) 0 (Nat.lt_succ_self _)
  obtain ⟨-, h2, h3, h4⟩ := parseVerticesLoop_agree (p.length + 1) p d d' FLT_MAX (-FLT_MAX) 0 hag
  unfold parseVertices
  rw [if_neg hnz, if_neg hnz']
  exact ⟨h2, h3, (h4 hok).1, (h4 hok).2⟩

/-! ### The orchestrator as a function of what the header stage leaves -/

theorem meshForIndices_ext (e e' : MeshCPU) (hag : agreeV e e') (h1 : e.minY = e'.minY)
    (h2 : e.maxY = e'.maxY) :
    ({ e with numIndices := e.numTriangles * 3 % 2 ^ 32,
              indices := List.replicate (e.numTriangles * 3 % 2 ^ 32) 0 } : MeshCPU)
      = { e' with numIndices := e'.numTriangles * 3 % 2 ^ 32,
                  indices := List.replicate (e'.numTriangles * 3 % 2 ^ 32) 0 } := by
  obtain ⟨a1, a2, a3, a4, a5, a6⟩ := hag
  cases e
  cases e'
  simp only at a1 a2 a3 a4 a5 a6 h1 h2
  subst a1 a2 a3 a4 a5 a6 h1 h2
  rfl

/-- Two prior meshes for which the header stage leaves the same cursor, counts
and flags give the same result, and on success the same mesh. -/
theorem parsePlyMesh_congr (file : List Nat) (m m' : MeshCPU) (hne : file ≠ [])
    (hh : (headerStage file m).1 = true →
      (headerStage file m).2.1 = (headerStage file m').2.1 ∧
      (headerStage file m).2.2 = (headerStage file m').2.2) :
    (parsePlyMesh file m).1 = (parsePlyMesh file m').1 ∧
    ((parsePlyMesh file m).1 = true → (parsePlyMesh file m).2 = (parsePlyMesh file m').2) := by
  have hfst := headerStage_fst_indep file m m'
  rw [parsePlyMesh_unfold file m hne, parsePlyMesh_unfold file m' hne]
  by_cases hH : (headerStage file m).1 = false
  · have hH' : (headerStage file m').1 = false := by rw [← hfst]; exact hH
    rw [if_pos hH, if_pos hH']
    exact ⟨rfl, fun h => by simp [failMesh] at h⟩
  · have hT : (headerStage file m).1 = true := by simpa using hH
    have hH' : ¬ (headerStage file m').1 = false := by rw [← hfst]; exact hH
    obtain ⟨hc, hi⟩ := hh hT
    rw [if_neg hH, if_neg hH']
    by_cases hz : (headerStage file m).2.2.numVertices = 0 ∨ (headerStage file m).2.2.numTriangles = 0
    · have hz' : (headerStage file m').2.2.numVertices = 0 ∨
          (headerStage file m').2.2.numTriangles = 0 := by rw [← hi]; exact hz
      rw [if_pos hz, if_pos hz']
      exact ⟨rfl, fun h => by simp [failMesh] at h⟩
    · have hz' : ¬ ((headerStage file m').2.2.numVertices = 0 ∨
          (headerStage file m').2.2.numTriangles = 0) := by rw [← hi]; exact hz
      rw [if_neg hz, if_neg hz']
      have hv : (headerStage file m).2.2.numVertices ≠ 0 := fun h => hz (Or.inl h)
      have hag : agreeV (meshForVertices file m) (meshForVertices file m') := by
        unfold meshForVertices withHeader
        rw [← hi]
        exact ⟨rfl, rfl, rfl, rfl, rfl, rfl⟩
      obtain ⟨v1, v2, v3, v4⟩ := parseVertices_agree (headerStage file m).2.1
        (meshForVertices file m) (meshForVertices file m') hag hv
      have hvs1 : (vertexStage file m').2.1 = (vertexStage file m).2.1 := by
        unfold vertexStage
        rw [← hc]
        exact v1.symm
      have hmi : meshForIndices file m' = meshForIndices file m := by
        unfold meshForIndices vertexStage
        rw [← hc]
        exact (meshForIndices_ext _ _ v2 v3 v4).symm
      have his : indexStage file m' = indexStage file m := by
        unfold indexStage
        rw [hvs1, hmi]
      have hok : (vertexStage file m).1 = true := vertexStage_ok file m hv
      have hok' : (vertexStage file m').1 = true :=
        vertexStage_ok file m' (by rw [← hi]; exact hv)
      have hnf : ¬ (vertexStage file m).1 = false := by simp [hok]
      have hnf' : ¬ (vertexStage file m').1 = false := by simp [hok']
      rw [if_neg hnf, if_neg hnf', his]
      by_cases hx : (indexStage file m).1 = false
      · rw [if_pos hx]
        exact ⟨rfl, fun h => by simp [failMesh] at h⟩
      · rw [if_neg hx]
        exact ⟨rfl, fun _ => rfl⟩

theorem parsePlyMesh_cleared (file : List Nat) (m : MeshCPU) (hne : file ≠ [])
    (hf : (parsePlyMesh file m).1 = false) :
    (parsePlyMesh file m).2.vertices = [] ∧ (parsePlyMesh file m).2.indices = [] ∧
    (parsePlyMesh file m).2.numVertices = 0 ∧ (parsePlyMesh file m).2.numIndices = 0 ∧
    (parsePlyMesh file m).2.numTriangles = 0 := by
  rw [parsePlyMesh_unfold file m hne] at hf ⊢
  split_ifs at hf ⊢ <;> simp [failMesh]

/-- A failed parse of a non-empty buffer is the rollback of the mesh as the
header stage left it. -/
theorem parsePlyMesh_of_failure (file : List Nat) (m : MeshCPU) (hne : file ≠ [])
    (hm : m.numTriangles < 2 ^ 32) (hf : (parsePlyMesh file m).1 = false) :
    parsePlyMesh file m = failMesh (withHeader m (headerStage file m).2.2) := by
  have hiff := parsePlyMesh_true_iff file m hne hm
  rw [parsePlyMesh_unfold file m hne]
  by_cases hH : (headerStage file m).1 = false
  · rw [if_pos hH]
  · rw [if_neg hH]
    by_cases hz : (headerStage file m).2.2.numVertices = 0 ∨ (headerStage file m).2.2.numTriangles = 0
    · rw [if_pos hz]
    · exfalso
      have : (parsePlyMesh file m).1 = true :=
        hiff.mpr ⟨by simpa using hH, fun h => hz (Or.inl h), fun h => hz (Or.inr h)⟩
      rw [hf] at this
      cases this

/-- The counts and flags of the mesh after a successful parse are those the
header stage left. -/
theorem parsePlyMesh_header_fields (file : List Nat) (m : MeshCPU)
    (hs : (parsePlyMesh file m).1 = true) :
    (parsePlyMesh file m).2.numVertices = (headerStage file m).2.2.numVertices ∧
    (parsePlyMesh file m).2.numTriangles = (headerStage file m).2.2.numTriangles := by
  obtain ⟨-, -, -, -, hmesh⟩ := parsePlyMesh_mesh_of_true file m hs
  obtain ⟨-, i2, -, i4, -⟩ := parseIndices_frame (vertexStage file m).2.1 (meshForIndices file m)
  obtain ⟨-, v2, -, v4, -⟩ := vertexStage_frame file m
  rw [hmesh]
  unfold indexStage
  rw [i2, i4]
  show (vertexStage file m).2.2.numVertices = _ ∧ (vertexStage file m).2.2.numTriangles = _
  rw [v2, v4]
  exact ⟨rfl, rfl⟩

theorem headerInfo_ext (a b : HeaderInfo) (h1 : a.numVertices = b.numVertices)
    (h2 : a.numTriangles = b.numTriangles) (h3 : a.hasNormals = b.hasNormals)
    (h4 : a.hasColours = b.hasColours) (h5 : a.hasTexCoords = b.hasTexCoords) : a = b := by
  cases a
  cases b
  simp only at h1 h2 h3 h4 h5
  subst h1 h2 h3 h4 h5
  rfl

theorem getD_getD (o : Option Nat) (a : Nat) : o.getD (o.getD a) = o.getD a := by
  cases o <;> rfl

theorem getD_zero_of_getD_eq_zero (o : Option Nat) (a : Nat) (h : o.getD a = 0) :
    o.getD 0 = 0 := by
  cases o with
  | none => rfl
  | some n => exact h

theorem failMesh_withHeader_eq (m : MeshCPU) (h h1 : HeaderInfo)
    (f1 : h1.hasNormals = h.hasNormals) (f2 : h1.hasColours = h.hasColours)
    (f3 : h1.hasTexCoords = h.hasTexCoords) :
    failMesh (withHeader (failMesh (withHeader m h)).2 h1) = failMesh (withHeader m h) := by
  simp only [failMesh, withHeader, f1, f2, f3]

/-! ### Claims about repeated and independent parses -/

/-- C14: idempotence.  For every input buffer and every starting mesh (whose
face count is a 32-bit value), parsing the buffer into the mesh left by a first
parse of the same buffer gives the same result and the same mesh as the first
parse. -/
theorem parse_idempotent (file : List Nat) (m : MeshCPU) (hm : m.numTriangles < 2 ^ 32) :
    parsePlyMesh file (parsePlyMesh file m).2 = parsePlyMesh file m := by
  by_cases hne : file = []
  · simp [parsePlyMesh, hne]
  · cases hs : (parsePlyMesh file m).1 with
    | true =>
      obtain ⟨-, hH, -, -, -⟩ := parsePlyMesh_mesh_of_true file m hs
      have hH1 : (headerStage file (parsePlyMesh file m).2).1 = true := by
        rw [headerStage_fst_indep file _ m]; exact hH
      obtain ⟨s1, s2, s3, s4, s5, s6⟩ := headerStage_of_success file m hH
      obtain ⟨t1, t2, t3, t4, t5, t6⟩ := headerStage_of_success file _ hH1
      obtain ⟨n1, n2⟩ := parsePlyMesh_header_fields file m hs
      obtain ⟨c1, c2⟩ := parsePlyMesh_congr file m (parsePlyMesh file m).2 hne
        (fun _ => ⟨s1.trans t1.symm,
          headerInfo_ext _ _
            (by rw [t2, n1, s2, getD_getD])
            (by rw [t3, n2, s3, getD_getD])
            (s4.trans t4.symm) (s5.trans t5.symm) (s6.trans t6.symm)⟩)
      exact Prod.ext c1.symm (c2 hs).symm
    | false =>
      have hpf := parsePlyMesh_of_failure file m hne hm hs
      have hm1 : (parsePlyMesh file m).2.numTriangles < 2 ^ 32 := by
        rw [hpf]
        simp [failMesh]
      have hnv1 : (parsePlyMesh file m).2.numVertices = 0 := by rw [hpf]; rfl
      have hnt1 : (parsePlyMesh file m).2.numTriangles = 0 := by rw [hpf]; rfl
      have hfst := headerStage_fst_indep file (parsePlyMesh file m).2 m
      have hs1 : (parsePlyMesh file (parsePlyMesh file m).2).1 = false := by
        cases hx : (parsePlyMesh file (parsePlyMesh file m).2).1 with
        | false => rfl
        | true =>
          exfalso
          obtain ⟨hH1, hv1, ht1⟩ := (parsePlyMesh_true_iff file _ hne hm1).mp hx
          have hH : (headerStage file m).1 = true := by rw [← hfst]; exact hH1
          obtain ⟨-, s2, s3, -⟩ := headerStage_of_success file m hH
          obtain ⟨-, t2, t3, -⟩ := headerStage_of_success file _ hH1
          rw [t2, hnv1] at hv1
          rw [t3, hnt1] at ht1
          have hno : ¬ ((headerStage file m).1 = true ∧ (headerStage file m).2.2.numVertices ≠ 0 ∧
              (headerStage file m).2.2.numTriangles ≠ 0) := by
            rw [← parsePlyMesh_true_iff file m hne hm, hs]
            simp
          apply hno
          refine ⟨hH, ?_, ?_⟩
          · intro h0
            rw [s2] at h0
            exact hv1 (getD_zero_of_getD_eq_zero _ _ h0)
          · intro h0
            rw [s3] at h0
            exact ht1 (getD_zero_of_getD_eq_zero _ _ h0)
      rw [parsePlyMesh_of_failure file _ hne hm1 hs1]
      have hflags : (headerStage file (parsePlyMesh file m).2).2.2.hasNormals
            = (headerStage file m).2.2.hasNormals ∧
          (headerStage file (parsePlyMesh file m).2).2.2.hasColours
            = (headerStage file m).2.2.hasColours ∧
          (headerStage file (parsePlyMesh file m).2).2.2.hasTexCoords
            = (headerStage file m).2.2.hasTexCoords := by
        cases hH : (headerStage file m).1 with
        | true =>
          have hH1 : (headerStage file (parsePlyMesh file m).2).1 = true := by
            rw [hfst]; exact hH
          obtain ⟨-, -, -, s4, s5, s6⟩ := headerStage_of_success file m hH
          obtain ⟨-, -, -, t4, t5, t6⟩ := headerStage_of_success file _ hH1
          exact ⟨t4.trans s4.symm, t5.trans s5.symm, t6.trans s6.symm⟩
        | false =>
          have hH1 : (headerStage file (parsePlyMesh file m).2).1 = false := by
            rw [hfst]; exact hH
          obtain ⟨t4, t5, t6⟩ := headerStage_of_failure file _ hH1
          rw [t4, t5, t6, hpf]
          exact ⟨rfl, rfl, rfl⟩
      obtain ⟨f1, f2, f3⟩ := hflags
      have key := failMesh_withHeader_eq m (headerStage file m).2.2
        (headerStage file (parsePlyMesh file m).2).2.2 f1 f2 f3
      rw [← hpf] at key
      exact key

/-- Witness for C14: the end-to-end input parsed into a mesh that already holds a triangle. -/
theorem parse_idempotent_witness :
    usedMesh.numTriangles < 2 ^ 32 ∧
    parsePlyMesh scenarioInput (parsePlyMesh scenarioInput usedMesh).2
      = parsePlyMesh scenarioInput usedMesh :=
  ⟨by decide!, parse_idempotent scenarioInput usedMesh (by decide!)⟩

/-- C15 (as the code behaves): this file declares a face count but no vertex
count; parsed into the empty mesh it fails at line 24, parsed into a mesh that
holds numVertices = 3 from an earlier parse it succeeds with three vertices:
the header stage writes a count only on its element line, and the test of line
24 reads the count the mesh held before the call. -/
theorem prior_vertex_count_decides_outcome :
    (parsePlyMesh noVertexCountInput emptyMesh).1 = false ∧
    (parsePlyMesh noVertexCountInput usedMesh).1 = true ∧
    (parsePlyMesh noVertexCountInput usedMesh).2.numVertices = 3 ∧
    ¬ ((parsePlyMesh noVertexCountInput emptyMesh).1
        = (parsePlyMesh noVertexCountInput usedMesh).1 ∧
      (parsePlyMesh noVertexCountInput emptyMesh).2
        = (parsePlyMesh noVertexCountInput usedMesh).2) := by
  decide!

/-- When the header declares both a vertex count and a face count before
`end_header`, the prior state of the mesh does not reach the result: for every
two prior states `parsePlyMesh` returns the same result; on success it leaves
the same mesh; on failure both meshes have empty buffers and zero counts. -/
theorem parse_independent_of_prior_mesh (file : List Nat) (m m' : MeshCPU) (hne : file ≠ [])
    (hv : (declaredVertexCount file).isSome = true)
    (ht : (declaredFaceCount file).isSome = true) :
    (parsePlyMesh file m).1 = (parsePlyMesh file m').1 ∧
    ((parsePlyMesh file m).1 = true → (parsePlyMesh file m).2 = (parsePlyMesh file m').2) ∧
    ((parsePlyMesh file m).1 = false →
      ((parsePlyMesh file m).2.vertices = [] ∧ (parsePlyMesh file m).2.indices = [] ∧
        (parsePlyMesh file m).2.numVertices = 0 ∧ (parsePlyMesh file m).2.numIndices = 0 ∧
        (parsePlyMesh file m).2.numTriangles = 0) ∧
      ((parsePlyMesh file m').2.vertices = [] ∧ (parsePlyMesh file m').2.indices = [] ∧
        (parsePlyMesh file m').2.numVertices = 0 ∧ (parsePlyMesh file m').2.numIndices = 0 ∧
        (parsePlyMesh file m').2.numTriangles = 0)) := by
  obtain ⟨nv, hnv⟩ := Option.isSome_iff_exists.mp hv
  obtain ⟨nt, hnt⟩ := Option.isSome_iff_exists.mp ht
  obtain ⟨c1, c2⟩ := parsePlyMesh_congr file m m' hne (by
    intro hH
    have hH' : (headerStage file m').1 = true := by
      rw [headerStage_fst_indep file m' m]; exact hH
    obtain ⟨s1, s2, s3, s4, s5, s6⟩ := headerStage_of_success file m hH
    obtain ⟨t1, t2, t3, t4, t5, t6⟩ := headerStage_of_success file m' hH'
    exact ⟨s1.trans t1.symm,
      headerInfo_ext _ _ (by rw [s2, t2, hnv]; rfl) (by rw [s3, t3, hnt]; rfl)
        (s4.trans t4.symm) (s5.trans t5.symm) (s6.trans t6.symm)⟩)
  refine ⟨c1, c2, ?_⟩
  intro hf
  exact ⟨parsePlyMesh_cleared file m hne hf,
    parsePlyMesh_cleared file m' hne (by rw [← c1]; exact hf)⟩

end PlyParser
